import Mathlib

/-!
# LEUART / I2C embedded driver: energy-mode arbiter, scheduler, I2C and LEUART state machines

A shallow embedding of `sleep_routines.c`, `scheduler.c`, `i2c.c` and the
transmit and receive state machines of `leuart.c`.

Conventions of the embedding

* `uint32_t` values are natural numbers; every operation that can leave the
  32-bit range is reduced with `u32` (modulo `2 ^ 32`).
* `int` counters of the energy-mode table are integers.  The arithmetic on
  them (`+ 1`, `- 1`) is the mathematical one, which is what C defines
  whenever it defines a result at all (signed overflow is undefined in C).
* `EFM_ASSERT(c)` halts the program when `c` is false (`assertEFM` never
  returns); a halted run is an `Outcome.halt` carrying the state at the
  failing assertion.
* Static variables of the C files are fields of explicit state records.
-/

/-! ## Outcomes of a call -/

/-- Outcome of running a C function on a state of type `σ`. -/
inductive Outcome (σ : Type) where
  /-- the function returned, leaving the state `s` -/
  | ok (s : σ) : Outcome σ
  /-- an `EFM_ASSERT` failed; `s` is the state at the failing assertion -/
  | halt (s : σ) : Outcome σ
  /-- the function sits in a busy-wait loop whose condition still holds in `s` -/
  | spin (s : σ) : Outcome σ
  deriving Repr, DecidableEq

namespace Outcome

/-- Sequencing of calls: the next call only runs when the previous one returned. -/
def bind {σ τ : Type} (emb : σ → τ) (r : Outcome σ) (f : σ → Outcome τ) : Outcome τ :=
  match r with
  | ok s => f s
  | halt s => halt (emb s)
  | spin s => spin (emb s)

/-- An `EFM_ASSERT` has failed. -/
def failed {σ : Type} : Outcome σ → Bool
  | halt _ => true
  | _ => false

/-- The state when the call returned. -/
def state? {σ : Type} : Outcome σ → Option σ
  | ok s => some s
  | _ => none

end Outcome

/-! ## sleep_routines.h / sleep_routines.c -/

def EM0 : Nat := 0
def EM1 : Nat := 1
def EM2 : Nat := 2
def EM3 : Nat := 3
def EM4 : Nat := 4
def MAX_ENERGY_MODES : Nat := 5

/-- Macro `#define I2C_EM_BLOCK EM2`. -/
def I2C_EM_BLOCK : Nat := EM2

/-- The array `static int lowest_energy_mode[MAX_ENERGY_MODES]`. -/
abbrev EnergyTable := Fin 5 → Int

/-- Array store `t[i] = v`. -/
def EnergyTable.set (t : EnergyTable) (i : Fin 5) (v : Int) : EnergyTable :=
  fun j => if j = i then v else t j

/-- Sleep modes `enter_sleep` can enter (`EMU_EnterEM1/2/3`), or none. -/
inductive SleepAction where
  | none
  | enterEM1
  | enterEM2
  | enterEM3
  deriving Repr, DecidableEq

/-- Function `enter_sleep`: the chain of `if (lowest_energy_mode[EMx] > 0)` tests. The
table is not written. -/
def enter_sleep (t : EnergyTable) : SleepAction :=
  if t 0 > 0 then SleepAction.none
  else if t 1 > 0 then SleepAction.none
  else if t 2 > 0 then SleepAction.enterEM1
  else if t 3 > 0 then SleepAction.enterEM2
  else SleepAction.enterEM3

/-- The `for (i = 0; i < MAX_ENERGY_MODES; i++)` loop of
`current_block_energy_mode`, entered at index `i` with `fuel` iterations
available; falls through to `return (MAX_ENERGY_MODES - 1)`. -/
def current_block_energy_mode_loop (t : EnergyTable) : Nat → Nat → Nat
  | 0, _ => MAX_ENERGY_MODES - 1
  | fuel + 1, i =>
    if h : i < 5 then
      if t ⟨i, h⟩ ≠ 0 then i
      else current_block_energy_mode_loop t fuel (i + 1)
    else MAX_ENERGY_MODES - 1

/-- Function `current_block_energy_mode`: the loop runs at most `MAX_ENERGY_MODES` times. -/
def current_block_energy_mode (t : EnergyTable) : Nat :=
  current_block_energy_mode_loop t MAX_ENERGY_MODES 0

/-- Function `sleep_unblock_mode(EM)`: decrement, then `EFM_ASSERT(lowest_energy_mode[EM] >= 0)`.
The index is an array index, `EM < MAX_ENERGY_MODES`. -/
def sleep_unblock_mode (t : EnergyTable) (EM : Fin 5) : Outcome EnergyTable :=
  let t1 := t.set EM (t EM - 1)
  if t1 EM ≥ 0 then Outcome.ok t1 else Outcome.halt t1

/-- Function `sleep_block_mode(EM)`: increment, then `EFM_ASSERT(lowest_energy_mode[EM] < 5)`.
The counter is a C `int` of 32 bits: the `+ 1` here is the increment C defines
as long as the counter is below `INT_MAX = 2^31 - 1`; at `INT_MAX` the
increment overflows, which C leaves undefined, and this definition does not
describe the call. -/
def sleep_block_mode (t : EnergyTable) (EM : Fin 5) : Outcome EnergyTable :=
  let t1 := t.set EM (t EM + 1)
  if t1 EM < 5 then Outcome.ok t1 else Outcome.halt t1

/-- The `for (int j = 0; j < MAX_ENERGY_MODES; j++) lowest_energy_mode[j] = 0;`
loop of `sleep_open`, entered at index `j`. -/
def sleep_open_loop (t : EnergyTable) : Nat → Nat → EnergyTable
  | 0, _ => t
  | fuel + 1, j =>
    if h : j < 5 then sleep_open_loop (t.set ⟨j, h⟩ 0) fuel (j + 1)
    else t

/-- Function `sleep_open`: zero every counter. -/
def sleep_open (t : EnergyTable) : EnergyTable :=
  sleep_open_loop t MAX_ENERGY_MODES 0

/-- A call of the arbiter made by client code. -/
inductive SleepCall where
  | block (EM : Fin 5)
  | unblock (EM : Fin 5)
  deriving Repr, DecidableEq

/-- Run one arbiter call. -/
def SleepCall.run (t : EnergyTable) : SleepCall → Outcome EnergyTable
  | SleepCall.block d => sleep_block_mode t d
  | SleepCall.unblock d => sleep_unblock_mode t d

/-- Run a sequence of arbiter calls in order; a failed assertion stops the run. -/
def runSleepCalls (t : EnergyTable) : List SleepCall → Outcome EnergyTable
  | [] => Outcome.ok t
  | c :: cs => Outcome.bind id (c.run t) (fun t1 => runSleepCalls t1 cs)

/-! ## Machine words -/

/-- Reduction of a value to `uint32_t`. -/
def u32 (x : Nat) : Nat := x % 2 ^ 32

/-- Bitwise complement `~x` of a 32-bit value. -/
def not32 (x : Nat) : Nat := (2 ^ 32 - 1) ^^^ u32 x

/-- Decrement `x - 1` on `uint32_t` (wraps at zero). -/
def dec32 (x : Nat) : Nat := u32 (u32 x + (2 ^ 32 - 1))

/-- Shift `x << n` on a 32-bit value; bits shifted past bit 31 are lost. (C leaves
shift counts of 32 and more undefined; the model then yields 0.) -/
def shl32 (x n : Nat) : Nat := u32 (x <<< n)

/-- Shift `x >> n` on `uint32_t`. (C leaves shift counts of 32 and more undefined;
the model then yields 0 for a 32-bit `x`.) -/
def shr32 (x n : Nat) : Nat := u32 x >>> n

/-! ## scheduler.c -/

/-- Function `scheduler_open`: `event_scheduled = 0`. -/
def scheduler_open (_event_scheduled : Nat) : Nat := 0

/-- Function `add_scheduled_event`: `event_scheduled |= event`. -/
def add_scheduled_event (event_scheduled event : Nat) : Nat :=
  event_scheduled ||| event

/-- Function `remove_scheduled_event`: `event_scheduled = event_scheduled & ~event`. -/
def remove_scheduled_event (event_scheduled event : Nat) : Nat :=
  event_scheduled &&& not32 event

/-- Function `get_scheduled_events`: the current mask. -/
def get_scheduled_events (event_scheduled : Nat) : Nat := event_scheduled

/-! ## i2c.h and the I2C peripheral

The register bit values below are those of the Silicon Labs device header
(`*_i2c.h` of the EFR32/EFM32 Series 1 parts), which `em_i2c.h` includes. -/

def I2C_CMD_START : Nat := 0x1
def I2C_CMD_STOP : Nat := 0x2
def I2C_CMD_ACK : Nat := 0x4
def I2C_CMD_NACK : Nat := 0x8
def I2C_CMD_ABORT : Nat := 0x20
def I2C_CMD_CLEARTX : Nat := 0x40

def I2C_IF_RXDATAV : Nat := 0x20
def I2C_IF_ACK : Nat := 0x40
def I2C_IF_MSTOP : Nat := 0x100

def _I2C_STATE_STATE_MASK : Nat := 0xE0
def I2C_STATE_STATE_IDLE : Nat := 0x0

/-- Macro `#define READ_OP 1`. -/
def READ_OP : Nat := 1
/-- Macro `#define WRITE_OP 0`. -/
def WRITE_OP : Nat := 0

/-- Enumeration `DEFINED_STATES` of `i2c.h`. -/
inductive DEFINED_STATES where
  | init_write
  | write_data
  | init_read
  | read_data
  | rec_data
  | end_process
  deriving Repr, DecidableEq

/-- Values of type `I2C_TypeDef *`: the two controllers of the device, or any
other address. -/
inductive I2C_Ptr where
  | I2C0
  | I2C1
  | other (addr : Nat)
  deriving Repr, DecidableEq

/-- A store to a register of an I2C controller. -/
inductive I2C_Write where
  | CMD (v : Nat)
  | TXDATA (v : Nat)
  | IEN (v : Nat)
  | IFC (v : Nat)
  | IFS (v : Nat)
  deriving Repr, DecidableEq

/-- The registers of one I2C controller the driver touches. `STATE`,
`IF`, `IEN` and `RXDATA` are what a load returns; `writes` records every
store in program order, oldest first. -/
structure I2C_TypeDef where
  STATE : Nat
  IF : Nat
  IEN : Nat
  RXDATA : Nat
  writes : List I2C_Write
  deriving Repr, DecidableEq

/-- Effect of a store: it is recorded; a store to `IEN` replaces the enable
mask, a store to `IFC` clears and a store to `IFS` sets the written flag bits
of `IF`; `CMD` and `TXDATA` are write-only. -/
def I2C_TypeDef.store (r : I2C_TypeDef) (w : I2C_Write) : I2C_TypeDef :=
  match w with
  | I2C_Write.CMD _ => { r with writes := r.writes ++ [w] }
  | I2C_Write.TXDATA _ => { r with writes := r.writes ++ [w] }
  | I2C_Write.IEN v => { r with IEN := u32 v, writes := r.writes ++ [w] }
  | I2C_Write.IFC v => { r with IF := r.IF &&& not32 v, writes := r.writes ++ [w] }
  | I2C_Write.IFS v => { r with IF := r.IF ||| u32 v, writes := r.writes ++ [w] }

/-- Structure `I2C_STATE_MACHINE` of `i2c.h`. `data` is the address of the caller's
`uint32_t` word. -/
structure I2C_STATE_MACHINE where
  i2cx : I2C_Ptr
  busy : Bool
  rwrite : Nat
  peripheral_address : Nat
  register_address : Nat
  data : Nat
  bytes_per_transfer : Nat
  i2c_callback : Nat
  current_state : DEFINED_STATES
  deriving Repr, DecidableEq

/-- Values of type `I2C_STATE_MACHINE *` used by the driver: the addresses of
its two static instances. -/
inductive SM_Ptr where
  | i2c0_statemachine_vars
  | i2c1_statemachine_vars
  deriving Repr, DecidableEq

/-- The state the driver works on: the static variables of
`sleep_routines.c`, `scheduler.c` and `i2c.c`, the I2C controllers, and the
memory holding the callers' data words (`mem a` is the `uint32_t` at address
`a`). `posted` records the argument of every `add_scheduled_event` call made
by the driver, oldest first. -/
structure System where
  lowest_energy_mode : EnergyTable
  event_scheduled : Nat
  posted : List Nat
  i2c0_statemachine_vars : I2C_STATE_MACHINE
  i2c1_statemachine_vars : I2C_STATE_MACHINE
  i2c : I2C_Ptr → I2C_TypeDef
  mem : Nat → Nat

namespace System

/-- Load `*p` of a state-machine instance. -/
def sm (s : System) : SM_Ptr → I2C_STATE_MACHINE
  | SM_Ptr.i2c0_statemachine_vars => s.i2c0_statemachine_vars
  | SM_Ptr.i2c1_statemachine_vars => s.i2c1_statemachine_vars

/-- Store to the fields of a state-machine instance. -/
def setSM (s : System) (p : SM_Ptr) (m : I2C_STATE_MACHINE) : System :=
  match p with
  | SM_Ptr.i2c0_statemachine_vars => { s with i2c0_statemachine_vars := m }
  | SM_Ptr.i2c1_statemachine_vars => { s with i2c1_statemachine_vars := m }

/-- Store to a register of the controller at `p`. -/
def store (s : System) (p : I2C_Ptr) (w : I2C_Write) : System :=
  { s with i2c := fun q => if q = p then (s.i2c q).store w else s.i2c q }

/-- Store `*a = v` to a data word. -/
def setMem (s : System) (a v : Nat) : System :=
  { s with mem := fun b => if b = a then v else s.mem b }

/-- The hardware presents the received byte `b` in `RXDATA` of the controller at `p`. -/
def receive (s : System) (p : I2C_Ptr) (b : Nat) : System :=
  { s with i2c := fun q => if q = p then { s.i2c q with RXDATA := b } else s.i2c q }

end System

/-- The array index `lowest_energy_mode[I2C_EM_BLOCK]`. -/
def I2C_EM_BLOCK_index : Fin 5 := ⟨I2C_EM_BLOCK, by decide⟩

/-- Embedding of a table outcome into the system state. -/
def withTable (s : System) (t : EnergyTable) : System :=
  { s with lowest_energy_mode := t }

/-- A call `add_scheduled_event(event)` made by the driver, on the system state. -/
def post_event (s : System) (event : Nat) : System :=
  { s with event_scheduled := add_scheduled_event s.event_scheduled event,
           posted := s.posted ++ [event] }

/-- Function `i2c_ack_sm`: the ACK interrupt state machine. -/
def i2c_ack_sm (s : System) (i2c_ackSM : SM_Ptr) : Outcome System :=
  let m := s.sm i2c_ackSM
  match m.current_state with
  | DEFINED_STATES.init_write =>
    let s1 := s.store m.i2cx (I2C_Write.TXDATA m.register_address)
    if m.rwrite = READ_OP then
      Outcome.ok (s1.setSM i2c_ackSM { m with current_state := DEFINED_STATES.write_data })
    else if m.rwrite = WRITE_OP then
      Outcome.ok (s1.setSM i2c_ackSM { m with current_state := DEFINED_STATES.read_data })
    else Outcome.ok s1
  | DEFINED_STATES.write_data =>
    let s1 := s.store m.i2cx (I2C_Write.CMD I2C_CMD_START)
    let s2 := s1.store m.i2cx (I2C_Write.TXDATA (shl32 m.peripheral_address 1 ||| READ_OP))
    Outcome.ok (s2.setSM i2c_ackSM { m with current_state := DEFINED_STATES.init_read })
  | DEFINED_STATES.init_read => Outcome.ok s
  | DEFINED_STATES.read_data =>
    let n := dec32 m.bytes_per_transfer
    let m1 := { m with bytes_per_transfer := n }
    let s1 := s.setSM i2c_ackSM m1
    let s2 := s1.store m.i2cx (I2C_Write.TXDATA (shr32 (s1.mem m.data) (u32 (8 * n)) &&& 0xFF))
    if n = 0 then
      let s3 := s2.store m.i2cx (I2C_Write.CMD I2C_CMD_STOP)
      Outcome.ok (s3.setSM i2c_ackSM { m1 with current_state := DEFINED_STATES.rec_data })
    else Outcome.ok s2
  | DEFINED_STATES.rec_data => Outcome.ok s
  | DEFINED_STATES.end_process => Outcome.ok s

/-- Function `i2c_receive_sm`: the RXDATAV interrupt state machine. -/
def i2c_receive_sm (s : System) (i2c_ackSM : SM_Ptr) : Outcome System :=
  let m := s.sm i2c_ackSM
  match m.current_state with
  | DEFINED_STATES.init_write => Outcome.ok s
  | DEFINED_STATES.write_data => Outcome.ok s
  | DEFINED_STATES.init_read =>
    let n := dec32 m.bytes_per_transfer
    let m1 := { m with bytes_per_transfer := n }
    let s1 := s.setSM i2c_ackSM m1
    let s2 := s1.setMem m.data (s1.mem m.data &&& not32 (shl32 0xff (u32 (8 * n))))
    let s3 := s2.setMem m.data (s2.mem m.data ||| shl32 (s2.i2c m.i2cx).RXDATA (u32 (8 * n)))
    if n ≠ 0 then
      Outcome.ok (s3.store m.i2cx (I2C_Write.CMD I2C_CMD_ACK))
    else
      let s4 := s3.store m.i2cx (I2C_Write.CMD I2C_CMD_NACK)
      let s5 := s4.store m.i2cx (I2C_Write.CMD I2C_CMD_STOP)
      Outcome.ok (s5.setSM i2c_ackSM { m1 with current_state := DEFINED_STATES.rec_data })
  | DEFINED_STATES.read_data => Outcome.halt s
  | DEFINED_STATES.rec_data => Outcome.halt s
  | DEFINED_STATES.end_process => Outcome.halt s

/-- Function `i2c_msstop_sm`: the MSTOP interrupt state machine. -/
def i2c_msstop_sm (s : System) (i2c_ackSM : SM_Ptr) : Outcome System :=
  let m := s.sm i2c_ackSM
  let finish : Outcome System :=
    Outcome.bind (withTable s) (sleep_unblock_mode s.lowest_energy_mode I2C_EM_BLOCK_index)
      fun t =>
        let s1 := withTable s t
        let s2 := s1.setSM i2c_ackSM
          { m with busy := true, current_state := DEFINED_STATES.init_write }
        Outcome.ok (post_event s2 m.i2c_callback)
  match m.current_state with
  | DEFINED_STATES.init_write => Outcome.halt s
  | DEFINED_STATES.write_data => Outcome.halt s
  | DEFINED_STATES.init_read => Outcome.halt s
  | DEFINED_STATES.read_data => finish
  | DEFINED_STATES.rec_data => finish
  | DEFINED_STATES.end_process => Outcome.halt s

/-- The `if (i2c == I2C0) ... else if (i2c == I2C1) ... else EFM_ASSERT(false)`
selection of the state-machine instance, shared by `i2c_start`. -/
def i2c_local (i2c : I2C_Ptr) : Option SM_Ptr :=
  match i2c with
  | I2C_Ptr.I2C0 => some SM_Ptr.i2c0_statemachine_vars
  | I2C_Ptr.I2C1 => some SM_Ptr.i2c1_statemachine_vars
  | I2C_Ptr.other _ => none

/-- Function `i2c_start`. The `while (!i2c_local->busy);` loop is a `spin` outcome as
long as `busy` is false. -/
def i2c_start (s : System) (i2c : I2C_Ptr) (dev_address mode data bytes_per_transfer
    reg_address callback : Nat) : Outcome System :=
  match i2c_local i2c with
  | none => Outcome.halt s
  | some p =>
    if (s.sm p).busy = false then Outcome.spin s
    else if (s.i2c i2c).STATE &&& _I2C_STATE_STATE_MASK ≠ I2C_STATE_STATE_IDLE then
      Outcome.halt s
    else
      Outcome.bind (withTable s) (sleep_block_mode s.lowest_energy_mode I2C_EM_BLOCK_index)
        fun t =>
          let s1 := withTable s t
          let s2 := s1.setSM p
            { i2cx := i2c, busy := false, rwrite := mode, i2c_callback := callback,
              data := data, bytes_per_transfer := bytes_per_transfer,
              current_state := DEFINED_STATES.init_write,
              register_address := reg_address, peripheral_address := dev_address }
          let s3 := s2.store i2c (I2C_Write.CMD I2C_CMD_START)
          Outcome.ok (s3.store i2c (I2C_Write.TXDATA (shl32 dev_address 1 ||| WRITE_OP)))

/-- Function `busy_state`: the busy flag of the bus, false for an unsupported bus. -/
def busy_state (s : System) (i2c : I2C_Ptr) : Bool :=
  match i2c with
  | I2C_Ptr.I2C0 => s.i2c0_statemachine_vars.busy
  | I2C_Ptr.I2C1 => s.i2c1_statemachine_vars.busy
  | I2C_Ptr.other _ => false

/-- The hardware events the state machine is driven by. `rxdatav b` is a
receive-data-valid event with the byte `b` in `RXDATA`. -/
inductive I2C_Event where
  | ack
  | rxdatav (b : Nat)
  | mstop
  deriving Repr, DecidableEq

/-- Handling of one event by the state machine instance at `p`. -/
def i2c_event (s : System) (p : SM_Ptr) : I2C_Event → Outcome System
  | I2C_Event.ack => i2c_ack_sm s p
  | I2C_Event.rxdatav b => i2c_receive_sm (s.receive (s.sm p).i2cx b) p
  | I2C_Event.mstop => i2c_msstop_sm s p

/-- Handling of a sequence of events, in order; a failed assertion stops the run. -/
def i2c_events (s : System) (p : SM_Ptr) : List I2C_Event → Outcome System
  | [] => Outcome.ok s
  | e :: es => Outcome.bind id (i2c_event s p e) (fun s1 => i2c_events s1 p es)

/-- The value `b1 * 256^(n-1) + ... + bn` of a byte sequence `b1..bn`, first
byte most significant, computed by Horner's rule:
`be_value [b1, b2, b3] = ((0 * 256 + b1) * 256 + b2) * 256 + b3`. -/
def be_value (bs : List Nat) : Nat :=
  bs.foldl (fun acc b => acc * 256 + b) 0

/-- The interrupt events of one transaction with byte count `n`, up to and
including the bus-stop event. Read: the acknowledges of the address and of the
register address, the acknowledge of the repeated address, the received bytes
`bs`, the stop. Write: the acknowledges of the address, of the register
address and of the `n` data bytes, the stop. -/
def transaction_events (mode n : Nat) (bs : List Nat) : List I2C_Event :=
  if mode = READ_OP then
    [I2C_Event.ack, I2C_Event.ack, I2C_Event.ack] ++ bs.map I2C_Event.rxdatav ++ [I2C_Event.mstop]
  else
    List.replicate (n + 2) I2C_Event.ack ++ [I2C_Event.mstop]

/-- The state in which a run ended, whatever its outcome. -/
def Outcome.final {σ : Type} : Outcome σ → σ
  | Outcome.ok s => s
  | Outcome.halt s => s
  | Outcome.spin s => s

/-- Registers of a controller that is idle, with no flag pending and the
three driver interrupts enabled, before any store. -/
def I2C_TypeDef.idle : I2C_TypeDef :=
  { STATE := 0, IF := 0, IEN := I2C_IF_ACK ||| I2C_IF_RXDATAV ||| I2C_IF_MSTOP, RXDATA := 0,
    writes := [] }

/-- A zero-initialised state-machine instance on which `i2c_open` has set
`busy = true`. -/
def I2C_STATE_MACHINE.opened : I2C_STATE_MACHINE :=
  { i2cx := I2C_Ptr.other 0, busy := true, rwrite := 0, peripheral_address := 0,
    register_address := 0, data := 0, bytes_per_transfer := 0, i2c_callback := 0,
    current_state := DEFINED_STATES.init_write }

/-- A system with both buses opened and idle, no event scheduled, zeroed data
memory, and the energy-mode table `t`. -/
def System.opened (t : EnergyTable) : System :=
  { lowest_energy_mode := t, event_scheduled := 0, posted := [],
    i2c0_statemachine_vars := I2C_STATE_MACHINE.opened,
    i2c1_statemachine_vars := I2C_STATE_MACHINE.opened,
    i2c := fun _ => I2C_TypeDef.idle, mem := fun _ => 0 }

/-! ## Runs of the I2C driver -/

/-- The energy mode the processor enters by a sleep action: `EMU_EnterEM1`,
`EMU_EnterEM2(true)` and `EMU_EnterEM3(true)` enter EM1, EM2 and EM3;
without a call no mode is entered. -/
def SleepAction.entered : SleepAction → Option Nat
  | SleepAction.none => Option.none
  | SleepAction.enterEM1 => some EM1
  | SleepAction.enterEM2 => some EM2
  | SleepAction.enterEM3 => some EM3

/-- One step of a run of the I2C driver: a call of `i2c_start` that finds the
bus idle, or an interrupt event handled by the state machine instance at `p`. -/
inductive I2C_Step where
  | start (i2c : I2C_Ptr) (dev_address mode data bytes_per_transfer reg_address callback : Nat)
  | event (p : SM_Ptr) (e : I2C_Event)
  deriving Repr, DecidableEq

/-- Run one step. -/
def I2C_Step.run (s : System) : I2C_Step → Outcome System
  | I2C_Step.start i2c dev_address mode data bytes_per_transfer reg_address callback =>
    i2c_start s i2c dev_address mode data bytes_per_transfer reg_address callback
  | I2C_Step.event p e => i2c_event s p e

/-- Run a sequence of steps in order; a failed assertion or a busy-wait that
does not end stops the run. -/
def i2c_steps (s : System) : List I2C_Step → Outcome System
  | [] => Outcome.ok s
  | c :: cs => Outcome.bind id (c.run s) (fun s1 => i2c_steps s1 cs)

/-- Bookkeeping of the transactions in flight: a start on a bus puts its
instance in flight, the bus-stop event on an instance ends its flight. -/
def I2C_Step.flight (f : SM_Ptr → Bool) : I2C_Step → SM_Ptr → Bool
  | I2C_Step.start i2c _ _ _ _ _ _ => fun q => if i2c_local i2c = some q then true else f q
  | I2C_Step.event p I2C_Event.mstop => fun q => if q = p then false else f q
  | I2C_Step.event _ _ => f

/-- The instances with a transaction in flight after the steps, none being in
flight before them. -/
def in_flight (steps : List I2C_Step) : SM_Ptr → Bool :=
  steps.foldl I2C_Step.flight (fun _ => false)

/-- The step is not a bus-stop event on an instance without a transaction in
flight, `f` being the instances in flight before the step. -/
def I2C_Step.timely (f : SM_Ptr → Bool) : I2C_Step → Bool
  | I2C_Step.event p I2C_Event.mstop => f p
  | _ => true

/-- Every bus-stop event of the steps arrives on an instance whose transaction
is in flight, `f` being the instances in flight before the steps. -/
def stops_in_flight (f : SM_Ptr → Bool) : List I2C_Step → Bool
  | [] => true
  | c :: cs => c.timely f && stops_in_flight (c.flight f) cs

/-- Number of instances in flight. -/
def flight_count (f : SM_Ptr → Bool) : Int :=
  (if f SM_Ptr.i2c0_statemachine_vars then 1 else 0) +
  (if f SM_Ptr.i2c1_statemachine_vars then 1 else 0)

/-- The step is a start on the bus of the instance at `q`. -/
def I2C_Step.starts (q : SM_Ptr) : I2C_Step → Bool
  | I2C_Step.start i2c _ _ _ _ _ _ => decide (i2c_local i2c = some q)
  | I2C_Step.event _ _ => false

/-- A run on both buses: a one-byte write on I2C1 with its three acknowledges
and its bus-stop, then a start of a two-byte read on I2C0, then an acknowledge
and a bus-stop event on the idle I2C1. -/
def stop_on_idle_bus_steps : List I2C_Step :=
  [I2C_Step.start I2C_Ptr.I2C1 0x55 WRITE_OP 7 1 0x13 8,
   I2C_Step.event SM_Ptr.i2c1_statemachine_vars I2C_Event.ack,
   I2C_Step.event SM_Ptr.i2c1_statemachine_vars I2C_Event.ack,
   I2C_Step.event SM_Ptr.i2c1_statemachine_vars I2C_Event.ack,
   I2C_Step.event SM_Ptr.i2c1_statemachine_vars I2C_Event.mstop,
   I2C_Step.start I2C_Ptr.I2C0 0x55 READ_OP 9 2 0x13 4,
   I2C_Step.event SM_Ptr.i2c1_statemachine_vars I2C_Event.ack,
   I2C_Step.event SM_Ptr.i2c1_statemachine_vars I2C_Event.mstop]

/-- A run on I2C1: a one-byte write with its three acknowledges and its
bus-stop, then a further acknowledge handled while the bus is idle. -/
def ack_on_idle_bus_steps : List I2C_Step :=
  [I2C_Step.start I2C_Ptr.I2C1 0x55 WRITE_OP 7 1 0x13 8,
   I2C_Step.event SM_Ptr.i2c1_statemachine_vars I2C_Event.ack,
   I2C_Step.event SM_Ptr.i2c1_statemachine_vars I2C_Event.ack,
   I2C_Step.event SM_Ptr.i2c1_statemachine_vars I2C_Event.ack,
   I2C_Step.event SM_Ptr.i2c1_statemachine_vars I2C_Event.mstop,
   I2C_Step.event SM_Ptr.i2c1_statemachine_vars I2C_Event.ack]

/-- The run `stop_on_idle_bus_steps` followed by the events of the two-byte
read on I2C0 up to its last byte: three acknowledges and two received bytes. -/
def read_after_lost_block_steps : List I2C_Step :=
  stop_on_idle_bus_steps ++
  [I2C_Step.event SM_Ptr.i2c0_statemachine_vars I2C_Event.ack,
   I2C_Step.event SM_Ptr.i2c0_statemachine_vars I2C_Event.ack,
   I2C_Step.event SM_Ptr.i2c0_statemachine_vars I2C_Event.ack,
   I2C_Step.event SM_Ptr.i2c0_statemachine_vars (I2C_Event.rxdatav 0x12),
   I2C_Step.event SM_Ptr.i2c0_statemachine_vars (I2C_Event.rxdatav 0x34)]

/-! ## leuart.h, leuart.c and the LEUART peripheral

The register bit values below are those of the Silicon Labs device header
(`*_leuart.h` of the EFR32/EFM32 Series 1 parts), which `em_leuart.h` includes.
A `char` is its value as an unsigned byte. -/

/-- Macro `#define LEUART_TX_EM EM3`. -/
def LEUART_TX_EM : Nat := EM3
/-- Macro `#define LEUART_RX_EM EM3`. -/
def LEUART_RX_EM : Nat := EM3

/-- The array index `lowest_energy_mode[LEUART_TX_EM]`. -/
def LEUART_TX_EM_index : Fin 5 := ⟨LEUART_TX_EM, by decide⟩

def LEUART_IF_TXC : Nat := 0x1
def LEUART_IF_TXBL : Nat := 0x2
def LEUART_IF_RXDATAV : Nat := 0x4
def LEUART_IF_STARTF : Nat := 0x200
def LEUART_IF_SIGF : Nat := 0x400

def LEUART_IEN_TXC : Nat := 0x1
def LEUART_IEN_TXBL : Nat := 0x2
def LEUART_IEN_RXDATAV : Nat := 0x4
def LEUART_IEN_STARTF : Nat := 0x200
def LEUART_IEN_SIGF : Nat := 0x400

/-- The flags of `IF` that a store to `IFC` can clear (`TXBL` and `RXDATAV`
follow the buffers and are not among them). -/
def _LEUART_IFC_MASK : Nat := 0x7F9

def LEUART_CMD_RXBLOCKEN : Nat := 0x10
def LEUART_CMD_RXBLOCKDIS : Nat := 0x20

/-- Macro `#define BLE_TX_DONE_CB 0x00000080` of `app.h`. -/
def BLE_TX_DONE_CB : Nat := 0x80

/-- Conversion of a value to `char` / `uint8_t`. -/
def to_char (x : Nat) : Nat := x % 256

/-- Enumeration `LEUART_WRITE_STATES` of `leuart.h`; `end_state` is the
enumerator `end` of the source. -/
inductive LEUART_WRITE_STATES where
  | STRING_INIT
  | write_op
  | end_state
  deriving Repr, DecidableEq

/-- Enumeration `LEUART_READ_STATES` of `leuart.h`. -/
inductive LEUART_READ_STATES where
  | STARTFRAME
  | RXDATAV
  | SIGFRAME
  deriving Repr, DecidableEq

/-- Values of type `LEUART_TypeDef *`: the controller of the device, or any
other address. -/
inductive LEUART_Ptr where
  | LEUART0
  | other (addr : Nat)
  deriving Repr, DecidableEq

/-- A store to a register of a LEUART controller. -/
inductive LEUART_Write where
  | TXDATA (v : Nat)
  | IEN (v : Nat)
  | IFC (v : Nat)
  | CMD (v : Nat)
  deriving Repr, DecidableEq

/-- The registers of a LEUART controller the driver touches. `IF`, `IEN`,
`RXDATA` and `SYNCBUSY` are what a load returns; `IFC` and `CMD` are what a
load of these command registers returns (the driver loads them in `|=`);
`writes` records every store in program order, oldest first. -/
structure LEUART_TypeDef where
  IF : Nat
  IEN : Nat
  IFC : Nat
  CMD : Nat
  RXDATA : Nat
  SYNCBUSY : Nat
  writes : List LEUART_Write
  deriving Repr, DecidableEq

/-- Effect of a store: it is recorded; a store to `IEN` replaces the enable
mask, a store to `IFC` clears the written clearable flag bits of `IF`. -/
def LEUART_TypeDef.store (r : LEUART_TypeDef) (w : LEUART_Write) : LEUART_TypeDef :=
  match w with
  | LEUART_Write.TXDATA _ => { r with writes := r.writes ++ [w] }
  | LEUART_Write.IEN v => { r with IEN := u32 v, writes := r.writes ++ [w] }
  | LEUART_Write.IFC v =>
    { r with IF := r.IF &&& not32 (v &&& _LEUART_IFC_MASK), writes := r.writes ++ [w] }
  | LEUART_Write.CMD _ => { r with writes := r.writes ++ [w] }

/-- Array store `a[i] = c` on a `char` array, as a map from index to char. -/
def char_store (a : Nat → Nat) (i c : Nat) : Nat → Nat :=
  fun j => if j = i then to_char c else a j

/-- Function `strcpy(dst, src)`: `src` lists the chars at the source address; those
before its first NUL are copied to `dst[0]`, `dst[1]`, ..., followed by a NUL.
(C leaves the copy of a string that does not fit the array undefined.) -/
def strcpy (dst : Nat → Nat) (src : List Nat) : Nat → Nat :=
  fun i =>
    if i < (src.takeWhile (fun c => c != 0)).length then
      (src.takeWhile (fun c => c != 0)).getD i 0
    else if i = (src.takeWhile (fun c => c != 0)).length then 0
    else dst i

/-- The C string held from index `i` on in a `char` array with `size` chars
left: the chars before the first NUL; `none` when no NUL is left in the
array. -/
def c_string (a : Nat → Nat) : Nat → Nat → Option (List Nat)
  | 0, _ => none
  | size + 1, i =>
    if a i = 0 then some [] else (c_string a size (i + 1)).map (fun cs => a i :: cs)

/-- Structure `LEUART_WRITE_SM` of `leuart.h`; `data` is the array `char data[80]`. -/
structure LEUART_WRITE_SM where
  current_state : LEUART_WRITE_STATES
  leuart : LEUART_Ptr
  data : Nat → Nat
  str_length : Nat
  leuart0_write_cb : Nat
  busy : Bool
  data_sent : Nat

/-- Structure `LEUART_READ_SM` of `leuart.h`; `read_str` is the array
`char read_str[80]`. -/
structure LEUART_READ_SM where
  current_read_state : LEUART_READ_STATES
  leuart_read : LEUART_Ptr
  leuart0_read_cb : Nat
  read_busy : Bool
  read_str : Nat → Nat
  str_length : Nat

/-- The state the LEUART driver works on: the static variables of
`sleep_routines.c`, `scheduler.c` and `leuart.c`, and the LEUART controllers.
`posted` records the argument of every `add_scheduled_event` call made by the
driver, oldest first. -/
structure LEUART_System where
  lowest_energy_mode : EnergyTable
  event_scheduled : Nat
  posted : List Nat
  leuart0_SM : LEUART_WRITE_SM
  leuart0_SM_READ : LEUART_READ_SM
  leuart : LEUART_Ptr → LEUART_TypeDef

namespace LEUART_System

/-- Store to a register of the controller at `p`. -/
def store (s : LEUART_System) (p : LEUART_Ptr) (w : LEUART_Write) : LEUART_System :=
  { s with leuart := fun q => if q = p then (s.leuart q).store w else s.leuart q }

/-- The hardware presents the received byte `b` in `RXDATA` of the controller at `p`. -/
def receive (s : LEUART_System) (p : LEUART_Ptr) (b : Nat) : LEUART_System :=
  { s with leuart := fun q => if q = p then { s.leuart q with RXDATA := b } else s.leuart q }

/-- The hardware sets the flag bits `flags` in `IF` of the controller at `p`. -/
def raise (s : LEUART_System) (p : LEUART_Ptr) (flags : Nat) : LEUART_System :=
  { s with leuart := fun q =>
      if q = p then { s.leuart q with IF := (s.leuart q).IF ||| flags } else s.leuart q }

/-- Embedding of a table outcome into the system state. -/
def withTable (s : LEUART_System) (t : EnergyTable) : LEUART_System :=
  { s with lowest_energy_mode := t }

/-- A call `add_scheduled_event(event)` made by the driver. -/
def post (s : LEUART_System) (event : Nat) : LEUART_System :=
  { s with event_scheduled := add_scheduled_event s.event_scheduled event,
           posted := s.posted ++ [event] }

end LEUART_System

/-- Function `leuart_start`. The `while(leuart0_SM.busy);` loop is a `spin` outcome as
long as `busy` is true. `string` lists the chars at the address `string`. -/
def leuart_start (s : LEUART_System) (leuart : LEUART_Ptr) (string : List Nat)
    (string_len leuart_cb : Nat) : Outcome LEUART_System :=
  if s.leuart0_SM.busy = true then Outcome.spin s
  else
    let s1 : LEUART_System := { s with leuart0_SM :=
      { current_state := LEUART_WRITE_STATES.STRING_INIT, leuart := leuart,
        data := strcpy s.leuart0_SM.data string, data_sent := 0,
        str_length := string_len, leuart0_write_cb := leuart_cb, busy := true } }
    Outcome.bind s1.withTable (sleep_block_mode s1.lowest_energy_mode LEUART_TX_EM_index)
      fun t =>
        let s2 := s1.withTable t
        Outcome.ok (s2.store s2.leuart0_SM.leuart
          (LEUART_Write.IEN ((s2.leuart s2.leuart0_SM.leuart).IEN ||| LEUART_IEN_TXBL)))

/-- Function `leuart_tx_busy`: it returns the `read_busy` flag of the read state machine. -/
def leuart_tx_busy (s : LEUART_System) : Bool := s.leuart0_SM_READ.read_busy

/-- Function `leuart_app_transmit_byte`: wait for `TXBL` in `IF`, then store the byte to
`TXDATA`. The parameter `data_out` is a `uint8_t`. -/
def leuart_app_transmit_byte (s : LEUART_System) (leuart : LEUART_Ptr) (data_out : Nat) :
    Outcome LEUART_System :=
  if (s.leuart leuart).IF &&& LEUART_IF_TXBL = 0 then Outcome.spin s
  else Outcome.ok (s.store leuart (LEUART_Write.TXDATA (to_char data_out)))

/-- Function `TXBL_IRQ`, called with `&leuart0_SM`, the only instance. -/
def TXBL_IRQ (s : LEUART_System) : Outcome LEUART_System :=
  let m := s.leuart0_SM
  match m.current_state with
  | LEUART_WRITE_STATES.STRING_INIT =>
    Outcome.ok { s with leuart0_SM := { m with current_state := LEUART_WRITE_STATES.write_op } }
  | LEUART_WRITE_STATES.write_op =>
    if m.data_sent ≠ m.str_length then
      Outcome.bind id (leuart_app_transmit_byte s m.leuart (m.data m.data_sent)) fun s1 =>
        Outcome.ok { s1 with leuart0_SM :=
          { s1.leuart0_SM with data_sent := u32 (s1.leuart0_SM.data_sent + 1) } }
    else
      let s1 := s.store LEUART_Ptr.LEUART0
        (LEUART_Write.IEN ((s.leuart LEUART_Ptr.LEUART0).IEN &&& not32 LEUART_IEN_TXBL))
      let s2 := s1.store LEUART_Ptr.LEUART0
        (LEUART_Write.IFC ((s1.leuart LEUART_Ptr.LEUART0).IFC ||| LEUART_IEN_TXC))
      let s3 := s2.store LEUART_Ptr.LEUART0
        (LEUART_Write.IEN ((s2.leuart LEUART_Ptr.LEUART0).IEN ||| LEUART_IEN_TXC))
      Outcome.ok { s3 with leuart0_SM :=
        { s3.leuart0_SM with current_state := LEUART_WRITE_STATES.end_state } }
  | LEUART_WRITE_STATES.end_state => Outcome.halt s

/-- Function `TXC_IRQ`, called with `&leuart0_SM`. -/
def TXC_IRQ (s : LEUART_System) : Outcome LEUART_System :=
  let m := s.leuart0_SM
  match m.current_state with
  | LEUART_WRITE_STATES.end_state =>
    let s1 := s.store m.leuart
      (LEUART_Write.IEN ((s.leuart m.leuart).IEN &&& not32 LEUART_IEN_TXC))
    Outcome.bind s1.withTable (sleep_unblock_mode s1.lowest_energy_mode LEUART_TX_EM_index)
      fun t =>
        let s2 := s1.withTable t
        let s3 : LEUART_System := { s2 with leuart0_SM := { s2.leuart0_SM with busy := false } }
        Outcome.ok (s3.post s3.leuart0_SM.leuart0_write_cb)
  | LEUART_WRITE_STATES.STRING_INIT => Outcome.halt s
  | LEUART_WRITE_STATES.write_op => Outcome.halt s

/-- Function `STARTFRAME_HANDLER`, called with `&leuart0_SM_READ`, the only instance. -/
def STARTFRAME_HANDLER (s : LEUART_System) : Outcome LEUART_System :=
  let m := s.leuart0_SM_READ
  match m.current_read_state with
  | LEUART_READ_STATES.STARTFRAME =>
    let p := m.leuart_read
    let s1 := s.store p (LEUART_Write.IEN ((s.leuart p).IEN ||| LEUART_IEN_RXDATAV))
    let s2 := s1.store p (LEUART_Write.IEN ((s1.leuart p).IEN ||| LEUART_IEN_SIGF))
    let s3 := s2.store p (LEUART_Write.CMD ((s2.leuart p).CMD ||| LEUART_CMD_RXBLOCKDIS))
    Outcome.ok { s3 with leuart0_SM_READ :=
      { m with current_read_state := LEUART_READ_STATES.RXDATAV,
               read_str := char_store m.read_str 0 (s3.leuart p).RXDATA,
               str_length := u32 (0 + 1) } }
  | LEUART_READ_STATES.RXDATAV => Outcome.halt s
  | LEUART_READ_STATES.SIGFRAME => Outcome.halt s

/-- Function `RXDATAV_HANDLER`, called with `&leuart0_SM_READ`. -/
def RXDATAV_HANDLER (s : LEUART_System) : Outcome LEUART_System :=
  let m := s.leuart0_SM_READ
  match m.current_read_state with
  | LEUART_READ_STATES.RXDATAV =>
    Outcome.ok { s with leuart0_SM_READ :=
      { m with read_str := char_store m.read_str m.str_length (s.leuart m.leuart_read).RXDATA,
               str_length := u32 (m.str_length + 1) } }
  | LEUART_READ_STATES.STARTFRAME => Outcome.halt s
  | LEUART_READ_STATES.SIGFRAME => Outcome.halt s

/-- Function `SIGFRAME_HANDLER`, called with `&leuart0_SM_READ`. The
`while(...->SYNCBUSY);` loop is a `spin` outcome as long as `SYNCBUSY` is nonzero. -/
def SIGFRAME_HANDLER (s : LEUART_System) : Outcome LEUART_System :=
  let m := s.leuart0_SM_READ
  match m.current_read_state with
  | LEUART_READ_STATES.RXDATAV =>
    let p := m.leuart_read
    let s1 := s.store p (LEUART_Write.IEN ((s.leuart p).IEN &&& not32 LEUART_IEN_RXDATAV))
    let s2 := s1.store p (LEUART_Write.IEN ((s1.leuart p).IEN &&& not32 LEUART_IEN_SIGF))
    let s3 := s2.store p (LEUART_Write.CMD ((s2.leuart p).CMD ||| LEUART_CMD_RXBLOCKEN))
    if (s3.leuart p).SYNCBUSY ≠ 0 then
      Outcome.spin { s3 with leuart0_SM_READ :=
        { m with current_read_state := LEUART_READ_STATES.SIGFRAME } }
    else
      let s4 : LEUART_System := { s3 with leuart0_SM_READ :=
        { m with read_str := char_store m.read_str m.str_length 0,
                 str_length := u32 (m.str_length + 1),
                 current_read_state := LEUART_READ_STATES.STARTFRAME } }
      Outcome.ok (s4.post BLE_TX_DONE_CB)
  | LEUART_READ_STATES.STARTFRAME => Outcome.halt s
  | LEUART_READ_STATES.SIGFRAME => Outcome.halt s

/-- Function `received_str(out_str)`: `strcpy(out_str, leuart0_SM_READ.read_str)`; the result is
the string copied to `out_str`, `none` when the 80 chars of `read_str` hold no NUL. -/
def received_str (s : LEUART_System) : Option (List Nat) :=
  c_string s.leuart0_SM_READ.read_str 80 0

/-- The interrupt events the LEUART state machines are driven by. `txbl`:
the transmit buffer of the controller of the write state machine is empty
(`TXBL` set in its `IF`); `startf b` and `rxdatav b`: the byte `b` is in
`RXDATA` of the controller of the read state machine. -/
inductive LEUART_Event where
  | txbl
  | txc
  | startf (b : Nat)
  | rxdatav (b : Nat)
  | sigf
  deriving Repr, DecidableEq

/-- Handling of one event. -/
def leuart_event (s : LEUART_System) : LEUART_Event → Outcome LEUART_System
  | LEUART_Event.txbl => TXBL_IRQ (s.raise s.leuart0_SM.leuart LEUART_IF_TXBL)
  | LEUART_Event.txc => TXC_IRQ s
  | LEUART_Event.startf b => STARTFRAME_HANDLER (s.receive s.leuart0_SM_READ.leuart_read b)
  | LEUART_Event.rxdatav b => RXDATAV_HANDLER (s.receive s.leuart0_SM_READ.leuart_read b)
  | LEUART_Event.sigf => SIGFRAME_HANDLER s

/-- Handling of a sequence of events, in order; a failed assertion or a wait
that does not end stops the run. -/
def leuart_events (s : LEUART_System) : List LEUART_Event → Outcome LEUART_System
  | [] => Outcome.ok s
  | e :: es => Outcome.bind id (leuart_event s e) (fun s1 => leuart_events s1 es)

/-- Registers of the LEUART controller after `leuart_open`: no flag pending,
only the start-frame interrupt enabled, not busy synchronising, before any
recorded store. -/
def LEUART_TypeDef.idle : LEUART_TypeDef :=
  { IF := 0, IEN := LEUART_IEN_STARTF, IFC := 0, CMD := 0, RXDATA := 0, SYNCBUSY := 0,
    writes := [] }

/-- A system after `leuart_open(LEUART0, ...)`, with the energy-mode table `t`:
the write state machine zero-initialised, the read state machine in `STARTFRAME`
on `LEUART0`, no event scheduled. -/
def LEUART_System.opened (t : EnergyTable) : LEUART_System :=
  { lowest_energy_mode := t, event_scheduled := 0, posted := [],
    leuart0_SM :=
      { current_state := LEUART_WRITE_STATES.STRING_INIT, leuart := LEUART_Ptr.other 0,
        data := fun _ => 0, str_length := 0, leuart0_write_cb := 0, busy := false,
        data_sent := 0 },
    leuart0_SM_READ :=
      { current_read_state := LEUART_READ_STATES.STARTFRAME,
        leuart_read := LEUART_Ptr.LEUART0, leuart0_read_cb := 0, read_busy := false,
        read_str := fun _ => 0, str_length := 0 },
    leuart := fun _ => LEUART_TypeDef.idle }

/-! ## I2C: the data of a transaction, interrupt entry points, bus reset, open -/

/-- The fields of a state-machine instance that describe the transaction:
controller, direction, peripheral address, register address, data pointer and
callback token. -/
def I2C_STATE_MACHINE.transaction (m : I2C_STATE_MACHINE) :
    I2C_Ptr × Nat × Nat × Nat × Nat × Nat :=
  (m.i2cx, m.rwrite, m.peripheral_address, m.register_address, m.data, m.i2c_callback)

/-- The three event handlers of `i2c.c`. -/
inductive I2C_Handler where
  | ack
  | receive
  | msstop
  deriving Repr, DecidableEq

/-- A call of a handler on the instance at `p`. -/
def I2C_Handler.run (s : System) (p : SM_Ptr) : I2C_Handler → Outcome System
  | I2C_Handler.ack => i2c_ack_sm s p
  | I2C_Handler.receive => i2c_receive_sm s p
  | I2C_Handler.msstop => i2c_msstop_sm s p

/-- Handler calls in order, each on the state the previous one produced; a
failed assertion stops the run. -/
def i2c_handlers (s : System) (p : SM_Ptr) : List I2C_Handler → Outcome System
  | [] => Outcome.ok s
  | h :: hs => Outcome.bind id (h.run s p) (fun s1 => i2c_handlers s1 p hs)

/-- Following the specification of the interrupt entry points: the handlers
to dispatch for the pending-and-enabled flag set `F`, in the fixed priority
order acknowledge, receive-data-valid, bus-stop. -/
def dispatched_handlers (F : Nat) : List I2C_Handler :=
  (if F &&& I2C_IF_ACK ≠ 0 then [I2C_Handler.ack] else []) ++
  (if F &&& I2C_IF_RXDATAV ≠ 0 then [I2C_Handler.receive] else []) ++
  (if F &&& I2C_IF_MSTOP ≠ 0 then [I2C_Handler.msstop] else [])

/-- Function `I2C0_IRQHandler`. -/
def I2C0_IRQHandler (s : System) : Outcome System :=
  let int_flag := (s.i2c I2C_Ptr.I2C0).IF &&& (s.i2c I2C_Ptr.I2C0).IEN
  let s0 := s.store I2C_Ptr.I2C0 (I2C_Write.IFC int_flag)
  Outcome.bind id
    (if int_flag &&& I2C_IF_ACK ≠ 0 then i2c_ack_sm s0 SM_Ptr.i2c0_statemachine_vars
     else Outcome.ok s0)
    fun s1 =>
      Outcome.bind id
        (if int_flag &&& I2C_IF_RXDATAV ≠ 0 then
          i2c_receive_sm s1 SM_Ptr.i2c0_statemachine_vars
         else Outcome.ok s1)
        fun s2 =>
          if int_flag &&& I2C_IF_MSTOP ≠ 0 then i2c_msstop_sm s2 SM_Ptr.i2c0_statemachine_vars
          else Outcome.ok s2

/-- Function `I2C1_IRQHandler`. -/
def I2C1_IRQHandler (s : System) : Outcome System :=
  let int_flag := (s.i2c I2C_Ptr.I2C1).IF &&& (s.i2c I2C_Ptr.I2C1).IEN
  let s0 := s.store I2C_Ptr.I2C1 (I2C_Write.IFC int_flag)
  Outcome.bind id
    (if int_flag &&& I2C_IF_ACK ≠ 0 then i2c_ack_sm s0 SM_Ptr.i2c1_statemachine_vars
     else Outcome.ok s0)
    fun s1 =>
      Outcome.bind id
        (if int_flag &&& I2C_IF_RXDATAV ≠ 0 then
          i2c_receive_sm s1 SM_Ptr.i2c1_statemachine_vars
         else Outcome.ok s1)
        fun s2 =>
          if int_flag &&& I2C_IF_MSTOP ≠ 0 then i2c_msstop_sm s2 SM_Ptr.i2c1_statemachine_vars
          else Outcome.ok s2

/-- The controller at `p` sets the flag bits `flags` in its `IF`. -/
def System.raise (s : System) (p : I2C_Ptr) (flags : Nat) : System :=
  { s with i2c := fun q =>
      if q = p then { s.i2c q with IF := (s.i2c q).IF ||| flags } else s.i2c q }

/-- Function `i2c_bus_reset`. `raised` are the flags the controller has set in `IF`,
in response to the START|STOP command, when the wait loop reads `IF`; the
`while(!(i2c->IF & I2C_IF_MSTOP));` loop is a `spin` outcome when MSTOP is not
pending then. -/
def i2c_bus_reset (s : System) (i2c : I2C_Ptr) (raised : Nat) : Outcome System :=
  let s1 := s.store i2c (I2C_Write.CMD I2C_CMD_ABORT)
  let ien_save_state := (s1.i2c i2c).IEN
  let s2 := s1.store i2c (I2C_Write.IEN 0)
  let s3 := s2.store i2c (I2C_Write.IFC (s2.i2c i2c).IF)
  let s4 := s3.store i2c (I2C_Write.CMD I2C_CMD_CLEARTX)
  let s5 := (s4.store i2c (I2C_Write.CMD (I2C_CMD_START ||| I2C_CMD_STOP))).raise i2c raised
  if (s5.i2c i2c).IF &&& I2C_IF_MSTOP = 0 then Outcome.spin s5
  else
    let s6 := s5.store i2c (I2C_Write.IFC (s5.i2c i2c).IF)
    let s7 := s6.store i2c (I2C_Write.CMD I2C_CMD_ABORT)
    Outcome.ok (s7.store i2c (I2C_Write.IEN ien_save_state))

/-- The system with the registers of the controller at `p` replaced by `r`. -/
def System.setReg (s : System) (p : I2C_Ptr) (r : I2C_TypeDef) : System :=
  { s with i2c := fun q => if q = p then r else s.i2c q }

def I2C_IEN_RXDATAV : Nat := 0x20
def I2C_IEN_ACK : Nat := 0x40
def I2C_IEN_MSTOP : Nat := 0x100

/-- Structure `I2C_OPEN_STRUCT` of `i2c.h`; `clhr` is the value of the vendor
enumeration `I2C_ClockHLR_TypeDef`. -/
structure I2C_OPEN_STRUCT where
  enable : Bool
  master : Bool
  refFreq : Nat
  freq : Nat
  clhr : Nat
  scl_pin_en : Bool
  sda_pin_en : Bool
  scl_Location : Nat
  sda_Location : Nat
  irq_ack_en : Bool
  rxdata_irq_en : Bool
  irq_stop_en : Bool
  deriving Repr, DecidableEq

/-- Function `i2c_open`. The vendor calls `CMU_ClockEnable` and `NVIC_EnableIRQ` act
outside the modelled state. `I2C_Init` stands for what the vendor function
`I2C_Init`, called with the values copied from `i2c_setup`, and the two stores
to the routing registers `ROUTELOC0` and `ROUTEPEN` that follow it do to the
modelled registers of the controller; `raised` is the input of
`i2c_bus_reset`. -/
def i2c_open (s : System) (address : I2C_Ptr) (i2c_setup : I2C_OPEN_STRUCT)
    (I2C_Init : I2C_TypeDef → I2C_TypeDef) (raised : Nat) : Outcome System :=
  let s1 :=
    match address with
    | I2C_Ptr.I2C0 =>
      s.setSM SM_Ptr.i2c0_statemachine_vars { s.i2c0_statemachine_vars with busy := true }
    | I2C_Ptr.I2C1 =>
      s.setSM SM_Ptr.i2c1_statemachine_vars { s.i2c1_statemachine_vars with busy := true }
    | I2C_Ptr.other _ => s
  Outcome.bind id
    (if (s1.i2c address).IF &&& 0x01 = 0 then
      let s2 := s1.store address (I2C_Write.IFS 0x01)
      if (s2.i2c address).IF &&& 0x01 = 0 then Outcome.halt s2
      else Outcome.ok (s2.store address (I2C_Write.IFC 0x01))
     else
      let s2 := s1.store address (I2C_Write.IFC 0x01)
      if (s2.i2c address).IF &&& 0x01 ≠ 0 then Outcome.halt s2 else Outcome.ok s2)
    fun s3 =>
      let s4 := s3.setReg address (I2C_Init (s3.i2c address))
      let s5 := s4.store address (I2C_Write.IEN
        ((s4.i2c address).IEN ||| I2C_IEN_ACK * i2c_setup.irq_ack_en.toNat))
      let s6 := s5.store address (I2C_Write.IEN
        ((s5.i2c address).IEN ||| I2C_IEN_RXDATAV * i2c_setup.rxdata_irq_en.toNat))
      let s7 := s6.store address (I2C_Write.IEN
        ((s6.i2c address).IEN ||| I2C_IEN_MSTOP * i2c_setup.irq_stop_en.toNat))
      i2c_bus_reset s7 address raised

/-- The step is not an interrupt event handled for an instance without a
transaction in flight, `f` being the instances in flight before the step. -/
def I2C_Step.in_time (f : SM_Ptr → Bool) : I2C_Step → Bool
  | I2C_Step.event p _ => f p
  | I2C_Step.start _ _ _ _ _ _ _ => true

/-- Every interrupt event of the steps is handled for an instance whose
transaction is in flight, `f` being the instances in flight before the steps. -/
def events_in_flight (f : SM_Ptr → Bool) : List I2C_Step → Bool
  | [] => true
  | c :: cs => c.in_time f && events_in_flight (c.flight f) cs

/-- A run on I2C1: a one-byte write with its three acknowledges and its
bus-stop. -/
def write_byte_steps : List I2C_Step :=
  [I2C_Step.start I2C_Ptr.I2C1 0x55 WRITE_OP 7 1 0x13 8,
   I2C_Step.event SM_Ptr.i2c1_statemachine_vars I2C_Event.ack,
   I2C_Step.event SM_Ptr.i2c1_statemachine_vars I2C_Event.ack,
   I2C_Step.event SM_Ptr.i2c1_statemachine_vars I2C_Event.ack,
   I2C_Step.event SM_Ptr.i2c1_statemachine_vars I2C_Event.mstop]

/-! ## Runs of the LEUART driver -/

/-- The stores of `leuart_open` to the static variables of `leuart.c`, in the
order of the source: all of them are to fields of `leuart0_SM_READ`.
`rx_done_evt` is the value of the global variable of that name. -/
def leuart_open_statics (s : LEUART_System) (leuart : LEUART_Ptr) (rx_done_evt : Nat) :
    LEUART_System :=
  let s1 : LEUART_System :=
    { s with leuart0_SM_READ := { s.leuart0_SM_READ with leuart_read := leuart } }
  let s2 : LEUART_System :=
    { s1 with leuart0_SM_READ := { s1.leuart0_SM_READ with leuart0_read_cb := BLE_TX_DONE_CB } }
  let s3 : LEUART_System :=
    { s2 with leuart0_SM_READ := { s2.leuart0_SM_READ with leuart0_read_cb := rx_done_evt } }
  let s4 : LEUART_System :=
    { s3 with leuart0_SM_READ :=
      { s3.leuart0_SM_READ with current_read_state := LEUART_READ_STATES.STARTFRAME } }
  { s4 with leuart0_SM_READ := { s4.leuart0_SM_READ with str_length := 0 } }

/-- One step of a run of the LEUART driver. `leuart_open` is the steps it is
made of: `registers r` is any change of the controller registers (the
register stores of `leuart_open` and of the self-test `leuart_rx_tdd` it
calls, the vendor functions, the hardware), `open_statics` the stores of
`leuart_open` to the static variables, and the transmission of the self-test
a `start` step followed by interrupt events. `start` is a call of
`leuart_start`, `event` an interrupt event handled by the driver. -/
inductive LEUART_Step where
  | registers (r : LEUART_Ptr → LEUART_TypeDef)
  | open_statics (leuart : LEUART_Ptr) (rx_done_evt : Nat)
  | start (leuart : LEUART_Ptr) (string : List Nat) (string_len leuart_cb : Nat)
  | event (e : LEUART_Event)

/-- Run one step. -/
def LEUART_Step.run (s : LEUART_System) : LEUART_Step → Outcome LEUART_System
  | LEUART_Step.registers r => Outcome.ok { s with leuart := r }
  | LEUART_Step.open_statics leuart rx_done_evt =>
    Outcome.ok (leuart_open_statics s leuart rx_done_evt)
  | LEUART_Step.start leuart string string_len leuart_cb =>
    leuart_start s leuart string string_len leuart_cb
  | LEUART_Step.event e => leuart_event s e

/-- Run a sequence of steps in order; a failed assertion or a busy-wait that
does not end stops the run. -/
def leuart_steps (s : LEUART_System) : List LEUART_Step → Outcome LEUART_System
  | [] => Outcome.ok s
  | c :: cs => Outcome.bind id (c.run s) (fun s1 => leuart_steps s1 cs)

/-- The driver before `leuart_open`: the static variables of `leuart.c`
zero-initialised, no event scheduled, the energy-mode table `t` and the
controller registers `r`. -/
def LEUART_System.reset (t : EnergyTable) (r : LEUART_Ptr → LEUART_TypeDef) : LEUART_System :=
  { lowest_energy_mode := t, event_scheduled := 0, posted := [],
    leuart0_SM :=
      { current_state := LEUART_WRITE_STATES.STRING_INIT, leuart := LEUART_Ptr.other 0,
        data := fun _ => 0, str_length := 0, leuart0_write_cb := 0, busy := false,
        data_sent := 0 },
    leuart0_SM_READ :=
      { current_read_state := LEUART_READ_STATES.STARTFRAME,
        leuart_read := LEUART_Ptr.other 0, leuart0_read_cb := 0, read_busy := false,
        read_str := fun _ => 0, str_length := 0 },
    leuart := r }

/-- A run from the driver before `leuart_open`: the stores of `leuart_open`,
then the string "ab" is started on LEUART0 and the first two transmit-buffer
events are handled, the second one sending the char 'a'. -/
def leuart_sending_steps : List LEUART_Step :=
  [LEUART_Step.registers (fun _ => LEUART_TypeDef.idle),
   LEUART_Step.open_statics LEUART_Ptr.LEUART0 0x100,
   LEUART_Step.start LEUART_Ptr.LEUART0 [97, 98] 2 0x40,
   LEUART_Step.event LEUART_Event.txbl,
   LEUART_Step.event LEUART_Event.txbl]

/-! ## Energy-mode arbiter: helper lemmas -/

theorem EnergyTable.set_same (t : EnergyTable) (i : Fin 5) (v : Int) :
    (t.set i v) i = v := by
  simp [EnergyTable.set]

theorem EnergyTable.set_other (t : EnergyTable) (i j : Fin 5) (v : Int) (h : j ≠ i) :
    (t.set i v) j = t j := by
  simp [EnergyTable.set, h]

theorem EnergyTable.set_set (t : EnergyTable) (i : Fin 5) (v w : Int) :
    (t.set i v).set i w = t.set i w := by
  funext j
  by_cases h : j = i <;> simp [EnergyTable.set, h]

theorem EnergyTable.set_self (t : EnergyTable) (i : Fin 5) :
    t.set i (t i) = t := by
  funext j
  by_cases h : j = i <;> simp [EnergyTable.set, h]

theorem sleep_open_zero (t : EnergyTable) (i : Fin 5) : sleep_open t i = 0 := by
  fin_cases i <;>
    simp [sleep_open, sleep_open_loop, MAX_ENERGY_MODES, EnergyTable.set]

theorem sleep_open_eq (t : EnergyTable) : sleep_open t = fun _ => 0 :=
  funext (sleep_open_zero t)

theorem sleep_block_mode_ok (t : EnergyTable) (d : Fin 5) (h : t d + 1 < 5) :
    sleep_block_mode t d = Outcome.ok (t.set d (t d + 1)) := by
  simp [sleep_block_mode, EnergyTable.set_same, h]

theorem sleep_block_mode_halt (t : EnergyTable) (d : Fin 5) (h : ¬ t d + 1 < 5) :
    sleep_block_mode t d = Outcome.halt (t.set d (t d + 1)) := by
  simp [sleep_block_mode, EnergyTable.set_same, h]

theorem sleep_unblock_mode_ok (t : EnergyTable) (d : Fin 5) (h : 0 ≤ t d - 1) :
    sleep_unblock_mode t d = Outcome.ok (t.set d (t d - 1)) := by
  simp [sleep_unblock_mode, EnergyTable.set_same, h]

theorem sleep_unblock_mode_halt (t : EnergyTable) (d : Fin 5) (h : ¬ 0 ≤ t d - 1) :
    sleep_unblock_mode t d = Outcome.halt (t.set d (t d - 1)) := by
  simp [sleep_unblock_mode, EnergyTable.set_same, h]

theorem runSleepCalls_blocks (d : Fin 5) (rest : List SleepCall) :
    ∀ (k : Nat) (t : EnergyTable), t d + (k : Int) < 5 →
      runSleepCalls t (List.replicate k (SleepCall.block d) ++ rest)
        = runSleepCalls (t.set d (t d + k)) rest := by
  intro k
  induction k with
  | zero => intro t _; simp [EnergyTable.set_self]
  | succ k ih =>
    intro t h
    have h1 : t d + 1 < 5 := by push_cast at h; omega
    have h2 : (t.set d (t d + 1)) d + (k : Int) < 5 := by
      rw [EnergyTable.set_same]; push_cast at h; omega
    rw [List.replicate_succ, List.cons_append]
    show Outcome.bind id (sleep_block_mode t d) _ = _
    rw [sleep_block_mode_ok t d h1]
    show runSleepCalls _ (List.replicate k (SleepCall.block d) ++ rest) = _
    have e : t d + 1 + (k : Int) = t d + ((k + 1 : Nat) : Int) := by push_cast; omega
    rw [ih _ h2, EnergyTable.set_same, EnergyTable.set_set, e]

theorem runSleepCalls_unblocks (d : Fin 5) (rest : List SleepCall) :
    ∀ (k : Nat) (t : EnergyTable), (k : Int) ≤ t d →
      runSleepCalls t (List.replicate k (SleepCall.unblock d) ++ rest)
        = runSleepCalls (t.set d (t d - k)) rest := by
  intro k
  induction k with
  | zero => intro t _; simp [EnergyTable.set_self]
  | succ k ih =>
    intro t h
    have h1 : 0 ≤ t d - 1 := by push_cast at h; omega
    have h2 : (k : Int) ≤ (t.set d (t d - 1)) d := by
      rw [EnergyTable.set_same]; push_cast at h; omega
    rw [List.replicate_succ, List.cons_append]
    show Outcome.bind id (sleep_unblock_mode t d) _ = _
    rw [sleep_unblock_mode_ok t d h1]
    show runSleepCalls _ (List.replicate k (SleepCall.unblock d) ++ rest) = _
    have e : t d - 1 - (k : Int) = t d - ((k + 1 : Nat) : Int) := by push_cast; omega
    rw [ih _ h2, EnergyTable.set_same, EnergyTable.set_set, e]

/-! ## Energy-mode arbiter: specification properties -/

/-- C5: `current_block_energy_mode` returns the smallest index in `0..4` whose
counter is nonzero, and `4 = MAX_ENERGY_MODES - 1` when all five counters are
zero; from the all-zero table, block(EM2), block(EM1), unblock(EM1) is a run
without assertion failure after which it returns 2. -/
theorem current_block_energy_mode_first_nonzero (t : EnergyTable) :
    (∀ i : Fin 5, t i ≠ 0 → (∀ j : Fin 5, j < i → t j = 0) →
        current_block_energy_mode t = i.val) ∧
    ((∀ i : Fin 5, t i = 0) → current_block_energy_mode t = 4 ∧
        current_block_energy_mode t = MAX_ENERGY_MODES - 1) ∧
    (runSleepCalls (fun _ => 0)
        [SleepCall.block ⟨EM2, by decide⟩, SleepCall.block ⟨EM1, by decide⟩,
         SleepCall.unblock ⟨EM1, by decide⟩]).state?.map current_block_energy_mode
      = some 2 := by
  refine ⟨?_, ?_, by decide⟩
  · intro i hi hlt
    fin_cases i
    · simp at hi
      simp [current_block_energy_mode, current_block_energy_mode_loop, MAX_ENERGY_MODES, hi]
    · have h0 := hlt 0 (by decide)
      simp at hi
      simp [current_block_energy_mode, current_block_energy_mode_loop, MAX_ENERGY_MODES, hi, h0]
    · have h0 := hlt 0 (by decide)
      have h1 := hlt 1 (by decide)
      simp at hi
      simp [current_block_energy_mode, current_block_energy_mode_loop, MAX_ENERGY_MODES, hi, h0, h1]
    · have h0 := hlt 0 (by decide)
      have h1 := hlt 1 (by decide)
      have h2 := hlt 2 (by decide)
      simp at hi
      simp [current_block_energy_mode, current_block_energy_mode_loop, MAX_ENERGY_MODES, hi, h0,
        h1, h2]
    · have h0 := hlt 0 (by decide)
      have h1 := hlt 1 (by decide)
      have h2 := hlt 2 (by decide)
      have h3 := hlt 3 (by decide)
      simp at hi
      simp [current_block_energy_mode, current_block_energy_mode_loop, MAX_ENERGY_MODES, hi, h0,
        h1, h2, h3]
  · intro h
    simp [current_block_energy_mode, current_block_energy_mode_loop, MAX_ENERGY_MODES, h]

/-- C6: from the table produced by `sleep_open`, for every depth `d` in `0..4`
and every `k` in `1..4`, `k` calls of `sleep_block_mode(d)` followed by `k`
calls of `sleep_unblock_mode(d)` pass every assertion and leave every counter
zero, and one further `sleep_unblock_mode(d)` fails its assertion. -/
theorem sleep_block_unblock_balanced (t0 : EnergyTable) (d : Fin 5) (k : Nat)
    (hk1 : 1 ≤ k) (hk4 : k ≤ 4) :
    runSleepCalls (sleep_open t0)
        (List.replicate k (SleepCall.block d) ++ List.replicate k (SleepCall.unblock d))
      = Outcome.ok (fun _ => 0) ∧
    (runSleepCalls (sleep_open t0)
        (List.replicate k (SleepCall.block d) ++ List.replicate k (SleepCall.unblock d)
          ++ [SleepCall.unblock d])).failed = true := by
  have hz : EnergyTable.set (EnergyTable.set (fun _ => 0) d ((0 : Int) + k)) d
      (0 + (k : Int) - k) = (fun _ => 0) := by
    rw [EnergyTable.set_set]
    funext j
    by_cases h : j = d <;> simp [EnergyTable.set, h]
  have hb : (0 : Int) + (k : Int) < 5 := by omega
  constructor
  · rw [sleep_open_eq, runSleepCalls_blocks d _ k _ hb]
    have hu := runSleepCalls_unblocks d [] k (EnergyTable.set (fun _ => 0) d ((0 : Int) + k))
      (by rw [EnergyTable.set_same]; omega)
    rw [List.append_nil] at hu
    rw [hu, EnergyTable.set_same, hz]
    rfl
  · rw [sleep_open_eq, List.append_assoc, runSleepCalls_blocks d _ k _ hb,
      runSleepCalls_unblocks d _ k _ (by rw [EnergyTable.set_same]; omega),
      EnergyTable.set_same, hz]
    simp [runSleepCalls, SleepCall.run, sleep_unblock_mode, EnergyTable.set, Outcome.bind,
      Outcome.failed]

/-- Witness for C6 at the spec's case, depth 2 and two acquire/release pairs. -/
theorem sleep_block_unblock_balanced_witness :
    runSleepCalls (sleep_open (fun _ => 3))
        (List.replicate 2 (SleepCall.block 2) ++ List.replicate 2 (SleepCall.unblock 2))
      = Outcome.ok (fun _ => 0) ∧
    (runSleepCalls (sleep_open (fun _ => 3))
        (List.replicate 2 (SleepCall.block 2) ++ List.replicate 2 (SleepCall.unblock 2)
          ++ [SleepCall.unblock 2])).failed = true :=
  sleep_block_unblock_balanced (fun _ => 3) 2 2 (by decide) (by decide)

theorem runSleepCalls_preserves_range :
    ∀ (calls : List SleepCall) (t t1 : EnergyTable),
      (∀ i, 0 ≤ t i ∧ t i ≤ 4) → runSleepCalls t calls = Outcome.ok t1 →
      ∀ i, 0 ≤ t1 i ∧ t1 i ≤ 4 := by
  intro calls
  induction calls with
  | nil =>
    intro t t1 hinv hrun
    simp only [runSleepCalls, Outcome.ok.injEq] at hrun
    exact hrun ▸ hinv
  | cons c cs ih =>
    intro t t1 hinv hrun
    cases c with
    | block d =>
      by_cases hd : t d + 1 < 5
      · simp only [runSleepCalls, SleepCall.run, sleep_block_mode_ok t d hd, Outcome.bind] at hrun
        refine ih _ t1 ?_ hrun
        intro i
        by_cases hi : i = d
        · subst hi
          rw [EnergyTable.set_same]
          have := hinv i
          omega
        · rw [EnergyTable.set_other _ _ _ _ hi]
          exact hinv i
      · simp [runSleepCalls, SleepCall.run, sleep_block_mode_halt t d hd, Outcome.bind] at hrun
    | unblock d =>
      by_cases hd : 0 ≤ t d - 1
      · simp only [runSleepCalls, SleepCall.run, sleep_unblock_mode_ok t d hd,
          Outcome.bind] at hrun
        refine ih _ t1 ?_ hrun
        intro i
        by_cases hi : i = d
        · subst hi
          rw [EnergyTable.set_same]
          have := hinv i
          omega
        · rw [EnergyTable.set_other _ _ _ _ hi]
          exact hinv i
      · simp [runSleepCalls, SleepCall.run, sleep_unblock_mode_halt t d hd, Outcome.bind] at hrun

/-- C7: on a table with non-negative counters, `sleep_unblock_mode(d)` fails its
assertion exactly when the counter for `d` was zero before the call; when it
does not fail it returns, the counter for `d` is one less and every other
counter is unchanged. -/
theorem sleep_unblock_mode_contract (t : EnergyTable) (hnn : ∀ i, 0 ≤ t i) (d : Fin 5) :
    ((sleep_unblock_mode t d).failed = true ↔ t d = 0) ∧
    ((sleep_unblock_mode t d).failed = false →
      ∃ t1, sleep_unblock_mode t d = Outcome.ok t1 ∧ t1 d = t d - 1 ∧
        ∀ j, j ≠ d → t1 j = t j) := by
  have hd := hnn d
  by_cases h : 0 ≤ t d - 1
  · rw [sleep_unblock_mode_ok t d h]
    refine ⟨?_, ?_⟩
    · simp only [Outcome.failed]
      constructor
      · intro hf; cases hf
      · intro h0; omega
    · intro _
      exact ⟨_, rfl, EnergyTable.set_same _ _ _, fun j hj => EnergyTable.set_other _ _ _ _ hj⟩
  · rw [sleep_unblock_mode_halt t d h]
    refine ⟨?_, ?_⟩
    · simp only [Outcome.failed, true_iff]
      omega
    · intro hf; cases hf

/-- Witness for C7: a table with every counter at 1, depth 2. -/
theorem sleep_unblock_mode_contract_witness :
    ((sleep_unblock_mode (fun _ => 1) 2).failed = true ↔ (fun _ => 1 : EnergyTable) 2 = 0) ∧
    ((sleep_unblock_mode (fun _ => 1) 2).failed = false →
      ∃ t1, sleep_unblock_mode (fun _ => 1) 2 = Outcome.ok t1 ∧
        t1 2 = (fun _ => 1 : EnergyTable) 2 - 1 ∧
        ∀ j, j ≠ 2 → t1 j = (fun _ => 1 : EnergyTable) j) :=
  sleep_unblock_mode_contract (fun _ => 1) (fun _ => show (0 : Int) ≤ 1 by decide) 2

/-- C8: for every table and every depth `d` in `0..4`, the counter for `d`
being an `int` below `INT_MAX = 2^31 - 1` (so that its increment is defined),
`sleep_block_mode(d)` fails its assertion exactly when the resulting count for
`d` exceeds the ceiling 4; when it does not fail it returns, the counter for
`d` is one more and every other counter is unchanged. -/
theorem sleep_block_mode_contract (t : EnergyTable) (d : Fin 5)
    (hint : t d < 2 ^ 31 - 1) :
    ((sleep_block_mode t d).failed = true ↔ 4 < t d + 1) ∧
    ((sleep_block_mode t d).failed = false →
      ∃ t1, sleep_block_mode t d = Outcome.ok t1 ∧ t1 d = t d + 1 ∧ t1 d < 2 ^ 31 ∧
        ∀ j, j ≠ d → t1 j = t j) := by
  by_cases h : t d + 1 < 5
  · rw [sleep_block_mode_ok t d h]
    refine ⟨?_, ?_⟩
    · simp only [Outcome.failed]
      constructor
      · intro hf; cases hf
      · intro h0; omega
    · intro _
      refine ⟨_, rfl, EnergyTable.set_same _ _ _, ?_,
        fun j hj => EnergyTable.set_other _ _ _ _ hj⟩
      rw [EnergyTable.set_same]
      omega
  · rw [sleep_block_mode_halt t d h]
    refine ⟨?_, ?_⟩
    · simp only [Outcome.failed, true_iff]
      omega
    · intro hf; cases hf

/-- Witness for C8: at the ceiling (every counter 4) the call for depth 2
fails, and from the table of zeros it returns with the counter 1. -/
theorem sleep_block_mode_contract_witness :
    ((sleep_block_mode (fun _ => 4) 2).failed = true ↔ 4 < (fun _ => 4 : EnergyTable) 2 + 1) ∧
    ((sleep_block_mode (fun _ => 0) 2).failed = false →
      ∃ t1, sleep_block_mode (fun _ => 0) 2 = Outcome.ok t1 ∧
        t1 2 = (fun _ => 0 : EnergyTable) 2 + 1 ∧ t1 2 < 2 ^ 31 ∧
        ∀ j, j ≠ 2 → t1 j = (fun _ => 0 : EnergyTable) j) :=
  ⟨(sleep_block_mode_contract (fun _ => 4) 2 (show (4 : Int) < 2 ^ 31 - 1 by norm_num)).1,
   (sleep_block_mode_contract (fun _ => 0) 2 (show (0 : Int) < 2 ^ 31 - 1 by norm_num)).2⟩

/-- C9: in every table reached from `sleep_open` by a sequence of
`sleep_block_mode` / `sleep_unblock_mode` calls (depths `0..4`) in which no
assertion has failed, each of the five counters is `>= 0` and `<= 4`. -/
theorem sleep_counters_in_range (t0 : EnergyTable) (calls : List SleepCall)
    (t : EnergyTable) (hrun : runSleepCalls (sleep_open t0) calls = Outcome.ok t) :
    ∀ i : Fin 5, 0 ≤ t i ∧ t i ≤ 4 := by
  refine runSleepCalls_preserves_range calls (sleep_open t0) t ?_ hrun
  intro i
  rw [sleep_open_zero]
  omega

/-- Witness for C9: open, then block EM2 twice, block EM3, unblock EM2. -/
theorem sleep_counters_in_range_witness :
    runSleepCalls (sleep_open (fun _ => 9))
        [SleepCall.block 2, SleepCall.block 2, SleepCall.block 3, SleepCall.unblock 2]
      = Outcome.ok (fun j => if j = 2 then 1 else if j = 3 then 1 else 0) ∧
    (0 : Int) ≤ (if (2 : Fin 5) = 2 then 1 else if (2 : Fin 5) = 3 then 1 else 0) ∧
    (if (2 : Fin 5) = 2 then 1 else if (2 : Fin 5) = 3 then 1 else 0) ≤ (4 : Int) :=
  have hrun : runSleepCalls (sleep_open (fun _ => 9))
        [SleepCall.block 2, SleepCall.block 2, SleepCall.block 3, SleepCall.unblock 2]
      = Outcome.ok (fun j => if j = 2 then 1 else if j = 3 then 1 else 0) := by
    rw [sleep_open_eq]
    have e1 : sleep_block_mode (fun _ => 0) 2 = Outcome.ok (fun j => if j = 2 then 1 else 0) := by
      rw [sleep_block_mode_ok _ _ (by decide)]; rfl
    have e2 : sleep_block_mode (fun j => if j = 2 then 1 else 0) 2
        = Outcome.ok (fun j => if j = 2 then 2 else 0) := by
      rw [sleep_block_mode_ok _ _ (by decide)]
      congr 1; funext j; fin_cases j <;> rfl
    have e3 : sleep_block_mode (fun j => if j = 2 then 2 else 0) 3
        = Outcome.ok (fun j => if j = 3 then 1 else if j = 2 then 2 else 0) := by
      rw [sleep_block_mode_ok _ _ (by decide)]; rfl
    have e4 : sleep_unblock_mode (fun j => if j = 3 then 1 else if j = 2 then 2 else 0) 2
        = Outcome.ok (fun j => if j = 2 then 1 else if j = 3 then 1 else 0) := by
      rw [sleep_unblock_mode_ok _ _ (by decide)]
      congr 1; funext j; fin_cases j <;> rfl
    simp only [runSleepCalls, SleepCall.run, Outcome.bind, e1, e2, e3, e4]
  ⟨hrun, sleep_counters_in_range (fun _ => 9)
    [SleepCall.block 2, SleepCall.block 2, SleepCall.block 3, SleepCall.unblock 2] _ hrun 2⟩

/-! ## Machine words: helper lemmas -/

theorem u32_of_lt (x : Nat) (h : x < 2 ^ 32) : u32 x = x := by
  unfold u32
  exact Nat.mod_eq_of_lt h

theorem dec32_succ (k : Nat) (h : k + 1 < 2 ^ 32) : dec32 (k + 1) = k := by
  unfold dec32 u32
  omega

theorem byte_store_same (w k b : Nat) (hk : k ≤ 3) (hb : b < 256) :
    ((w &&& not32 (shl32 0xff (8 * k))) ||| shl32 b (8 * k)) / 2 ^ (8 * k) % 256 = b := by
  apply Nat.eq_of_testBit_eq
  intro i
  have e1 : (256 : Nat) = 2 ^ 8 := rfl
  have e2 : (0xff : Nat) = 2 ^ 8 - 1 := rfl
  rw [e1, Nat.testBit_mod_two_pow, ← Nat.shiftRight_eq_div_pow]
  simp only [not32, shl32, u32, e2, Nat.testBit_shiftRight, Nat.testBit_or, Nat.testBit_and,
    Nat.testBit_xor, Nat.testBit_mod_two_pow, Nat.testBit_two_pow_sub_one,
    Nat.testBit_shiftLeft]
  by_cases hi : i < 8
  · have h1 : 8 * k + i < 32 := by omega
    have h2 : 8 * k + i - 8 * k = i := by omega
    have h3 : 8 * k + i ≥ 8 * k := by omega
    simp [hi, h1, h2, h3]
  · have hbi : b.testBit i = false := by
      apply Nat.testBit_lt_two_pow
      calc b < 2 ^ 8 := hb
        _ ≤ 2 ^ i := Nat.pow_le_pow_right (by decide) (by omega)
    simp [hi, hbi]

theorem byte_store_other (w k j b : Nat) (hj : j ≤ 3) (hjk : j ≠ k) (hb : b < 256) :
    ((w &&& not32 (shl32 0xff (8 * k))) ||| shl32 b (8 * k)) / 2 ^ (8 * j) % 256
      = w / 2 ^ (8 * j) % 256 := by
  apply Nat.eq_of_testBit_eq
  intro i
  have e1 : (256 : Nat) = 2 ^ 8 := rfl
  have e2 : (0xff : Nat) = 2 ^ 8 - 1 := rfl
  rw [e1, Nat.testBit_mod_two_pow, Nat.testBit_mod_two_pow, ← Nat.shiftRight_eq_div_pow,
    ← Nat.shiftRight_eq_div_pow]
  simp only [not32, shl32, u32, e2, Nat.testBit_shiftRight, Nat.testBit_or, Nat.testBit_and,
    Nat.testBit_xor, Nat.testBit_mod_two_pow, Nat.testBit_two_pow_sub_one,
    Nat.testBit_shiftLeft]
  by_cases hi : i < 8
  · have h1 : 8 * j + i < 32 := by omega
    by_cases h3 : 8 * j + i ≥ 8 * k
    · have h4 : ¬ (8 * j + i - 8 * k < 8) := by omega
      have hbi : b.testBit (8 * j + i - 8 * k) = false := by
        apply Nat.testBit_lt_two_pow
        calc b < 2 ^ 8 := hb
          _ ≤ 2 ^ (8 * j + i - 8 * k) := Nat.pow_le_pow_right (by decide) (by omega)
      simp [hi, h1, h3, h4, hbi]
    · simp [hi, h1, h3]
  · simp [hi]

/-! ## System state: load-after-store lemmas -/

namespace System

@[simp] theorem sm_setSM (s : System) (p : SM_Ptr) (m : I2C_STATE_MACHINE) :
    (s.setSM p m).sm p = m := by
  cases p <;> rfl

theorem sm_setSM_other (s : System) (p q : SM_Ptr) (m : I2C_STATE_MACHINE) (h : q ≠ p) :
    (s.setSM p m).sm q = s.sm q := by
  cases p <;> cases q <;> first | rfl | exact absurd rfl h

@[simp] theorem sm_store (s : System) (i : I2C_Ptr) (w : I2C_Write) (p : SM_Ptr) :
    (s.store i w).sm p = s.sm p := by
  cases p <;> rfl

@[simp] theorem sm_setMem (s : System) (a v : Nat) (p : SM_Ptr) :
    (s.setMem a v).sm p = s.sm p := by
  cases p <;> rfl

@[simp] theorem sm_receive (s : System) (i : I2C_Ptr) (b : Nat) (p : SM_Ptr) :
    (s.receive i b).sm p = s.sm p := by
  cases p <;> rfl

@[simp] theorem mem_setSM (s : System) (p : SM_Ptr) (m : I2C_STATE_MACHINE) :
    (s.setSM p m).mem = s.mem := by
  cases p <;> rfl

@[simp] theorem mem_store (s : System) (i : I2C_Ptr) (w : I2C_Write) :
    (s.store i w).mem = s.mem := rfl

@[simp] theorem mem_receive (s : System) (i : I2C_Ptr) (b : Nat) :
    (s.receive i b).mem = s.mem := rfl

@[simp] theorem mem_setMem_same (s : System) (a v : Nat) :
    (s.setMem a v).mem a = v := by
  simp [setMem]

theorem mem_setMem_other (s : System) (a b v : Nat) (h : b ≠ a) :
    (s.setMem a v).mem b = s.mem b := by
  simp [setMem, h]

@[simp] theorem i2c_setSM (s : System) (p : SM_Ptr) (m : I2C_STATE_MACHINE) :
    (s.setSM p m).i2c = s.i2c := by
  cases p <;> rfl

@[simp] theorem i2c_setMem (s : System) (a v : Nat) :
    (s.setMem a v).i2c = s.i2c := rfl

@[simp] theorem i2c_store_same (s : System) (i : I2C_Ptr) (w : I2C_Write) :
    (s.store i w).i2c i = (s.i2c i).store w := by
  simp [store]

theorem i2c_store_other (s : System) (i j : I2C_Ptr) (w : I2C_Write) (h : j ≠ i) :
    (s.store i w).i2c j = s.i2c j := by
  simp [store, h]

@[simp] theorem i2c_receive_RXDATA (s : System) (i : I2C_Ptr) (b : Nat) :
    ((s.receive i b).i2c i).RXDATA = b := by
  simp [receive]

@[simp] theorem i2c_receive_writes (s : System) (i j : I2C_Ptr) (b : Nat) :
    ((s.receive i b).i2c j).writes = (s.i2c j).writes := by
  by_cases h : j = i <;> simp [receive, h]

@[simp] theorem table_setSM (s : System) (p : SM_Ptr) (m : I2C_STATE_MACHINE) :
    (s.setSM p m).lowest_energy_mode = s.lowest_energy_mode := by
  cases p <;> rfl

@[simp] theorem table_store (s : System) (i : I2C_Ptr) (w : I2C_Write) :
    (s.store i w).lowest_energy_mode = s.lowest_energy_mode := rfl

@[simp] theorem table_setMem (s : System) (a v : Nat) :
    (s.setMem a v).lowest_energy_mode = s.lowest_energy_mode := rfl

@[simp] theorem table_receive (s : System) (i : I2C_Ptr) (b : Nat) :
    (s.receive i b).lowest_energy_mode = s.lowest_energy_mode := rfl

@[simp] theorem posted_setSM (s : System) (p : SM_Ptr) (m : I2C_STATE_MACHINE) :
    (s.setSM p m).posted = s.posted := by
  cases p <;> rfl

@[simp] theorem posted_store (s : System) (i : I2C_Ptr) (w : I2C_Write) :
    (s.store i w).posted = s.posted := rfl

@[simp] theorem posted_setMem (s : System) (a v : Nat) :
    (s.setMem a v).posted = s.posted := rfl

@[simp] theorem posted_receive (s : System) (i : I2C_Ptr) (b : Nat) :
    (s.receive i b).posted = s.posted := rfl

@[simp] theorem event_scheduled_setSM (s : System) (p : SM_Ptr) (m : I2C_STATE_MACHINE) :
    (s.setSM p m).event_scheduled = s.event_scheduled := by
  cases p <;> rfl

@[simp] theorem event_scheduled_store (s : System) (i : I2C_Ptr) (w : I2C_Write) :
    (s.store i w).event_scheduled = s.event_scheduled := rfl

@[simp] theorem event_scheduled_setMem (s : System) (a v : Nat) :
    (s.setMem a v).event_scheduled = s.event_scheduled := rfl

@[simp] theorem event_scheduled_receive (s : System) (i : I2C_Ptr) (b : Nat) :
    (s.receive i b).event_scheduled = s.event_scheduled := rfl

end System

@[simp] theorem withTable_sm (s : System) (t : EnergyTable) (p : SM_Ptr) :
    (withTable s t).sm p = s.sm p := by
  cases p <;> rfl

@[simp] theorem withTable_table (s : System) (t : EnergyTable) :
    (withTable s t).lowest_energy_mode = t := rfl

@[simp] theorem withTable_mem (s : System) (t : EnergyTable) :
    (withTable s t).mem = s.mem := rfl

@[simp] theorem withTable_i2c (s : System) (t : EnergyTable) :
    (withTable s t).i2c = s.i2c := rfl

@[simp] theorem withTable_posted (s : System) (t : EnergyTable) :
    (withTable s t).posted = s.posted := rfl

@[simp] theorem withTable_event_scheduled (s : System) (t : EnergyTable) :
    (withTable s t).event_scheduled = s.event_scheduled := rfl

@[simp] theorem post_event_sm (s : System) (e : Nat) (p : SM_Ptr) :
    (post_event s e).sm p = s.sm p := by
  cases p <;> rfl

@[simp] theorem post_event_table (s : System) (e : Nat) :
    (post_event s e).lowest_energy_mode = s.lowest_energy_mode := rfl

@[simp] theorem post_event_mem (s : System) (e : Nat) :
    (post_event s e).mem = s.mem := rfl

@[simp] theorem post_event_i2c (s : System) (e : Nat) :
    (post_event s e).i2c = s.i2c := rfl

@[simp] theorem post_event_posted (s : System) (e : Nat) :
    (post_event s e).posted = s.posted ++ [e] := rfl

@[simp] theorem post_event_event_scheduled (s : System) (e : Nat) :
    (post_event s e).event_scheduled = s.event_scheduled ||| e := rfl

theorem busy_state_eq (s : System) (i2c : I2C_Ptr) (p : SM_Ptr) (h : i2c_local i2c = some p) :
    busy_state s i2c = (s.sm p).busy := by
  cases i2c <;> simp [i2c_local] at h <;> subst h <;> rfl

@[simp] theorem I2C_TypeDef.store_CMD_writes (r : I2C_TypeDef) (v : Nat) :
    (r.store (I2C_Write.CMD v)).writes = r.writes ++ [I2C_Write.CMD v] := rfl

@[simp] theorem I2C_TypeDef.store_TXDATA_writes (r : I2C_TypeDef) (v : Nat) :
    (r.store (I2C_Write.TXDATA v)).writes = r.writes ++ [I2C_Write.TXDATA v] := rfl

@[simp] theorem I2C_TypeDef.store_CMD_RXDATA (r : I2C_TypeDef) (v : Nat) :
    (r.store (I2C_Write.CMD v)).RXDATA = r.RXDATA := rfl

@[simp] theorem I2C_TypeDef.store_TXDATA_RXDATA (r : I2C_TypeDef) (v : Nat) :
    (r.store (I2C_Write.TXDATA v)).RXDATA = r.RXDATA := rfl

/-! ## Byte packing of the receive path -/

theorem pack_bytes_1 (w b1 : Nat) (h1 : b1 < 256) :
    ((w &&& not32 (shl32 0xff (8 * 0))) ||| shl32 b1 (8 * 0)) % 256 ^ 1 = b1 := by
  have e0 := byte_store_same w 0 b1 (by decide) h1
  simp only [Nat.mul_zero, Nat.pow_zero, Nat.div_one, Nat.pow_one] at e0 ⊢
  exact e0

theorem pack_bytes_2 (w b1 b2 : Nat) (h1 : b1 < 256) (h2 : b2 < 256) :
    ((((w &&& not32 (shl32 0xff (8 * 1))) ||| shl32 b1 (8 * 1))
        &&& not32 (shl32 0xff (8 * 0))) ||| shl32 b2 (8 * 0)) % 256 ^ 2
      = b1 * 256 + b2 := by
  have e0 := byte_store_same ((w &&& not32 (shl32 0xff (8 * 1))) ||| shl32 b1 (8 * 1)) 0 b2
    (by decide) h2
  have e1 := (byte_store_other ((w &&& not32 (shl32 0xff (8 * 1))) ||| shl32 b1 (8 * 1)) 0 1 b2
    (by decide) (by decide) h2).trans (byte_store_same w 1 b1 (by decide) h1)
  generalize ((((w &&& not32 (shl32 0xff (8 * 1))) ||| shl32 b1 (8 * 1))
        &&& not32 (shl32 0xff (8 * 0))) ||| shl32 b2 (8 * 0)) = x at e0 e1 ⊢
  norm_num at e0 e1 ⊢
  omega

theorem pack_bytes_3 (w b1 b2 b3 : Nat) (h1 : b1 < 256) (h2 : b2 < 256) (h3 : b3 < 256) :
    ((((((w &&& not32 (shl32 0xff (8 * 2))) ||| shl32 b1 (8 * 2))
        &&& not32 (shl32 0xff (8 * 1))) ||| shl32 b2 (8 * 1))
        &&& not32 (shl32 0xff (8 * 0))) ||| shl32 b3 (8 * 0)) % 256 ^ 3
      = b1 * 256 ^ 2 + b2 * 256 + b3 := by
  generalize hx1 : ((w &&& not32 (shl32 0xff (8 * 2))) ||| shl32 b1 (8 * 2)) = x1
  generalize hx2 : ((x1 &&& not32 (shl32 0xff (8 * 1))) ||| shl32 b2 (8 * 1)) = x2
  generalize hx3 : ((x2 &&& not32 (shl32 0xff (8 * 0))) ||| shl32 b3 (8 * 0)) = x3
  have a2 : x1 / 2 ^ (8 * 2) % 256 = b1 := hx1 ▸ byte_store_same w 2 b1 (by decide) h1
  have b2' : x2 / 2 ^ (8 * 2) % 256 = b1 :=
    (hx2 ▸ byte_store_other x1 1 2 b2 (by decide) (by decide) h2).trans a2
  have b1' : x2 / 2 ^ (8 * 1) % 256 = b2 := hx2 ▸ byte_store_same x1 1 b2 (by decide) h2
  have c2 : x3 / 2 ^ (8 * 2) % 256 = b1 :=
    (hx3 ▸ byte_store_other x2 0 2 b3 (by decide) (by decide) h3).trans b2'
  have c1 : x3 / 2 ^ (8 * 1) % 256 = b2 :=
    (hx3 ▸ byte_store_other x2 0 1 b3 (by decide) (by decide) h3).trans b1'
  have c0 : x3 / 2 ^ (8 * 0) % 256 = b3 := hx3 ▸ byte_store_same x2 0 b3 (by decide) h3
  norm_num at c0 c1 c2 ⊢
  omega

theorem pack_bytes_4 (w b1 b2 b3 b4 : Nat) (h1 : b1 < 256) (h2 : b2 < 256) (h3 : b3 < 256)
    (h4 : b4 < 256) :
    ((((((((w &&& not32 (shl32 0xff (8 * 3))) ||| shl32 b1 (8 * 3))
        &&& not32 (shl32 0xff (8 * 2))) ||| shl32 b2 (8 * 2))
        &&& not32 (shl32 0xff (8 * 1))) ||| shl32 b3 (8 * 1))
        &&& not32 (shl32 0xff (8 * 0))) ||| shl32 b4 (8 * 0)) % 256 ^ 4
      = b1 * 256 ^ 3 + b2 * 256 ^ 2 + b3 * 256 + b4 := by
  generalize hx1 : ((w &&& not32 (shl32 0xff (8 * 3))) ||| shl32 b1 (8 * 3)) = x1
  generalize hx2 : ((x1 &&& not32 (shl32 0xff (8 * 2))) ||| shl32 b2 (8 * 2)) = x2
  generalize hx3 : ((x2 &&& not32 (shl32 0xff (8 * 1))) ||| shl32 b3 (8 * 1)) = x3
  generalize hx4 : ((x3 &&& not32 (shl32 0xff (8 * 0))) ||| shl32 b4 (8 * 0)) = x4
  have a3 : x1 / 2 ^ (8 * 3) % 256 = b1 := hx1 ▸ byte_store_same w 3 b1 (by decide) h1
  have b3' : x2 / 2 ^ (8 * 3) % 256 = b1 :=
    (hx2 ▸ byte_store_other x1 2 3 b2 (by decide) (by decide) h2).trans a3
  have b2' : x2 / 2 ^ (8 * 2) % 256 = b2 := hx2 ▸ byte_store_same x1 2 b2 (by decide) h2
  have c3 : x3 / 2 ^ (8 * 3) % 256 = b1 :=
    (hx3 ▸ byte_store_other x2 1 3 b3 (by decide) (by decide) h3).trans b3'
  have c2 : x3 / 2 ^ (8 * 2) % 256 = b2 :=
    (hx3 ▸ byte_store_other x2 1 2 b3 (by decide) (by decide) h3).trans b2'
  have c1 : x3 / 2 ^ (8 * 1) % 256 = b3 := hx3 ▸ byte_store_same x2 1 b3 (by decide) h3
  have d3 : x4 / 2 ^ (8 * 3) % 256 = b1 :=
    (hx4 ▸ byte_store_other x3 0 3 b4 (by decide) (by decide) h4).trans c3
  have d2 : x4 / 2 ^ (8 * 2) % 256 = b2 :=
    (hx4 ▸ byte_store_other x3 0 2 b4 (by decide) (by decide) h4).trans c2
  have d1 : x4 / 2 ^ (8 * 1) % 256 = b3 :=
    (hx4 ▸ byte_store_other x3 0 1 b4 (by decide) (by decide) h4).trans c1
  have d0 : x4 / 2 ^ (8 * 0) % 256 = b4 := hx4 ▸ byte_store_same x3 0 b4 (by decide) h4
  norm_num at d0 d1 d2 d3 ⊢
  omega

theorem pack_be_value_1 (w b1 : Nat)
    (h1 : b1 < 256) :
    ((w &&& not32 (shl32 0xff (8 * 0))) ||| shl32 b1 (8 * 0)) % 256 ^ 1
      = be_value [b1] := by
  rw [pack_bytes_1 w b1 h1]
  show _ = (0 * 256 + b1)
  norm_num
  try ring

theorem pack_be_value_2 (w b1 b2 : Nat)
    (h1 : b1 < 256) (h2 : b2 < 256) :
    ((((w &&& not32 (shl32 0xff (8 * 1))) ||| shl32 b1 (8 * 1))
        &&& not32 (shl32 0xff (8 * 0))) ||| shl32 b2 (8 * 0)) % 256 ^ 2
      = be_value [b1, b2] := by
  rw [pack_bytes_2 w b1 b2 h1 h2]
  show _ = ((0 * 256 + b1) * 256 + b2)
  norm_num
  try ring

theorem pack_be_value_3 (w b1 b2 b3 : Nat)
    (h1 : b1 < 256) (h2 : b2 < 256) (h3 : b3 < 256) :
    ((((((w &&& not32 (shl32 0xff (8 * 2))) ||| shl32 b1 (8 * 2))
        &&& not32 (shl32 0xff (8 * 1))) ||| shl32 b2 (8 * 1))
        &&& not32 (shl32 0xff (8 * 0))) ||| shl32 b3 (8 * 0)) % 256 ^ 3
      = be_value [b1, b2, b3] := by
  rw [pack_bytes_3 w b1 b2 b3 h1 h2 h3]
  show _ = (((0 * 256 + b1) * 256 + b2) * 256 + b3)
  norm_num
  try ring

theorem pack_be_value_4 (w b1 b2 b3 b4 : Nat)
    (h1 : b1 < 256) (h2 : b2 < 256) (h3 : b3 < 256) (h4 : b4 < 256) :
    ((((((((w &&& not32 (shl32 0xff (8 * 3))) ||| shl32 b1 (8 * 3))
        &&& not32 (shl32 0xff (8 * 2))) ||| shl32 b2 (8 * 2))
        &&& not32 (shl32 0xff (8 * 1))) ||| shl32 b3 (8 * 1))
        &&& not32 (shl32 0xff (8 * 0))) ||| shl32 b4 (8 * 0)) % 256 ^ 4
      = be_value [b1, b2, b3, b4] := by
  rw [pack_bytes_4 w b1 b2 b3 b4 h1 h2 h3 h4]
  show _ = ((((0 * 256 + b1) * 256 + b2) * 256 + b3) * 256 + b4)
  norm_num
  try ring

/-- The Horner form of `be_value` is the sum `b1 * 256^(n-1) + ... + bn`. -/
theorem be_value_explicit (b1 b2 b3 b4 : Nat) :
    be_value [b1] = b1 ∧
    be_value [b1, b2] = b1 * 256 ^ 1 + b2 ∧
    be_value [b1, b2, b3] = b1 * 256 ^ 2 + b2 * 256 ^ 1 + b3 ∧
    be_value [b1, b2, b3, b4] = b1 * 256 ^ 3 + b2 * 256 ^ 2 + b3 * 256 ^ 1 + b4 := by
  refine ⟨?_, ?_, ?_, ?_⟩
  · show 0 * 256 + b1 = _
    omega
  · show (0 * 256 + b1) * 256 + b2 = _
    omega
  · show ((0 * 256 + b1) * 256 + b2) * 256 + b3 = _
    omega
  · show (((0 * 256 + b1) * 256 + b2) * 256 + b3) * 256 + b4 = _
    omega

/-! ## I2C state machine: one-step lemmas -/

theorem i2c_start_ok (s : System) (i2c : I2C_Ptr) (p : SM_Ptr)
    (dev mode data n reg cb : Nat)
    (hbus : i2c_local i2c = some p)
    (hidle : (s.sm p).busy = true)
    (hstate : (s.i2c i2c).STATE &&& _I2C_STATE_STATE_MASK = I2C_STATE_STATE_IDLE)
    (hroom : s.lowest_energy_mode I2C_EM_BLOCK_index + 1 < 5) :
    i2c_start s i2c dev mode data n reg cb =
      Outcome.ok ((((withTable s (s.lowest_energy_mode.set I2C_EM_BLOCK_index
          (s.lowest_energy_mode I2C_EM_BLOCK_index + 1))).setSM p
            { i2cx := i2c, busy := false, rwrite := mode, i2c_callback := cb,
              data := data, bytes_per_transfer := n,
              current_state := DEFINED_STATES.init_write,
              register_address := reg, peripheral_address := dev }).store i2c
          (I2C_Write.CMD I2C_CMD_START)).store i2c
          (I2C_Write.TXDATA (shl32 dev 1 ||| WRITE_OP))) := by
  unfold i2c_start
  simp only [hbus, hidle, hstate, sleep_block_mode_ok _ _ hroom, Outcome.bind]
  simp

theorem i2c_start_ok_inv (s s1 : System) (i2c : I2C_Ptr)
    (dev mode data n reg cb : Nat)
    (h : i2c_start s i2c dev mode data n reg cb = Outcome.ok s1) :
    ∃ p, i2c_local i2c = some p ∧ (s.sm p).busy = true ∧
      (s.i2c i2c).STATE &&& _I2C_STATE_STATE_MASK = I2C_STATE_STATE_IDLE ∧
      s.lowest_energy_mode I2C_EM_BLOCK_index + 1 < 5 := by
  unfold i2c_start at h
  cases hb : i2c_local i2c with
  | none => simp [hb] at h
  | some p =>
    refine ⟨p, rfl, ?_⟩
    simp only [hb] at h
    by_cases h1 : (s.sm p).busy = false
    · simp [h1] at h
    · by_cases h2 : (s.i2c i2c).STATE &&& _I2C_STATE_STATE_MASK ≠ I2C_STATE_STATE_IDLE
      · simp [h1, h2] at h
      · by_cases h3 : s.lowest_energy_mode I2C_EM_BLOCK_index + 1 < 5
        · exact ⟨by simpa using h1, by simpa using h2, h3⟩
        · simp [h1, h2, sleep_block_mode_halt _ _ h3, Outcome.bind] at h

theorem dec32_four : dec32 4 = 3 := by decide
theorem dec32_three : dec32 3 = 2 := by decide
theorem dec32_two : dec32 2 = 1 := by decide
theorem dec32_one : dec32 1 = 0 := by decide

theorem u32_mul8_0 : u32 (8 * 0) = 8 * 0 := by decide
theorem u32_mul8_1 : u32 (8 * 1) = 8 * 1 := by decide
theorem u32_mul8_2 : u32 (8 * 2) = 8 * 2 := by decide
theorem u32_mul8_3 : u32 (8 * 3) = 8 * 3 := by decide
theorem u32_zero : u32 0 = 0 := by decide
theorem u32_eight : u32 8 = 8 := by decide
theorem u32_sixteen : u32 16 = 16 := by decide
theorem u32_twentyfour : u32 24 = 24 := by decide

theorem sleep_unblock_after_block (t : EnergyTable) (d : Fin 5) (h : 0 ≤ t d) :
    sleep_unblock_mode (t.set d (t d + 1)) d = Outcome.ok t := by
  rw [sleep_unblock_mode_ok _ _ (by rw [EnergyTable.set_same]; omega), EnergyTable.set_same,
    EnergyTable.set_set]
  have e : t d + 1 - 1 = t d := by omega
  rw [e, EnergyTable.set_self]

theorem i2c_events_append (p : SM_Ptr) (es2 : List I2C_Event) :
    ∀ (es1 : List I2C_Event) (s : System),
      i2c_events s p (es1 ++ es2)
        = Outcome.bind id (i2c_events s p es1) (fun s1 => i2c_events s1 p es2) := by
  intro es1
  induction es1 with
  | nil => intro s; rfl
  | cons e es ih =>
    intro s
    simp only [List.cons_append, i2c_events]
    cases h : i2c_event s p e with
    | ok s1 => simp only [Outcome.bind]; exact ih s1
    | halt s1 => rfl
    | spin s1 => rfl

/-- Acknowledge events in state `init_read` change nothing. -/
theorem i2c_events_ack_init_read (p : SM_Ptr) (s : System)
    (h : (s.sm p).current_state = DEFINED_STATES.init_read) :
    ∀ k : Nat, i2c_events s p (List.replicate k I2C_Event.ack) = Outcome.ok s := by
  intro k
  induction k with
  | zero => rfl
  | succ k ih =>
    simp only [List.replicate_succ, i2c_events, i2c_event, i2c_ack_sm, h, Outcome.bind]
    exact ih

/-- Acknowledge events in state `rec_data` change nothing. -/
theorem i2c_events_ack_rec_data (p : SM_Ptr) (s : System)
    (h : (s.sm p).current_state = DEFINED_STATES.rec_data) :
    ∀ k : Nat, i2c_events s p (List.replicate k I2C_Event.ack) = Outcome.ok s := by
  intro k
  induction k with
  | zero => rfl
  | succ k ih =>
    simp only [List.replicate_succ, i2c_events, i2c_event, i2c_ack_sm, h, Outcome.bind]
    exact ih

theorem shr32_byte (w j : Nat) (hj : j ≤ 3) :
    shr32 w (8 * j) &&& 0xFF = (w >>> (8 * j)) &&& 0xFF := by
  apply Nat.eq_of_testBit_eq
  intro i
  have e2 : (0xFF : Nat) = 2 ^ 8 - 1 := rfl
  simp only [shr32, u32, e2, Nat.testBit_and, Nat.testBit_shiftRight, Nat.testBit_mod_two_pow,
    Nat.testBit_two_pow_sub_one]
  by_cases hi : i < 8
  · have h1 : 8 * j + i < 32 := by omega
    simp [hi, h1]
  · simp [hi]

/-! ## I2C state machine: what the handlers leave unchanged -/

theorem i2c_ack_sm_table (s s1 : System) (p : SM_Ptr) (h : i2c_ack_sm s p = Outcome.ok s1) :
    s1.lowest_energy_mode = s.lowest_energy_mode := by
  unfold i2c_ack_sm at h
  cases hc : (s.sm p).current_state <;> simp only [hc] at h
  · split at h
    · cases h; simp
    · split at h <;> cases h <;> simp
  · cases h; simp
  · cases h; rfl
  · split at h <;> cases h <;> simp
  · cases h; rfl
  · cases h; rfl

theorem i2c_receive_sm_table (s s1 : System) (p : SM_Ptr)
    (h : i2c_receive_sm s p = Outcome.ok s1) :
    s1.lowest_energy_mode = s.lowest_energy_mode := by
  unfold i2c_receive_sm at h
  cases hc : (s.sm p).current_state <;> simp only [hc] at h
  · cases h; rfl
  · cases h; rfl
  · split at h <;> cases h <;> simp
  · cases h
  · cases h
  · cases h

theorem i2c_event_table (s s1 : System) (p : SM_Ptr) (e : I2C_Event)
    (he : e ≠ I2C_Event.mstop) (h : i2c_event s p e = Outcome.ok s1) :
    s1.lowest_energy_mode = s.lowest_energy_mode := by
  cases e with
  | ack => exact i2c_ack_sm_table s s1 p h
  | rxdatav b =>
    have := i2c_receive_sm_table _ s1 p h
    simpa using this
  | mstop => exact absurd rfl he

theorem i2c_events_table (p : SM_Ptr) :
    ∀ (es : List I2C_Event) (s s1 : System), (∀ e ∈ es, e ≠ I2C_Event.mstop) →
      i2c_events s p es = Outcome.ok s1 → s1.lowest_energy_mode = s.lowest_energy_mode := by
  intro es
  induction es with
  | nil =>
    intro s s1 _ h
    simp only [i2c_events, Outcome.ok.injEq] at h
    rw [h]
  | cons e es ih =>
    intro s s1 hne h
    simp only [i2c_events] at h
    cases hev : i2c_event s p e with
    | ok s2 =>
      rw [hev] at h
      simp only [Outcome.bind] at h
      rw [ih s2 s1 (fun e1 h1 => hne e1 (List.mem_cons_of_mem _ h1)) h]
      exact i2c_event_table s s2 p e (hne e (List.mem_cons_self _ _)) hev
    | halt s2 => rw [hev] at h; cases h
    | spin s2 => rw [hev] at h; cases h

theorem i2c_msstop_sm_ok_inv (s s1 : System) (p : SM_Ptr)
    (h : i2c_msstop_sm s p = Outcome.ok s1) :
    0 ≤ s.lowest_energy_mode I2C_EM_BLOCK_index - 1 ∧
    s1.lowest_energy_mode = s.lowest_energy_mode.set I2C_EM_BLOCK_index
      (s.lowest_energy_mode I2C_EM_BLOCK_index - 1) ∧
    (s1.sm p).busy = true ∧
    (s1.sm p).current_state = DEFINED_STATES.init_write ∧
    s1.posted = s.posted ++ [(s.sm p).i2c_callback] ∧
    ((s.sm p).current_state = DEFINED_STATES.read_data ∨
      (s.sm p).current_state = DEFINED_STATES.rec_data) := by
  unfold i2c_msstop_sm at h
  by_cases hd : 0 ≤ s.lowest_energy_mode I2C_EM_BLOCK_index - 1
  · cases hc : (s.sm p).current_state <;>
      simp only [hc, sleep_unblock_mode_ok _ _ hd, Outcome.bind] at h <;>
      cases h <;> simp [hd]
  · cases hc : (s.sm p).current_state <;>
      simp only [hc, sleep_unblock_mode_halt _ _ hd, Outcome.bind] at h <;>
      cases h

theorem i2c_start_ok_table (s s1 : System) (i2c : I2C_Ptr) (dev mode data n reg cb : Nat)
    (h : i2c_start s i2c dev mode data n reg cb = Outcome.ok s1) :
    s1.lowest_energy_mode = s.lowest_energy_mode.set I2C_EM_BLOCK_index
      (s.lowest_energy_mode I2C_EM_BLOCK_index + 1) := by
  obtain ⟨p, hbus, hidle, hstate, hroom⟩ := i2c_start_ok_inv s s1 i2c dev mode data n reg cb h
  rw [i2c_start_ok s i2c p dev mode data n reg cb hbus hidle hstate hroom] at h
  cases h
  simp

/-! ## Read transactions of 1 to 4 bytes, event by event -/

theorem read_run_1 (s : System) (i2c : I2C_Ptr) (p : SM_Ptr)
    (dev data reg cb k : Nat) (b1 : Nat) (h1 : b1 < 256) (t : EnergyTable) :
    ∃ s2, i2c_events ((((withTable s t).setSM p
            { i2cx := i2c, busy := false, rwrite := READ_OP, i2c_callback := cb,
              data := data, bytes_per_transfer := 1,
              current_state := DEFINED_STATES.init_write,
              register_address := reg, peripheral_address := dev }).store i2c
          (I2C_Write.CMD I2C_CMD_START)).store i2c
          (I2C_Write.TXDATA (shl32 dev 1 ||| WRITE_OP))) p [I2C_Event.ack, I2C_Event.ack]
        = Outcome.ok s2 ∧
      (s2.sm p).current_state = DEFINED_STATES.init_read ∧
      ∃ s3, i2c_events s2 p (List.replicate k I2C_Event.ack ++ [b1].map I2C_Event.rxdatav)
          = Outcome.ok s3 ∧
        s3.mem data % 256 ^ 1 = be_value [b1] ∧
        (s3.sm p).bytes_per_transfer = 0 ∧
        (s3.sm p).current_state = DEFINED_STATES.rec_data := by
  simp only [i2c_events, i2c_event, i2c_ack_sm, i2c_receive_sm, Outcome.bind, List.map,
    List.cons_append, List.nil_append, i2c_events_append, i2c_events_ack_init_read,
    dec32_one, dec32_two, dec32_three, dec32_four, u32_mul8_0, u32_mul8_1, u32_mul8_2,
    u32_mul8_3, System.sm_setSM, System.sm_store, System.sm_setMem, System.sm_receive,
    System.mem_setSM, System.mem_store, System.mem_receive, System.mem_setMem_same,
    System.i2c_setSM, System.i2c_setMem, System.i2c_store_same, System.i2c_receive_RXDATA,
    withTable_sm, withTable_mem, I2C_TypeDef.store_CMD_RXDATA,
    I2C_TypeDef.store_TXDATA_RXDATA, ite_true, ite_false, reduceIte, id, ne_eq,
    OfNat.ofNat_ne_zero, not_false_eq_true, not_true_eq_false, one_ne_zero,
    Outcome.ok.injEq, exists_eq_left', true_and, and_true]
  exact pack_be_value_1 (s.mem data) b1 h1

theorem read_run_2 (s : System) (i2c : I2C_Ptr) (p : SM_Ptr)
    (dev data reg cb k : Nat) (b1 b2 : Nat) (h1 : b1 < 256) (h2 : b2 < 256) (t : EnergyTable) :
    ∃ s2, i2c_events ((((withTable s t).setSM p
            { i2cx := i2c, busy := false, rwrite := READ_OP, i2c_callback := cb,
              data := data, bytes_per_transfer := 2,
              current_state := DEFINED_STATES.init_write,
              register_address := reg, peripheral_address := dev }).store i2c
          (I2C_Write.CMD I2C_CMD_START)).store i2c
          (I2C_Write.TXDATA (shl32 dev 1 ||| WRITE_OP))) p [I2C_Event.ack, I2C_Event.ack]
        = Outcome.ok s2 ∧
      (s2.sm p).current_state = DEFINED_STATES.init_read ∧
      ∃ s3, i2c_events s2 p (List.replicate k I2C_Event.ack ++ [b1, b2].map I2C_Event.rxdatav)
          = Outcome.ok s3 ∧
        s3.mem data % 256 ^ 2 = be_value [b1, b2] ∧
        (s3.sm p).bytes_per_transfer = 0 ∧
        (s3.sm p).current_state = DEFINED_STATES.rec_data := by
  simp only [i2c_events, i2c_event, i2c_ack_sm, i2c_receive_sm, Outcome.bind, List.map,
    List.cons_append, List.nil_append, i2c_events_append, i2c_events_ack_init_read,
    dec32_one, dec32_two, dec32_three, dec32_four, u32_mul8_0, u32_mul8_1, u32_mul8_2,
    u32_mul8_3, System.sm_setSM, System.sm_store, System.sm_setMem, System.sm_receive,
    System.mem_setSM, System.mem_store, System.mem_receive, System.mem_setMem_same,
    System.i2c_setSM, System.i2c_setMem, System.i2c_store_same, System.i2c_receive_RXDATA,
    withTable_sm, withTable_mem, I2C_TypeDef.store_CMD_RXDATA,
    I2C_TypeDef.store_TXDATA_RXDATA, ite_true, ite_false, reduceIte, id, ne_eq,
    OfNat.ofNat_ne_zero, not_false_eq_true, not_true_eq_false, one_ne_zero,
    Outcome.ok.injEq, exists_eq_left', true_and, and_true]
  exact pack_be_value_2 (s.mem data) b1 b2 h1 h2

theorem read_run_3 (s : System) (i2c : I2C_Ptr) (p : SM_Ptr)
    (dev data reg cb k : Nat) (b1 b2 b3 : Nat)
    (h1 : b1 < 256) (h2 : b2 < 256) (h3 : b3 < 256) (t : EnergyTable) :
    ∃ s2, i2c_events ((((withTable s t).setSM p
            { i2cx := i2c, busy := false, rwrite := READ_OP, i2c_callback := cb,
              data := data, bytes_per_transfer := 3,
              current_state := DEFINED_STATES.init_write,
              register_address := reg, peripheral_address := dev }).store i2c
          (I2C_Write.CMD I2C_CMD_START)).store i2c
          (I2C_Write.TXDATA (shl32 dev 1 ||| WRITE_OP))) p [I2C_Event.ack, I2C_Event.ack]
        = Outcome.ok s2 ∧
      (s2.sm p).current_state = DEFINED_STATES.init_read ∧
      ∃ s3, i2c_events s2 p (List.replicate k I2C_Event.ack ++ [b1, b2, b3].map I2C_Event.rxdatav)
          = Outcome.ok s3 ∧
        s3.mem data % 256 ^ 3 = be_value [b1, b2, b3] ∧
        (s3.sm p).bytes_per_transfer = 0 ∧
        (s3.sm p).current_state = DEFINED_STATES.rec_data := by
  simp only [i2c_events, i2c_event, i2c_ack_sm, i2c_receive_sm, Outcome.bind, List.map,
    List.cons_append, List.nil_append, i2c_events_append, i2c_events_ack_init_read,
    dec32_one, dec32_two, dec32_three, dec32_four, u32_mul8_0, u32_mul8_1, u32_mul8_2,
    u32_mul8_3, System.sm_setSM, System.sm_store, System.sm_setMem, System.sm_receive,
    System.mem_setSM, System.mem_store, System.mem_receive, System.mem_setMem_same,
    System.i2c_setSM, System.i2c_setMem, System.i2c_store_same, System.i2c_receive_RXDATA,
    withTable_sm, withTable_mem, I2C_TypeDef.store_CMD_RXDATA,
    I2C_TypeDef.store_TXDATA_RXDATA, ite_true, ite_false, reduceIte, id, ne_eq,
    OfNat.ofNat_ne_zero, not_false_eq_true, not_true_eq_false, one_ne_zero,
    Outcome.ok.injEq, exists_eq_left', true_and, and_true]
  exact pack_be_value_3 (s.mem data) b1 b2 b3 h1 h2 h3

theorem read_run_4 (s : System) (i2c : I2C_Ptr) (p : SM_Ptr)
    (dev data reg cb k : Nat) (b1 b2 b3 b4 : Nat)
    (h1 : b1 < 256) (h2 : b2 < 256) (h3 : b3 < 256) (h4 : b4 < 256) (t : EnergyTable) :
    ∃ s2, i2c_events ((((withTable s t).setSM p
            { i2cx := i2c, busy := false, rwrite := READ_OP, i2c_callback := cb,
              data := data, bytes_per_transfer := 4,
              current_state := DEFINED_STATES.init_write,
              register_address := reg, peripheral_address := dev }).store i2c
          (I2C_Write.CMD I2C_CMD_START)).store i2c
          (I2C_Write.TXDATA (shl32 dev 1 ||| WRITE_OP))) p [I2C_Event.ack, I2C_Event.ack]
        = Outcome.ok s2 ∧
      (s2.sm p).current_state = DEFINED_STATES.init_read ∧
      ∃ s3, i2c_events s2 p
            (List.replicate k I2C_Event.ack ++ [b1, b2, b3, b4].map I2C_Event.rxdatav)
          = Outcome.ok s3 ∧
        s3.mem data % 256 ^ 4 = be_value [b1, b2, b3, b4] ∧
        (s3.sm p).bytes_per_transfer = 0 ∧
        (s3.sm p).current_state = DEFINED_STATES.rec_data := by
  simp only [i2c_events, i2c_event, i2c_ack_sm, i2c_receive_sm, Outcome.bind, List.map,
    List.cons_append, List.nil_append, i2c_events_append, i2c_events_ack_init_read,
    dec32_one, dec32_two, dec32_three, dec32_four, u32_mul8_0, u32_mul8_1, u32_mul8_2,
    u32_mul8_3, System.sm_setSM, System.sm_store, System.sm_setMem, System.sm_receive,
    System.mem_setSM, System.mem_store, System.mem_receive, System.mem_setMem_same,
    System.i2c_setSM, System.i2c_setMem, System.i2c_store_same, System.i2c_receive_RXDATA,
    withTable_sm, withTable_mem, I2C_TypeDef.store_CMD_RXDATA,
    I2C_TypeDef.store_TXDATA_RXDATA, ite_true, ite_false, reduceIte, id, ne_eq,
    OfNat.ofNat_ne_zero, not_false_eq_true, not_true_eq_false, one_ne_zero,
    Outcome.ok.injEq, exists_eq_left', true_and, and_true]
  exact pack_be_value_4 (s.mem data) b1 b2 b3 b4 h1 h2 h3 h4


theorem i2c_completed_balanced (s s1 s2 : System) (i2c : I2C_Ptr) (p : SM_Ptr)
    (dev mode data n reg cb : Nat) (es : List I2C_Event)
    (hbus : i2c_local i2c = some p)
    (hne : ∀ e ∈ es, e ≠ I2C_Event.mstop)
    (hstart : i2c_start s i2c dev mode data n reg cb = Outcome.ok s1)
    (hrun : i2c_events s1 p (es ++ [I2C_Event.mstop]) = Outcome.ok s2) :
    busy_state s2 i2c = true ∧ s2.lowest_energy_mode = s.lowest_energy_mode ∧
      0 ≤ s.lowest_energy_mode I2C_EM_BLOCK_index := by
  rw [i2c_events_append] at hrun
  cases hmid : i2c_events s1 p es with
  | halt s3 => rw [hmid] at hrun; cases hrun
  | spin s3 => rw [hmid] at hrun; cases hrun
  | ok s3 =>
    rw [hmid] at hrun
    simp only [Outcome.bind, i2c_events, i2c_event] at hrun
    cases hstop : i2c_msstop_sm s3 p with
    | halt s4 => rw [hstop] at hrun; cases hrun
    | spin s4 => rw [hstop] at hrun; cases hrun
    | ok s4 =>
      rw [hstop] at hrun
      obtain ⟨hnn, ht, hb, _⟩ := i2c_msstop_sm_ok_inv s3 s4 p hstop
      cases hrun
      have h3 := i2c_events_table p es s1 s3 hne hmid
      have h1 := i2c_start_ok_table s s1 i2c dev mode data n reg cb hstart
      have e : s.lowest_energy_mode I2C_EM_BLOCK_index + 1 - 1
          = s.lowest_energy_mode I2C_EM_BLOCK_index := by omega
      rw [h3, h1, EnergyTable.set_same, e] at hnn
      refine ⟨by rw [busy_state_eq _ _ _ hbus]; exact hb, ?_, hnn⟩
      rw [ht, h3, h1, EnergyTable.set_same, EnergyTable.set_set, e, EnergyTable.set_self]


theorem i2c_read_scenario_run (s : System) (i2c : I2C_Ptr) (p : SM_Ptr) (buf T b1 b2 : Nat)
    (hbus : i2c_local i2c = some p)
    (hidle : (s.sm p).busy = true)
    (hstate : (s.i2c i2c).STATE &&& _I2C_STATE_STATE_MASK = I2C_STATE_STATE_IDLE)
    (hlo : 0 ≤ s.lowest_energy_mode I2C_EM_BLOCK_index)
    (hhi : s.lowest_energy_mode I2C_EM_BLOCK_index < 4)
    (hb1 : b1 < 256) (hb2 : b2 < 256) :
    ∃ s1, i2c_start s i2c 0x55 READ_OP buf 2 0x13 T = Outcome.ok s1 ∧ ∃ s2,
      i2c_events s1 p [I2C_Event.ack, I2C_Event.ack, I2C_Event.ack, I2C_Event.rxdatav b1,
        I2C_Event.rxdatav b2, I2C_Event.mstop] = Outcome.ok s2 ∧
      (s2.i2c i2c).writes = (s.i2c i2c).writes ++
        [I2C_Write.CMD I2C_CMD_START, I2C_Write.TXDATA 0xAA, I2C_Write.TXDATA 0x13,
         I2C_Write.CMD I2C_CMD_START, I2C_Write.TXDATA 0xAB, I2C_Write.CMD I2C_CMD_ACK,
         I2C_Write.CMD I2C_CMD_NACK, I2C_Write.CMD I2C_CMD_STOP] ∧
      s2.mem buf % 65536 = b1 * 256 + b2 ∧
      s2.lowest_energy_mode = s.lowest_energy_mode ∧
      busy_state s2 i2c = true ∧
      s2.posted = s.posted ++ [T] ∧
      get_scheduled_events s2.event_scheduled = s.event_scheduled ||| T := by
  have hroom : s.lowest_energy_mode I2C_EM_BLOCK_index + 1 < 5 := by omega
  refine ⟨_, i2c_start_ok s i2c p 0x55 READ_OP buf 2 0x13 T hbus hidle hstate hroom, ?_⟩
  simp [i2c_events, i2c_event, i2c_ack_sm, i2c_receive_sm, i2c_msstop_sm, Outcome.bind,
    dec32_two, dec32_one, sleep_unblock_after_block _ _ hlo, busy_state_eq _ _ _ hbus,
    u32_zero, u32_eight, get_scheduled_events]
  refine ⟨⟨by decide, by decide⟩, ?_⟩
  simpa using pack_bytes_2 (s.mem buf) b1 b2 hb1 hb2


/-! ## I2C transactions: specification properties -/

/-- C1: for every byte count `n` in `1..4`, every initial destination word and
every sequence of received bytes `b1..bn` (each below 256): after `i2c_start`
in read mode with byte count `n`, the two acknowledge events lead to state
`init_read` (where further acknowledge events change nothing), and after `n`
receive-data-valid events delivering `b1..bn` in that order the low `8*n` bits
of the destination word are `b1*256^(n-1) + ... + bn`, `bytes_per_transfer`
is 0 and the state is `rec_data`. -/
theorem i2c_read_packs_big_endian (s s1 : System) (i2c : I2C_Ptr) (p : SM_Ptr)
    (dev data n reg cb k : Nat) (bs : List Nat)
    (hbus : i2c_local i2c = some p)
    (hstart : i2c_start s i2c dev READ_OP data n reg cb = Outcome.ok s1)
    (hn1 : 1 ≤ n) (hn4 : n ≤ 4) (hlen : bs.length = n) (hb : ∀ b ∈ bs, b < 256) :
    ∃ s2, i2c_events s1 p [I2C_Event.ack, I2C_Event.ack] = Outcome.ok s2 ∧
      (s2.sm p).current_state = DEFINED_STATES.init_read ∧
      ∃ s3, i2c_events s2 p (List.replicate k I2C_Event.ack ++ bs.map I2C_Event.rxdatav)
          = Outcome.ok s3 ∧
        s3.mem data % 256 ^ n = be_value bs ∧
        (s3.sm p).bytes_per_transfer = 0 ∧
        (s3.sm p).current_state = DEFINED_STATES.rec_data := by
  obtain ⟨q, hq, hidle, hstate, hroom⟩ :=
    i2c_start_ok_inv s s1 i2c dev READ_OP data n reg cb hstart
  have hqp : q = p := by rw [hbus] at hq; exact (Option.some.inj hq).symm
  subst hqp
  rw [i2c_start_ok s i2c q dev READ_OP data n reg cb hbus hidle hstate hroom] at hstart
  cases hstart
  interval_cases n
  · rcases bs with _ | ⟨b1, _ | ⟨b2, t⟩⟩ <;> simp at hlen
    exact read_run_1 s i2c q dev data reg cb k b1 (hb b1 (by simp)) _
  · rcases bs with _ | ⟨b1, _ | ⟨b2, _ | ⟨b3, t⟩⟩⟩ <;> simp at hlen
    exact read_run_2 s i2c q dev data reg cb k b1 b2 (hb b1 (by simp)) (hb b2 (by simp)) _
  · rcases bs with _ | ⟨b1, _ | ⟨b2, _ | ⟨b3, _ | ⟨b4, t⟩⟩⟩⟩ <;> simp at hlen
    exact read_run_3 s i2c q dev data reg cb k b1 b2 b3 (hb b1 (by simp)) (hb b2 (by simp))
      (hb b3 (by simp)) _
  · rcases bs with _ | ⟨b1, _ | ⟨b2, _ | ⟨b3, _ | ⟨b4, _ | ⟨b5, t⟩⟩⟩⟩⟩ <;> simp at hlen
    exact read_run_4 s i2c q dev data reg cb k b1 b2 b3 b4 (hb b1 (by simp)) (hb b2 (by simp))
      (hb b3 (by simp)) (hb b4 (by simp)) _

/-- Witness for C1: a two-byte read on I2C1 from the opened system, bytes
0x12 then 0x34, with the acknowledge of the repeated address as third
acknowledge event. -/
theorem i2c_read_packs_big_endian_witness :
    ∃ s1, i2c_start (System.opened (fun _ => 0)) I2C_Ptr.I2C1 0x55 READ_OP 7 2 0x13 1
        = Outcome.ok s1 ∧
      ∃ s2, i2c_events s1 SM_Ptr.i2c1_statemachine_vars [I2C_Event.ack, I2C_Event.ack]
          = Outcome.ok s2 ∧
        (s2.sm SM_Ptr.i2c1_statemachine_vars).current_state = DEFINED_STATES.init_read ∧
        ∃ s3, i2c_events s2 SM_Ptr.i2c1_statemachine_vars
              (List.replicate 1 I2C_Event.ack ++ [0x12, 0x34].map I2C_Event.rxdatav)
            = Outcome.ok s3 ∧
          s3.mem 7 % 256 ^ 2 = be_value [0x12, 0x34] ∧
          (s3.sm SM_Ptr.i2c1_statemachine_vars).bytes_per_transfer = 0 ∧
          (s3.sm SM_Ptr.i2c1_statemachine_vars).current_state = DEFINED_STATES.rec_data :=
  have hstart := i2c_start_ok (System.opened (fun _ => 0)) I2C_Ptr.I2C1
    SM_Ptr.i2c1_statemachine_vars 0x55 READ_OP 7 2 0x13 1 rfl rfl (by decide) (by decide)
  ⟨_, hstart, i2c_read_packs_big_endian (System.opened (fun _ => 0)) _ I2C_Ptr.I2C1
    SM_Ptr.i2c1_statemachine_vars 0x55 7 2 0x13 1 1 [0x12, 0x34] rfl hstart (by decide)
    (by decide) rfl (by decide)⟩

/-- C2: on bus I2C0 or I2C1, whenever `i2c_start` followed by interrupt events
up to and including a bus-stop event runs without assertion failure (the
transaction completed), `busy_state(bus)` is true afterwards and the EM2
(`I2C_EM_BLOCK`) counter has its value from before `i2c_start`; and a read or
a write transaction with byte count in `1..4`, started on an idle bus with an
idle controller and an EM2 counter in `0..3`, does run to completion through
its events with that result. -/
theorem i2c_transaction_balanced (s : System) (i2c : I2C_Ptr) (p : SM_Ptr)
    (dev mode data n reg cb : Nat) (bs : List Nat) (es : List I2C_Event)
    (hbus : i2c_local i2c = some p) :
    (∀ s1 s2, (∀ e ∈ es, e ≠ I2C_Event.mstop) →
      i2c_start s i2c dev mode data n reg cb = Outcome.ok s1 →
      i2c_events s1 p (es ++ [I2C_Event.mstop]) = Outcome.ok s2 →
      busy_state s2 i2c = true ∧
      s2.lowest_energy_mode I2C_EM_BLOCK_index = s.lowest_energy_mode I2C_EM_BLOCK_index) ∧
    ((mode = READ_OP ∨ mode = WRITE_OP) → 1 ≤ n → n ≤ 4 → bs.length = n →
      (s.sm p).busy = true →
      (s.i2c i2c).STATE &&& _I2C_STATE_STATE_MASK = I2C_STATE_STATE_IDLE →
      0 ≤ s.lowest_energy_mode I2C_EM_BLOCK_index →
      s.lowest_energy_mode I2C_EM_BLOCK_index < 4 →
      ∃ s1 s2, i2c_start s i2c dev mode data n reg cb = Outcome.ok s1 ∧
        i2c_events s1 p (transaction_events mode n bs) = Outcome.ok s2 ∧
        busy_state s2 i2c = true ∧
        s2.lowest_energy_mode I2C_EM_BLOCK_index
          = s.lowest_energy_mode I2C_EM_BLOCK_index) := by
  constructor
  · intro s1 s2 hne hstart hrun
    have h := i2c_completed_balanced s s1 s2 i2c p dev mode data n reg cb es hbus hne
      hstart hrun
    exact ⟨h.1, by rw [h.2.1]⟩
  · intro hmode hn1 hn4 hlen hidle hstate hlo hhi
    have hroom : s.lowest_energy_mode I2C_EM_BLOCK_index + 1 < 5 := by omega
    have hstart := i2c_start_ok s i2c p dev mode data n reg cb hbus hidle hstate hroom
    have hdec : ∃ es0 : List I2C_Event, (∀ e ∈ es0, e ≠ I2C_Event.mstop) ∧
        transaction_events mode n bs = es0 ++ [I2C_Event.mstop] := by
      rcases hmode with hm | hm
      · refine ⟨[I2C_Event.ack, I2C_Event.ack, I2C_Event.ack] ++ bs.map I2C_Event.rxdatav,
          ?_, by simp [transaction_events, hm]⟩
        intro e he
        simp only [List.mem_append, List.mem_cons, List.mem_map, List.mem_singleton] at he
        rcases he with (h | h | h | h) | ⟨b, _, h⟩
        · rw [h]; intro hc; cases hc
        · rw [h]; intro hc; cases hc
        · rw [h]; intro hc; cases hc
        · cases h
        · rw [← h]; intro hc; cases hc
      · refine ⟨List.replicate (n + 2) I2C_Event.ack, ?_,
          by simp [transaction_events, hm, READ_OP, WRITE_OP]⟩
        intro e he
        rw [List.eq_of_mem_replicate he]
        intro hc; cases hc
    have hrun : ∃ s2, i2c_events ((((withTable s (s.lowest_energy_mode.set I2C_EM_BLOCK_index
          (s.lowest_energy_mode I2C_EM_BLOCK_index + 1))).setSM p
            { i2cx := i2c, busy := false, rwrite := mode, i2c_callback := cb,
              data := data, bytes_per_transfer := n,
              current_state := DEFINED_STATES.init_write,
              register_address := reg, peripheral_address := dev }).store i2c
          (I2C_Write.CMD I2C_CMD_START)).store i2c
          (I2C_Write.TXDATA (shl32 dev 1 ||| WRITE_OP))) p (transaction_events mode n bs)
        = Outcome.ok s2 := by
      rcases hmode with hm | hm
      · subst hm
        interval_cases n
        · rcases bs with _ | ⟨b1, _ | ⟨b2, t⟩⟩ <;> simp at hlen
          simp [transaction_events, i2c_events, i2c_event, i2c_ack_sm, i2c_receive_sm,
            i2c_msstop_sm, Outcome.bind, dec32_one, sleep_unblock_after_block _ _ hlo]
        · rcases bs with _ | ⟨b1, _ | ⟨b2, _ | ⟨b3, t⟩⟩⟩ <;> simp at hlen
          simp [transaction_events, i2c_events, i2c_event, i2c_ack_sm, i2c_receive_sm,
            i2c_msstop_sm, Outcome.bind, dec32_one, dec32_two,
            sleep_unblock_after_block _ _ hlo]
        · rcases bs with _ | ⟨b1, _ | ⟨b2, _ | ⟨b3, _ | ⟨b4, t⟩⟩⟩⟩ <;> simp at hlen
          simp [transaction_events, i2c_events, i2c_event, i2c_ack_sm, i2c_receive_sm,
            i2c_msstop_sm, Outcome.bind, dec32_one, dec32_two, dec32_three,
            sleep_unblock_after_block _ _ hlo]
        · rcases bs with _ | ⟨b1, _ | ⟨b2, _ | ⟨b3, _ | ⟨b4, _ | ⟨b5, t⟩⟩⟩⟩⟩ <;> simp at hlen
          simp [transaction_events, i2c_events, i2c_event, i2c_ack_sm, i2c_receive_sm,
            i2c_msstop_sm, Outcome.bind, dec32_one, dec32_two, dec32_three, dec32_four,
            sleep_unblock_after_block _ _ hlo]
      · subst hm
        interval_cases n <;>
          simp [transaction_events, i2c_events, i2c_event, i2c_ack_sm,
            i2c_msstop_sm, Outcome.bind, dec32_one, dec32_two, dec32_three, dec32_four,
            sleep_unblock_after_block _ _ hlo, READ_OP, WRITE_OP, List.replicate]
    obtain ⟨s2, h2⟩ := hrun
    obtain ⟨es0, hne, hes⟩ := hdec
    have h := i2c_completed_balanced s _ s2 i2c p dev mode data n reg cb es0 hbus hne
      hstart (hes ▸ h2)
    exact ⟨_, s2, hstart, h2, h.1, by rw [h.2.1]⟩

/-- Witness for C2: a two-byte read on I2C1 from the opened system, both as a
run of given events and as the transaction's own events. -/
theorem i2c_transaction_balanced_witness :
    (∀ s1 s2, (∀ e ∈ [I2C_Event.ack, I2C_Event.ack, I2C_Event.rxdatav 0x12,
          I2C_Event.rxdatav 0x34], e ≠ I2C_Event.mstop) →
      i2c_start (System.opened (fun _ => 0)) I2C_Ptr.I2C1 0x55 READ_OP 7 2 0x13 1
        = Outcome.ok s1 →
      i2c_events s1 SM_Ptr.i2c1_statemachine_vars
        ([I2C_Event.ack, I2C_Event.ack, I2C_Event.rxdatav 0x12, I2C_Event.rxdatav 0x34]
          ++ [I2C_Event.mstop]) = Outcome.ok s2 →
      busy_state s2 I2C_Ptr.I2C1 = true ∧
      s2.lowest_energy_mode I2C_EM_BLOCK_index
        = (System.opened (fun _ => 0)).lowest_energy_mode I2C_EM_BLOCK_index) ∧
    ∃ s1 s2, i2c_start (System.opened (fun _ => 0)) I2C_Ptr.I2C1 0x55 READ_OP 7 2 0x13 1
        = Outcome.ok s1 ∧
      i2c_events s1 SM_Ptr.i2c1_statemachine_vars (transaction_events READ_OP 2 [0x12, 0x34])
        = Outcome.ok s2 ∧
      busy_state s2 I2C_Ptr.I2C1 = true ∧
      s2.lowest_energy_mode I2C_EM_BLOCK_index
        = (System.opened (fun _ => 0)).lowest_energy_mode I2C_EM_BLOCK_index :=
  have h := i2c_transaction_balanced (System.opened (fun _ => 0)) I2C_Ptr.I2C1
    SM_Ptr.i2c1_statemachine_vars 0x55 READ_OP 7 2 0x13 1 [0x12, 0x34]
    [I2C_Event.ack, I2C_Event.ack, I2C_Event.rxdatav 0x12, I2C_Event.rxdatav 0x34] rfl
  ⟨h.1, h.2 (Or.inl rfl) (by decide) (by decide) rfl rfl (by decide) (by decide) (by decide)⟩

/-- C3: `i2c_start(bus, 0x55, READ_OP, buf, 2, 0x13, T)` followed by the events
acknowledge, acknowledge, acknowledge, receive-data-valid(b1),
receive-data-valid(b2), bus-stop-detected: whenever this runs without assertion
failure it produces exactly the hardware writes CMD=START, TXDATA=0xAA,
TXDATA=0x13, CMD=START, TXDATA=0xAB, CMD=ACK, CMD=NACK, CMD=STOP, and afterwards
the low 16 bits of `buf` are `b1*256+b2`, the energy-mode table (so the EM2
counter) is back to its pre-start value, `busy_state(bus)` is true, and `T`
has been posted by exactly one `add_scheduled_event(T)` call; and from an idle
bus with an idle controller and an EM2 counter in `0..3` it does run without
assertion failure. -/
theorem i2c_read_scenario (s : System) (i2c : I2C_Ptr) (p : SM_Ptr) (buf T b1 b2 : Nat)
    (hbus : i2c_local i2c = some p) (hb1 : b1 < 256) (hb2 : b2 < 256) :
    (∀ s1 s2, i2c_start s i2c 0x55 READ_OP buf 2 0x13 T = Outcome.ok s1 →
      i2c_events s1 p [I2C_Event.ack, I2C_Event.ack, I2C_Event.ack, I2C_Event.rxdatav b1,
        I2C_Event.rxdatav b2, I2C_Event.mstop] = Outcome.ok s2 →
      (s2.i2c i2c).writes = (s.i2c i2c).writes ++
        [I2C_Write.CMD I2C_CMD_START, I2C_Write.TXDATA 0xAA, I2C_Write.TXDATA 0x13,
         I2C_Write.CMD I2C_CMD_START, I2C_Write.TXDATA 0xAB, I2C_Write.CMD I2C_CMD_ACK,
         I2C_Write.CMD I2C_CMD_NACK, I2C_Write.CMD I2C_CMD_STOP] ∧
      s2.mem buf % 65536 = b1 * 256 + b2 ∧
      s2.lowest_energy_mode = s.lowest_energy_mode ∧
      busy_state s2 i2c = true ∧
      s2.posted = s.posted ++ [T] ∧
      get_scheduled_events s2.event_scheduled = s.event_scheduled ||| T) ∧
    ((s.sm p).busy = true →
      (s.i2c i2c).STATE &&& _I2C_STATE_STATE_MASK = I2C_STATE_STATE_IDLE →
      0 ≤ s.lowest_energy_mode I2C_EM_BLOCK_index →
      s.lowest_energy_mode I2C_EM_BLOCK_index < 4 →
      ∃ s1 s2, i2c_start s i2c 0x55 READ_OP buf 2 0x13 T = Outcome.ok s1 ∧
        i2c_events s1 p [I2C_Event.ack, I2C_Event.ack, I2C_Event.ack, I2C_Event.rxdatav b1,
          I2C_Event.rxdatav b2, I2C_Event.mstop] = Outcome.ok s2) := by
  constructor
  · intro s1 s2 hstart hrun
    obtain ⟨q, hq, hidle, hstate, hroom⟩ :=
      i2c_start_ok_inv s s1 i2c 0x55 READ_OP buf 2 0x13 T hstart
    have hqp : q = p := by rw [hbus] at hq; exact (Option.some.inj hq).symm
    subst hqp
    have hlo := (i2c_completed_balanced s s1 s2 i2c q 0x55 READ_OP buf 2 0x13 T
      [I2C_Event.ack, I2C_Event.ack, I2C_Event.ack, I2C_Event.rxdatav b1,
        I2C_Event.rxdatav b2] hbus
      (by
        intro e he
        simp only [List.mem_cons, List.mem_singleton, List.not_mem_nil, or_false] at he
        rcases he with h | h | h | h | h <;> rw [h] <;> intro hc <;> cases hc)
      hstart hrun).2.2
    have hhi : s.lowest_energy_mode I2C_EM_BLOCK_index < 4 := by omega
    obtain ⟨s1', h1, s2', h2, hres⟩ :=
      i2c_read_scenario_run s i2c q buf T b1 b2 hbus hidle hstate hlo hhi hb1 hb2
    have e1 : s1' = s1 := Outcome.ok.inj (h1.symm.trans hstart)
    subst e1
    have e2 : s2' = s2 := Outcome.ok.inj (h2.symm.trans hrun)
    subst e2
    exact hres
  · intro hidle hstate hlo hhi
    obtain ⟨s1, h1, s2, h2, _⟩ :=
      i2c_read_scenario_run s i2c p buf T b1 b2 hbus hidle hstate hlo hhi hb1 hb2
    exact ⟨s1, s2, h1, h2⟩

/-- Witness for C3: the scenario on I2C1 from the opened system, with received
bytes 0x12 and 0x34 and completion token 8. -/
theorem i2c_read_scenario_witness :
    ∃ s1 s2, i2c_start (System.opened (fun _ => 0)) I2C_Ptr.I2C1 0x55 READ_OP 7 2 0x13 8
        = Outcome.ok s1 ∧
      i2c_events s1 SM_Ptr.i2c1_statemachine_vars
        [I2C_Event.ack, I2C_Event.ack, I2C_Event.ack, I2C_Event.rxdatav 0x12,
          I2C_Event.rxdatav 0x34, I2C_Event.mstop] = Outcome.ok s2 ∧
      (s2.i2c I2C_Ptr.I2C1).writes = ((System.opened (fun _ => 0)).i2c I2C_Ptr.I2C1).writes ++
        [I2C_Write.CMD I2C_CMD_START, I2C_Write.TXDATA 0xAA, I2C_Write.TXDATA 0x13,
         I2C_Write.CMD I2C_CMD_START, I2C_Write.TXDATA 0xAB, I2C_Write.CMD I2C_CMD_ACK,
         I2C_Write.CMD I2C_CMD_NACK, I2C_Write.CMD I2C_CMD_STOP] ∧
      s2.mem 7 % 65536 = 0x12 * 256 + 0x34 ∧
      s2.lowest_energy_mode = (System.opened (fun _ => 0)).lowest_energy_mode ∧
      busy_state s2 I2C_Ptr.I2C1 = true ∧
      s2.posted = (System.opened (fun _ => 0)).posted ++ [8] ∧
      get_scheduled_events s2.event_scheduled
        = (System.opened (fun _ => 0)).event_scheduled ||| 8 :=
  have h := i2c_read_scenario (System.opened (fun _ => 0)) I2C_Ptr.I2C1
    SM_Ptr.i2c1_statemachine_vars 7 8 0x12 0x34 rfl (by decide) (by decide)
  match h.2 rfl (by decide) (by decide) (by decide) with
  | ⟨s1, s2, h1, h2⟩ => ⟨s1, s2, h1, h2, h.1 s1 s2 h1 h2⟩

/-- C4: in a write transaction with byte count `n` in `1..4` and data word `w`,
the first acknowledge event sends the register address and leaves the state
`read_data`; the next `n` acknowledge events write to TXDATA the bytes
`(w >> 8*(n-1)) & 0xFF`, ..., `(w >> 8) & 0xFF`, `w & 0xFF` in that order:
after `k <= n` of them exactly the first `k` bytes have been written,
`bytes_per_transfer` is `n - k`, and the stop command has been issued and the
state is `rec_data` exactly when `k = n`, that is at the acknowledge event at
which `bytes_per_transfer` reaches zero. -/
theorem i2c_write_sends_bytes_msb_first (s s1 : System) (i2c : I2C_Ptr) (p : SM_Ptr)
    (dev data n reg cb : Nat)
    (hbus : i2c_local i2c = some p)
    (hstart : i2c_start s i2c dev WRITE_OP data n reg cb = Outcome.ok s1)
    (hn1 : 1 ≤ n) (hn4 : n ≤ 4) :
    ∃ s2, i2c_events s1 p [I2C_Event.ack] = Outcome.ok s2 ∧
      (s2.sm p).current_state = DEFINED_STATES.read_data ∧
      (s2.i2c i2c).writes = (s1.i2c i2c).writes ++ [I2C_Write.TXDATA reg] ∧
      ∀ k, k ≤ n →
        ∃ s3, i2c_events s2 p (List.replicate k I2C_Event.ack) = Outcome.ok s3 ∧
          (s3.i2c i2c).writes = (s2.i2c i2c).writes ++
            (List.range k).map
              (fun j => I2C_Write.TXDATA ((s.mem data >>> (8 * (n - 1 - j))) &&& 0xFF)) ++
            (if k = n then [I2C_Write.CMD I2C_CMD_STOP] else []) ∧
          (s3.sm p).current_state
            = (if k = n then DEFINED_STATES.rec_data else DEFINED_STATES.read_data) ∧
          (s3.sm p).bytes_per_transfer = n - k ∧
          s3.mem data = s.mem data := by
  obtain ⟨q, hq, hidle, hstate, hroom⟩ :=
    i2c_start_ok_inv s s1 i2c dev WRITE_OP data n reg cb hstart
  have hqp : q = p := by rw [hbus] at hq; exact (Option.some.inj hq).symm
  subst hqp
  rw [i2c_start_ok s i2c q dev WRITE_OP data n reg cb hbus hidle hstate hroom] at hstart
  cases hstart
  have hb0 := shr32_byte (s.mem data) 0 (by decide)
  have hb1 := shr32_byte (s.mem data) 1 (by decide)
  have hb2 := shr32_byte (s.mem data) 2 (by decide)
  have hb3 := shr32_byte (s.mem data) 3 (by decide)
  have hrw : (WRITE_OP = READ_OP) = False := by decide
  simp only [i2c_events, i2c_event, i2c_ack_sm, Outcome.bind, hrw,
    System.sm_setSM, System.sm_store, System.mem_setSM, System.mem_store,
    System.i2c_setSM, System.i2c_store_same, withTable_sm, withTable_mem, withTable_i2c,
    I2C_TypeDef.store_CMD_writes, I2C_TypeDef.store_TXDATA_writes,
    ite_true, ite_false, reduceIte, id, Outcome.ok.injEq, exists_eq_left', true_and]
  interval_cases n
  all_goals
    intro k hk
    interval_cases k
  all_goals
    simp only [i2c_events, i2c_event, i2c_ack_sm, Outcome.bind, List.replicate,
      dec32_one, dec32_two, dec32_three, dec32_four, u32_mul8_0, u32_mul8_1, u32_mul8_2,
      u32_mul8_3, hb0, hb1, hb2, hb3,
      System.sm_setSM, System.sm_store, System.mem_setSM, System.mem_store,
      System.i2c_setSM, System.i2c_store_same, withTable_sm, withTable_mem, withTable_i2c,
      I2C_TypeDef.store_CMD_writes, I2C_TypeDef.store_TXDATA_writes,
      ite_true, ite_false, reduceIte, id, Outcome.ok.injEq, exists_eq_left', true_and,
      OfNat.ofNat_ne_zero, one_ne_zero]
    simp [List.range_succ]

/-- Witness for C4: a two-byte write on I2C1 from the opened system. -/
theorem i2c_write_sends_bytes_msb_first_witness :
    ∃ s1, i2c_start (System.opened (fun _ => 0)) I2C_Ptr.I2C1 0x55 WRITE_OP 7 2 0x0B 0
        = Outcome.ok s1 ∧
      ∃ s2, i2c_events s1 SM_Ptr.i2c1_statemachine_vars [I2C_Event.ack] = Outcome.ok s2 ∧
        (s2.sm SM_Ptr.i2c1_statemachine_vars).current_state = DEFINED_STATES.read_data ∧
        (s2.i2c I2C_Ptr.I2C1).writes = (s1.i2c I2C_Ptr.I2C1).writes ++ [I2C_Write.TXDATA 0x0B] ∧
        ∀ k, k ≤ 2 →
          ∃ s3, i2c_events s2 SM_Ptr.i2c1_statemachine_vars (List.replicate k I2C_Event.ack)
              = Outcome.ok s3 ∧
            (s3.i2c I2C_Ptr.I2C1).writes = (s2.i2c I2C_Ptr.I2C1).writes ++
              (List.range k).map
                (fun j => I2C_Write.TXDATA
                  (((System.opened (fun _ => 0)).mem 7 >>> (8 * (2 - 1 - j))) &&& 0xFF)) ++
              (if k = 2 then [I2C_Write.CMD I2C_CMD_STOP] else []) ∧
            (s3.sm SM_Ptr.i2c1_statemachine_vars).current_state
              = (if k = 2 then DEFINED_STATES.rec_data else DEFINED_STATES.read_data) ∧
            (s3.sm SM_Ptr.i2c1_statemachine_vars).bytes_per_transfer = 2 - k ∧
            s3.mem 7 = (System.opened (fun _ => 0)).mem 7 :=
  have hstart := i2c_start_ok (System.opened (fun _ => 0)) I2C_Ptr.I2C1
    SM_Ptr.i2c1_statemachine_vars 0x55 WRITE_OP 7 2 0x0B 0 rfl rfl (by decide) (by decide)
  ⟨_, hstart, i2c_write_sends_bytes_msb_first (System.opened (fun _ => 0)) _ I2C_Ptr.I2C1
    SM_Ptr.i2c1_statemachine_vars 0x55 7 2 0x0B 0 rfl hstart (by decide) (by decide)⟩

/-- C10, as it holds: for every supported bus that is idle with an electrically
idle controller and whose EM2 counter is below 4 (so that the ceiling assertion
of `sleep_block_mode` passes), every device address `a < 128` and every mode
(`READ_OP`, `WRITE_OP` or any other value):
`i2c_start` returns, increments the EM2 counter by 1 and leaves the other
counters, marks the bus in flight (busy flag false), stores the controller,
mode, callback, data pointer, byte count, register address and device address
in the bus's state with state `init_write`, and writes CMD=START followed by
TXDATA = `2*a` (the address with direction bit 0) for read and write alike. -/
theorem i2c_start_effect (s : System) (i2c : I2C_Ptr) (p : SM_Ptr)
    (a mode data n reg cb : Nat)
    (hbus : i2c_local i2c = some p)
    (hidle : (s.sm p).busy = true)
    (hstate : (s.i2c i2c).STATE &&& _I2C_STATE_STATE_MASK = I2C_STATE_STATE_IDLE)
    (ha : a < 128)
    (hroom : s.lowest_energy_mode I2C_EM_BLOCK_index < 4) :
    ∃ s1, i2c_start s i2c a mode data n reg cb = Outcome.ok s1 ∧
      s1.lowest_energy_mode I2C_EM_BLOCK_index = s.lowest_energy_mode I2C_EM_BLOCK_index + 1 ∧
      (∀ j, j ≠ I2C_EM_BLOCK_index → s1.lowest_energy_mode j = s.lowest_energy_mode j) ∧
      busy_state s1 i2c = false ∧
      s1.sm p = { i2cx := i2c, busy := false, rwrite := mode, i2c_callback := cb,
                  data := data, bytes_per_transfer := n,
                  current_state := DEFINED_STATES.init_write,
                  register_address := reg, peripheral_address := a } ∧
      (s1.i2c i2c).writes = (s.i2c i2c).writes ++
        [I2C_Write.CMD I2C_CMD_START, I2C_Write.TXDATA (2 * a)] := by
  have hroom1 : s.lowest_energy_mode I2C_EM_BLOCK_index + 1 < 5 := by omega
  have htx : shl32 a 1 ||| WRITE_OP = 2 * a := by
    simp only [shl32, u32, WRITE_OP, Nat.shiftLeft_eq, Nat.or_zero]
    omega
  refine ⟨_, i2c_start_ok s i2c p a mode data n reg cb hbus hidle hstate hroom1, ?_⟩
  refine ⟨by simp [EnergyTable.set_same], ?_, ?_, by simp, by simp [htx]⟩
  · intro j hj
    simp [EnergyTable.set_other _ _ _ _ hj]
  · simp [busy_state_eq _ _ _ hbus]

/-- Witness for C10: a read start on I2C1 from the opened system. -/
theorem i2c_start_effect_witness :
    ∃ s1, i2c_start (System.opened (fun _ => 0)) I2C_Ptr.I2C1 0x55 READ_OP 7 2 0x13 8
        = Outcome.ok s1 ∧
      s1.lowest_energy_mode I2C_EM_BLOCK_index
        = (System.opened (fun _ => 0)).lowest_energy_mode I2C_EM_BLOCK_index + 1 ∧
      (∀ j, j ≠ I2C_EM_BLOCK_index →
        s1.lowest_energy_mode j = (System.opened (fun _ => 0)).lowest_energy_mode j) ∧
      busy_state s1 I2C_Ptr.I2C1 = false ∧
      s1.sm SM_Ptr.i2c1_statemachine_vars =
        { i2cx := I2C_Ptr.I2C1, busy := false, rwrite := READ_OP, i2c_callback := 8,
          data := 7, bytes_per_transfer := 2, current_state := DEFINED_STATES.init_write,
          register_address := 0x13, peripheral_address := 0x55 } ∧
      (s1.i2c I2C_Ptr.I2C1).writes = ((System.opened (fun _ => 0)).i2c I2C_Ptr.I2C1).writes ++
        [I2C_Write.CMD I2C_CMD_START, I2C_Write.TXDATA (2 * 0x55)] :=
  i2c_start_effect (System.opened (fun _ => 0)) I2C_Ptr.I2C1 SM_Ptr.i2c1_statemachine_vars
    0x55 READ_OP 7 2 0x13 8 rfl rfl (by decide) (by decide) (by decide)

/-- Counterexample to C10 as stated: with the EM2 counter at its ceiling 4, on
an idle bus with an idle controller and device address 0x55, `i2c_start` does
not return: the assertion of `sleep_block_mode` fails, the bus is not marked
in flight and no register has been written. -/
theorem i2c_start_halts_at_ceiling :
    ((System.opened (fun i => if i = 2 then 4 else 0)).sm
        SM_Ptr.i2c1_statemachine_vars).busy = true ∧
    ((System.opened (fun i => if i = 2 then 4 else 0)).i2c I2C_Ptr.I2C1).STATE
        &&& _I2C_STATE_STATE_MASK = I2C_STATE_STATE_IDLE ∧
    (0x55 : Nat) < 128 ∧
    (i2c_start (System.opened (fun i => if i = 2 then 4 else 0)) I2C_Ptr.I2C1 0x55 READ_OP
        7 2 0x13 8).failed = true ∧
    busy_state (i2c_start (System.opened (fun i => if i = 2 then 4 else 0)) I2C_Ptr.I2C1 0x55
        READ_OP 7 2 0x13 8).final I2C_Ptr.I2C1 = true ∧
    (((i2c_start (System.opened (fun i => if i = 2 then 4 else 0)) I2C_Ptr.I2C1 0x55
        READ_OP 7 2 0x13 8).final).i2c I2C_Ptr.I2C1).writes = [] := by
  decide

/-! ## I2C start: error paths -/

/-- C13: `i2c_start` called with a bus pointer that is neither `I2C0` nor `I2C1`
fails its assertion, and the state at the failure is the state at the call:
both buses' state machines and controllers, the energy-mode table and the
scheduled events are unchanged. -/
theorem i2c_start_unsupported_bus_fails (s : System) (addr a mode data n reg cb : Nat) :
    i2c_start s (I2C_Ptr.other addr) a mode data n reg cb = Outcome.halt s ∧
    (i2c_start s (I2C_Ptr.other addr) a mode data n reg cb).failed = true ∧
    (i2c_start s (I2C_Ptr.other addr) a mode data n reg cb).final = s :=
  ⟨rfl, rfl, rfl⟩

/-- C14: on a supported bus that is past the busy-wait (busy flag true), when
the `STATE` field of the controller's `STATE` register is not `IDLE`,
`i2c_start` fails its assertion, and the state at the failure is the state at
the call: the EM2 counter, the bus's state-machine fields, the busy flag and
the controller's store log (no `CMD`, no `TXDATA` store) are unchanged. -/
theorem i2c_start_not_idle_fails (s : System) (i2c : I2C_Ptr) (p : SM_Ptr)
    (a mode data n reg cb : Nat)
    (hbus : i2c_local i2c = some p)
    (hpast : (s.sm p).busy = true)
    (hstate : (s.i2c i2c).STATE &&& _I2C_STATE_STATE_MASK ≠ I2C_STATE_STATE_IDLE) :
    i2c_start s i2c a mode data n reg cb = Outcome.halt s ∧
    (i2c_start s i2c a mode data n reg cb).failed = true ∧
    (i2c_start s i2c a mode data n reg cb).final.lowest_energy_mode I2C_EM_BLOCK_index
      = s.lowest_energy_mode I2C_EM_BLOCK_index ∧
    (i2c_start s i2c a mode data n reg cb).final.sm p = s.sm p ∧
    busy_state (i2c_start s i2c a mode data n reg cb).final i2c = true ∧
    ((i2c_start s i2c a mode data n reg cb).final.i2c i2c).writes = (s.i2c i2c).writes := by
  have h : i2c_start s i2c a mode data n reg cb = Outcome.halt s := by
    unfold i2c_start
    rw [hbus]
    simp only [hpast]
    rw [if_neg (by simp), if_pos hstate]
  rw [h]
  refine ⟨rfl, rfl, rfl, rfl, ?_, rfl⟩
  show busy_state s i2c = true
  rw [busy_state_eq _ _ _ hbus]
  exact hpast

/-- Witness for C14: the opened system whose I2C1 controller reports `STATE`
field 1 (`STATE` register 0x20). -/
theorem i2c_start_not_idle_fails_witness :
    (i2c_start { System.opened (fun _ => 0) with
        i2c := fun _ => { I2C_TypeDef.idle with STATE := 0x20 } }
      I2C_Ptr.I2C1 0x55 READ_OP 7 2 0x13 8).failed = true ∧
    (i2c_start { System.opened (fun _ => 0) with
        i2c := fun _ => { I2C_TypeDef.idle with STATE := 0x20 } }
      I2C_Ptr.I2C1 0x55 READ_OP 7 2 0x13 8).final.lowest_energy_mode I2C_EM_BLOCK_index = 0 :=
  ⟨(i2c_start_not_idle_fails { System.opened (fun _ => 0) with
        i2c := fun _ => { I2C_TypeDef.idle with STATE := 0x20 } }
      I2C_Ptr.I2C1 SM_Ptr.i2c1_statemachine_vars 0x55 READ_OP 7 2 0x13 8
      rfl rfl (by decide)).2.1,
   (i2c_start_not_idle_fails { System.opened (fun _ => 0) with
        i2c := fun _ => { I2C_TypeDef.idle with STATE := 0x20 } }
      I2C_Ptr.I2C1 SM_Ptr.i2c1_statemachine_vars 0x55 READ_OP 7 2 0x13 8
      rfl rfl (by decide)).2.2.1⟩

/-! ## The acknowledge handler -/

/-- C19: in `init_write` the acknowledge handler returns, stores
`register_address` to `TXDATA`, and, the direction being `READ_OP` or
`WRITE_OP`, the next state is `write_data` if the direction is `READ_OP` and
`read_data` otherwise; in `write_data` it returns, stores `CMD = START` then
`TXDATA = (peripheral_address << 1) | 1`, and the next state is `init_read`;
in `init_read` it returns and changes nothing. No other field of the state
machine changes in any of the three. -/
theorem i2c_ack_sm_tabled_transitions (s : System) (p : SM_Ptr) :
    ((s.sm p).current_state = DEFINED_STATES.init_write →
      (s.sm p).rwrite = READ_OP ∨ (s.sm p).rwrite = WRITE_OP →
      ∃ s1, i2c_ack_sm s p = Outcome.ok s1 ∧
        (s1.i2c (s.sm p).i2cx).writes =
          (s.i2c (s.sm p).i2cx).writes ++ [I2C_Write.TXDATA (s.sm p).register_address] ∧
        s1.sm p = { s.sm p with current_state :=
          if (s.sm p).rwrite = READ_OP then DEFINED_STATES.write_data
          else DEFINED_STATES.read_data }) ∧
    ((s.sm p).current_state = DEFINED_STATES.write_data →
      ∃ s1, i2c_ack_sm s p = Outcome.ok s1 ∧
        (s1.i2c (s.sm p).i2cx).writes =
          (s.i2c (s.sm p).i2cx).writes ++
            [I2C_Write.CMD I2C_CMD_START,
             I2C_Write.TXDATA (shl32 (s.sm p).peripheral_address 1 ||| 1)] ∧
        s1.sm p = { s.sm p with current_state := DEFINED_STATES.init_read }) ∧
    ((s.sm p).current_state = DEFINED_STATES.init_read → i2c_ack_sm s p = Outcome.ok s) := by
  refine ⟨fun h hdir => ?_, fun h => ?_, fun h => ?_⟩
  · unfold i2c_ack_sm
    simp only [h]
    by_cases hr : (s.sm p).rwrite = READ_OP
    · refine ⟨_, by rw [if_pos hr], ?_, ?_⟩
      · simp
      · simp [hr]
    · have hw : (s.sm p).rwrite = WRITE_OP := hdir.resolve_left hr
      refine ⟨_, by rw [if_neg hr, if_pos hw], ?_, ?_⟩
      · simp
      · simp only [System.sm_store, System.sm_setSM, if_neg hr]
  · unfold i2c_ack_sm
    simp only [h]
    refine ⟨_, rfl, ?_, ?_⟩
    · simp [READ_OP]
    · simp
  · unfold i2c_ack_sm
    simp only [h]

/-- Witness for C19: a two-byte read started on I2C1 from the opened system
is in `init_write` with direction `READ_OP`; the acknowledge handler returns,
`TXDATA = 0x13` is the last store and the next state is `write_data`. -/
theorem i2c_ack_sm_tabled_transitions_witness :
    ∃ s1, i2c_ack_sm (i2c_start (System.opened (fun _ => 0)) I2C_Ptr.I2C1 0x55 READ_OP 7 2
        0x13 8).final SM_Ptr.i2c1_statemachine_vars = Outcome.ok s1 ∧
      (s1.i2c I2C_Ptr.I2C1).writes =
        ((i2c_start (System.opened (fun _ => 0)) I2C_Ptr.I2C1 0x55 READ_OP 7 2
          0x13 8).final.i2c I2C_Ptr.I2C1).writes ++ [I2C_Write.TXDATA 0x13] ∧
      (s1.sm SM_Ptr.i2c1_statemachine_vars).current_state = DEFINED_STATES.write_data :=
  match (i2c_ack_sm_tabled_transitions
    (i2c_start (System.opened (fun _ => 0)) I2C_Ptr.I2C1 0x55 READ_OP 7 2 0x13 8).final
    SM_Ptr.i2c1_statemachine_vars).1 rfl (Or.inl rfl) with
  | ⟨s1, h1, h2, h3⟩ => ⟨s1, h1, h2, by rw [h3]; rfl⟩

/-- C20, as it holds: an acknowledge event arriving while the protocol state is
`rec_data` or `end_process` is ignored: the handler returns, no assertion
fails, and nothing changes. -/
theorem i2c_ack_sm_ignored_in_rec_data (s : System) (p : SM_Ptr)
    (h : (s.sm p).current_state = DEFINED_STATES.rec_data ∨
         (s.sm p).current_state = DEFINED_STATES.end_process) :
    i2c_ack_sm s p = Outcome.ok s ∧ (i2c_ack_sm s p).failed = false := by
  have e : i2c_ack_sm s p = Outcome.ok s := by
    unfold i2c_ack_sm
    rcases h with h | h <;> simp only [h]
  rw [e]
  exact ⟨rfl, rfl⟩

/-- Witness for C20: the opened system with the I2C1 state machine put in
`end_process`. -/
theorem i2c_ack_sm_ignored_in_rec_data_witness :
    (i2c_ack_sm ((System.opened (fun _ => 0)).setSM SM_Ptr.i2c1_statemachine_vars
        { I2C_STATE_MACHINE.opened with current_state := DEFINED_STATES.end_process })
      SM_Ptr.i2c1_statemachine_vars).failed = false :=
  (i2c_ack_sm_ignored_in_rec_data ((System.opened (fun _ => 0)).setSM
      SM_Ptr.i2c1_statemachine_vars
      { I2C_STATE_MACHINE.opened with current_state := DEFINED_STATES.end_process })
    SM_Ptr.i2c1_statemachine_vars (Or.inr rfl)).2

/-- Counterexample to C20 as stated: in a one-byte write on I2C1 the third
acknowledge (that of the data byte) arrives in `rec_data`, after the handler
commanded the stop; the handler returns without a failed assertion, the state
stays `rec_data`, and the bus-stop event then completes the transaction. -/
theorem i2c_ack_sm_rec_data_no_failure :
    ((i2c_events (i2c_start (System.opened (fun _ => 0)) I2C_Ptr.I2C1 0x55 WRITE_OP 7 1 0x13 8).final
        SM_Ptr.i2c1_statemachine_vars [I2C_Event.ack, I2C_Event.ack]).final.sm
        SM_Ptr.i2c1_statemachine_vars).current_state = DEFINED_STATES.rec_data ∧
    (i2c_ack_sm (i2c_events
        (i2c_start (System.opened (fun _ => 0)) I2C_Ptr.I2C1 0x55 WRITE_OP 7 1 0x13 8).final
        SM_Ptr.i2c1_statemachine_vars [I2C_Event.ack, I2C_Event.ack]).final
      SM_Ptr.i2c1_statemachine_vars).failed = false ∧
    ((i2c_ack_sm (i2c_events
        (i2c_start (System.opened (fun _ => 0)) I2C_Ptr.I2C1 0x55 WRITE_OP 7 1 0x13 8).final
        SM_Ptr.i2c1_statemachine_vars [I2C_Event.ack, I2C_Event.ack]).final
      SM_Ptr.i2c1_statemachine_vars).final.sm
        SM_Ptr.i2c1_statemachine_vars).current_state = DEFINED_STATES.rec_data ∧
    ((i2c_ack_sm ((System.opened (fun _ => 0)).setSM SM_Ptr.i2c1_statemachine_vars
        { I2C_STATE_MACHINE.opened with current_state := DEFINED_STATES.end_process })
      SM_Ptr.i2c1_statemachine_vars).failed = false) := by
  decide

/-! ## Scheduler and sleep selection -/

theorem testBit_not32 (e i : Nat) :
    (not32 e).testBit i = (decide (i < 32) && !e.testBit i) := by
  unfold not32 u32
  rw [Nat.testBit_xor, Nat.testBit_two_pow_sub_one, Nat.testBit_mod_two_pow]
  by_cases h : i < 32 <;> simp [h]

theorem testBit_u32_word (m i : Nat) (hm : m < 2 ^ 32) (hi : 32 ≤ i) : m.testBit i = false :=
  Nat.testBit_lt_two_pow (lt_of_lt_of_le hm (Nat.pow_le_pow_right (by decide) hi))

/-- C17: for every 32-bit mask `m` and event `e`: after `add_scheduled_event(e)`
the mask read by `get_scheduled_events` is `m | e`, a 32-bit value whose set
bits are those of `m` and those of `e` (every scheduled event stays scheduled),
and adding `e` again changes nothing; after `remove_scheduled_event(e)` the
mask is `m & ~e`, whose set bits are the bits of `m` that are not bits of `e`;
`scheduler_open` sets the mask to 0. -/
theorem scheduler_mask_contract (m e : Nat) (hm : m < 2 ^ 32) (he : e < 2 ^ 32) :
    get_scheduled_events (add_scheduled_event m e) = m ||| e ∧
    add_scheduled_event m e < 2 ^ 32 ∧
    (∀ i, (get_scheduled_events (add_scheduled_event m e)).testBit i
        = (m.testBit i || e.testBit i)) ∧
    add_scheduled_event (add_scheduled_event m e) e = add_scheduled_event m e ∧
    get_scheduled_events (remove_scheduled_event m e) = m &&& not32 e ∧
    remove_scheduled_event m e < 2 ^ 32 ∧
    (∀ i, (get_scheduled_events (remove_scheduled_event m e)).testBit i
        = (m.testBit i && !e.testBit i)) ∧
    get_scheduled_events (scheduler_open m) = 0 := by
  refine ⟨rfl, Nat.or_lt_two_pow hm he, fun i => Nat.testBit_or m e i, ?_, rfl, ?_, ?_, rfl⟩
  · unfold add_scheduled_event
    apply Nat.eq_of_testBit_eq
    intro i
    simp only [Nat.testBit_or, Bool.or_assoc, Bool.or_self]
  · exact lt_of_le_of_lt Nat.and_le_left hm
  · intro i
    unfold get_scheduled_events remove_scheduled_event
    rw [Nat.testBit_and, testBit_not32]
    by_cases h : i < 32
    · simp [h]
    · rw [testBit_u32_word m i hm (by omega)]
      simp

/-- Witness for C17: the mask 0x88 (`SI1133_CB` and `BLE_TX_DONE_CB` scheduled)
and the event 0x18. -/
theorem scheduler_mask_contract_witness :
    get_scheduled_events (add_scheduled_event 0x88 0x18) = 0x98 ∧
    get_scheduled_events (remove_scheduled_event 0x88 0x18) = 0x80 :=
  ⟨(scheduler_mask_contract 0x88 0x18 (by decide) (by decide)).1.trans (by decide),
   (scheduler_mask_contract 0x88 0x18 (by decide) (by decide)).2.2.2.2.1.trans (by decide)⟩

theorem current_block_energy_mode_eq (t : EnergyTable) :
    current_block_energy_mode t =
      if t 0 ≠ 0 then 0 else if t 1 ≠ 0 then 1 else if t 2 ≠ 0 then 2
      else if t 3 ≠ 0 then 3 else 4 := by
  by_cases e0 : t 0 = 0 <;> by_cases e1 : t 1 = 0 <;> by_cases e2 : t 2 = 0 <;>
    by_cases e3 : t 3 = 0 <;>
    simp [current_block_energy_mode, current_block_energy_mode_loop, MAX_ENERGY_MODES,
      e0, e1, e2, e3]

theorem enter_sleep_eq (t : EnergyTable) (hnn : ∀ i, 0 ≤ t i) :
    enter_sleep t =
      if t 0 ≠ 0 then SleepAction.none else if t 1 ≠ 0 then SleepAction.none
      else if t 2 ≠ 0 then SleepAction.enterEM1
      else if t 3 ≠ 0 then SleepAction.enterEM2 else SleepAction.enterEM3 := by
  have p0 : t 0 > 0 ↔ t 0 ≠ 0 := by have := hnn 0; constructor <;> intro h <;> omega
  have p1 : t 1 > 0 ↔ t 1 ≠ 0 := by have := hnn 1; constructor <;> intro h <;> omega
  have p2 : t 2 > 0 ↔ t 2 ≠ 0 := by have := hnn 2; constructor <;> intro h <;> omega
  have p3 : t 3 > 0 ↔ t 3 ≠ 0 := by have := hnn 3; constructor <;> intro h <;> omega
  unfold enter_sleep
  simp only [p0, p1, p2, p3]

/-- C18: on every table without a negative counter (every table the arbiter
can reach), the action of `enter_sleep` is determined by
`b = current_block_energy_mode()`: no sleep mode for `b = 0` and `b = 1`, EM1
for `b = 2`, EM2 for `b = 3`, EM3 for `b = 4`, which is the case exactly when
the counters of EM0..EM3 are all zero; and whenever a mode `d` in EM0..EM3 is
blocked, the mode entered, if any, is shallower than `d`. -/
theorem enter_sleep_follows_block_mode (t : EnergyTable) (hnn : ∀ i, 0 ≤ t i) :
    ((current_block_energy_mode t = 0 ∨ current_block_energy_mode t = 1) →
      enter_sleep t = SleepAction.none) ∧
    (current_block_energy_mode t = 2 → enter_sleep t = SleepAction.enterEM1) ∧
    (current_block_energy_mode t = 3 → enter_sleep t = SleepAction.enterEM2) ∧
    (current_block_energy_mode t = 4 → enter_sleep t = SleepAction.enterEM3) ∧
    current_block_energy_mode t ≤ 4 ∧
    (current_block_energy_mode t = 4 ↔ ∀ i : Fin 5, i.val ≤ 3 → t i = 0) ∧
    (∀ (d : Fin 5) (k : Nat), d.val ≤ 3 → t d ≠ 0 →
      (enter_sleep t).entered = some k → k < d.val) := by
  have hfin : ∀ i : Fin 5, i.val ≤ 3 → i = 0 ∨ i = 1 ∨ i = 2 ∨ i = 3 := by
    intro i hi
    fin_cases i <;> simp at hi ⊢
  rw [current_block_energy_mode_eq, enter_sleep_eq t hnn]
  refine ⟨?_, ?_, ?_, ?_, ?_, ⟨?_, ?_⟩, ?_⟩
  · by_cases e0 : t 0 = 0 <;> by_cases e1 : t 1 = 0 <;> by_cases e2 : t 2 = 0 <;>
      by_cases e3 : t 3 = 0 <;> simp [e0, e1, e2, e3]
  · by_cases e0 : t 0 = 0 <;> by_cases e1 : t 1 = 0 <;> by_cases e2 : t 2 = 0 <;>
      by_cases e3 : t 3 = 0 <;> simp [e0, e1, e2, e3]
  · by_cases e0 : t 0 = 0 <;> by_cases e1 : t 1 = 0 <;> by_cases e2 : t 2 = 0 <;>
      by_cases e3 : t 3 = 0 <;> simp [e0, e1, e2, e3]
  · by_cases e0 : t 0 = 0 <;> by_cases e1 : t 1 = 0 <;> by_cases e2 : t 2 = 0 <;>
      by_cases e3 : t 3 = 0 <;> simp [e0, e1, e2, e3]
  · by_cases e0 : t 0 = 0 <;> by_cases e1 : t 1 = 0 <;> by_cases e2 : t 2 = 0 <;>
      by_cases e3 : t 3 = 0 <;> simp [e0, e1, e2, e3]
  · intro h i hi
    have a0 : t 0 = 0 := by
      by_contra c
      simp [c] at h
    have a1 : t 1 = 0 := by
      by_contra c
      simp [a0, c] at h
    have a2 : t 2 = 0 := by
      by_contra c
      simp [a0, a1, c] at h
    have a3 : t 3 = 0 := by
      by_contra c
      simp [a0, a1, a2, c] at h
    rcases hfin i hi with rfl | rfl | rfl | rfl <;> assumption
  · intro h
    simp [h 0 (by decide), h 1 (by decide), h 2 (by decide), h 3 (by decide)]
  · intro d k hd hb hk
    rcases hfin d hd with rfl | rfl | rfl | rfl
    · simp [hb, SleepAction.entered] at hk
    · by_cases e0 : t 0 = 0 <;> simp [e0, hb, SleepAction.entered] at hk
    · by_cases e0 : t 0 = 0 <;> by_cases e1 : t 1 = 0 <;>
        simp [e0, e1, hb, SleepAction.entered, EM1] at hk
      subst hk
      decide
    · by_cases e0 : t 0 = 0 <;> by_cases e1 : t 1 = 0 <;> by_cases e2 : t 2 = 0 <;>
        simp [e0, e1, e2, hb, SleepAction.entered, EM1, EM2] at hk <;>
        subst hk <;> decide

/-- Witness for C18: the table with one block on EM2 (the table during an I2C
transaction). -/
theorem enter_sleep_follows_block_mode_witness :
    current_block_energy_mode (fun i => if i = 2 then 1 else 0) = 2 ∧
    enter_sleep (fun i => if i = 2 then 1 else 0) = SleepAction.enterEM1 :=
  ⟨by decide,
   (enter_sleep_follows_block_mode (fun i => if i = 2 then 1 else 0) (by decide)).2.1
     (by decide)⟩

/-! ## Runs of steps: what each step leaves unchanged -/

theorem System.sm_setSM_ite (s : System) (p q : SM_Ptr) (m : I2C_STATE_MACHINE) :
    (s.setSM p m).sm q = if q = p then m else s.sm q := by
  by_cases h : q = p
  · subst h
    simp
  · rw [if_neg h, System.sm_setSM_other _ _ _ _ h]

theorem i2c_ack_sm_frame (s s1 : System) (p q : SM_Ptr) (h : i2c_ack_sm s p = Outcome.ok s1) :
    (s1.sm q).busy = (s.sm q).busy ∧ (s1.sm q).i2c_callback = (s.sm q).i2c_callback ∧
      s1.posted = s.posted := by
  unfold i2c_ack_sm at h
  cases hc : (s.sm p).current_state <;> simp only [hc] at h
  · split at h
    · cases h
      by_cases hq : q = p <;> simp [System.sm_setSM_ite, hq]
    · split at h <;> cases h <;> by_cases hq : q = p <;> simp [System.sm_setSM_ite, hq]
  · cases h
    by_cases hq : q = p <;> simp [System.sm_setSM_ite, hq]
  · cases h
    exact ⟨rfl, rfl, rfl⟩
  · split at h <;> cases h <;> by_cases hq : q = p <;> simp [System.sm_setSM_ite, hq]
  · cases h
    exact ⟨rfl, rfl, rfl⟩
  · cases h
    exact ⟨rfl, rfl, rfl⟩

theorem i2c_receive_sm_frame (s s1 : System) (p q : SM_Ptr)
    (h : i2c_receive_sm s p = Outcome.ok s1) :
    (s1.sm q).busy = (s.sm q).busy ∧ (s1.sm q).i2c_callback = (s.sm q).i2c_callback ∧
      s1.posted = s.posted := by
  unfold i2c_receive_sm at h
  cases hc : (s.sm p).current_state <;> simp only [hc] at h
  · cases h
    exact ⟨rfl, rfl, rfl⟩
  · cases h
    exact ⟨rfl, rfl, rfl⟩
  · split at h <;> cases h <;> by_cases hq : q = p <;> simp [System.sm_setSM_ite, hq]
  · cases h
  · cases h
  · cases h

theorem i2c_event_frame (s s1 : System) (p q : SM_Ptr) (e : I2C_Event)
    (he : e ≠ I2C_Event.mstop) (h : i2c_event s p e = Outcome.ok s1) :
    (s1.sm q).busy = (s.sm q).busy ∧ (s1.sm q).i2c_callback = (s.sm q).i2c_callback ∧
      s1.posted = s.posted := by
  cases e with
  | ack => exact i2c_ack_sm_frame s s1 p q h
  | rxdatav b =>
    have := i2c_receive_sm_frame _ s1 p q h
    simpa using this
  | mstop => exact absurd rfl he

theorem i2c_msstop_sm_other (s s1 : System) (p q : SM_Ptr) (hq : q ≠ p)
    (h : i2c_msstop_sm s p = Outcome.ok s1) : s1.sm q = s.sm q := by
  unfold i2c_msstop_sm at h
  by_cases hd : 0 ≤ s.lowest_energy_mode I2C_EM_BLOCK_index - 1
  · cases hc : (s.sm p).current_state <;>
      simp only [hc, sleep_unblock_mode_ok _ _ hd, Outcome.bind] at h <;>
      cases h <;> simp [System.sm_setSM_ite, hq]
  · cases hc : (s.sm p).current_state <;>
      simp only [hc, sleep_unblock_mode_halt _ _ hd, Outcome.bind] at h <;>
      cases h

theorem i2c_start_ok_sm (s s1 : System) (i2c : I2C_Ptr) (dev mode data n reg cb : Nat)
    (h : i2c_start s i2c dev mode data n reg cb = Outcome.ok s1) :
    ∃ p, i2c_local i2c = some p ∧ (s.sm p).busy = true ∧ (s1.sm p).busy = false ∧
      (∀ q, q ≠ p → s1.sm q = s.sm q) ∧ s1.posted = s.posted := by
  obtain ⟨p, hbus, hidle, hstate, hroom⟩ := i2c_start_ok_inv s s1 i2c dev mode data n reg cb h
  rw [i2c_start_ok s i2c p dev mode data n reg cb hbus hidle hstate hroom] at h
  cases h
  refine ⟨p, hbus, hidle, by simp, ?_, by simp⟩
  intro q hq
  simp [System.sm_setSM_ite, hq]

theorem i2c_start_spins (s : System) (i2c : I2C_Ptr) (p : SM_Ptr) (dev mode data n reg cb : Nat)
    (hbus : i2c_local i2c = some p) (hflight : (s.sm p).busy = false) :
    i2c_start s i2c dev mode data n reg cb = Outcome.spin s := by
  unfold i2c_start
  rw [hbus]
  simp only [hflight, if_true]

theorem i2c_steps_keeps_waiting (p : SM_Ptr) :
    ∀ (steps : List I2C_Step) (s s1 : System),
      (s.sm p).busy = false → I2C_Step.event p I2C_Event.mstop ∉ steps →
      i2c_steps s steps = Outcome.ok s1 →
      (s1.sm p).busy = false ∧ (s1.sm p).i2c_callback = (s.sm p).i2c_callback := by
  intro steps
  induction steps with
  | nil =>
    intro s s1 hb _ h
    simp only [i2c_steps, Outcome.ok.injEq] at h
    subst h
    exact ⟨hb, rfl⟩
  | cons c cs ih =>
    intro s s1 hb hno h
    simp only [i2c_steps] at h
    have hno1 : I2C_Step.event p I2C_Event.mstop ∉ cs :=
      fun hm => hno (List.mem_cons_of_mem _ hm)
    cases hrun : c.run s with
    | halt s2 => rw [hrun] at h; cases h
    | spin s2 => rw [hrun] at h; cases h
    | ok s2 =>
      rw [hrun] at h
      simp only [Outcome.bind] at h
      have key : (s2.sm p).busy = false ∧ (s2.sm p).i2c_callback = (s.sm p).i2c_callback := by
        cases c with
        | start i2c dev mode data n reg cb =>
          obtain ⟨q, _, hq, _, hoth, _⟩ := i2c_start_ok_sm s s2 i2c dev mode data n reg cb hrun
          have hpq : p ≠ q := by
            intro e
            subst e
            rw [hb] at hq
            cases hq
          rw [hoth p hpq]
          exact ⟨hb, rfl⟩
        | event q e =>
          by_cases he : e = I2C_Event.mstop
          · subst he
            have hpq : p ≠ q := by
              intro e
              subst e
              exact hno (List.mem_cons_self _ _)
            rw [i2c_msstop_sm_other s s2 q p hpq hrun]
            exact ⟨hb, rfl⟩
          · obtain ⟨h1, h2, _⟩ := i2c_event_frame s s2 q p e he hrun
            rw [h1, h2]
            exact ⟨hb, rfl⟩
      obtain ⟨h1, h2⟩ := ih s2 s1 key.1 hno1 h
      exact ⟨h1, h2.trans key.2⟩

/-- C12: while a bus's transaction is in flight (busy flag false), a second
`i2c_start` on that bus stays in its busy-wait and the state is the state at
the call: state-machine fields, data words, energy-mode table and controller
registers are unchanged. This stays so after every run of further steps
(interrupt events on either bus, starts on the other bus) that does not
contain the bus-stop event of this bus; and the bus-stop event of this bus,
when it is handled, sets the busy flag back to true and posts the completion
token of the first transaction. -/
theorem i2c_second_start_waits (s : System) (i2c : I2C_Ptr) (p : SM_Ptr)
    (dev mode data n reg cb : Nat)
    (hbus : i2c_local i2c = some p) (hflight : (s.sm p).busy = false) :
    i2c_start s i2c dev mode data n reg cb = Outcome.spin s ∧
    (i2c_start s i2c dev mode data n reg cb).final = s ∧
    (∀ steps s1, I2C_Step.event p I2C_Event.mstop ∉ steps →
      i2c_steps s steps = Outcome.ok s1 →
      i2c_start s1 i2c dev mode data n reg cb = Outcome.spin s1 ∧
      (s1.sm p).i2c_callback = (s.sm p).i2c_callback) ∧
    (∀ steps s1 s2, I2C_Step.event p I2C_Event.mstop ∉ steps →
      i2c_steps s steps = Outcome.ok s1 →
      i2c_event s1 p I2C_Event.mstop = Outcome.ok s2 →
      (s2.sm p).busy = true ∧ s2.posted = s1.posted ++ [(s.sm p).i2c_callback]) := by
  have h0 := i2c_start_spins s i2c p dev mode data n reg cb hbus hflight
  refine ⟨h0, by rw [h0]; rfl, ?_, ?_⟩
  · intro steps s1 hno hrun
    obtain ⟨h1, h2⟩ := i2c_steps_keeps_waiting p steps s s1 hflight hno hrun
    exact ⟨i2c_start_spins s1 i2c p dev mode data n reg cb hbus h1, h2⟩
  · intro steps s1 s2 hno hrun hstop
    obtain ⟨_, h2⟩ := i2c_steps_keeps_waiting p steps s s1 hflight hno hrun
    obtain ⟨_, _, hb, _, hp, _⟩ := i2c_msstop_sm_ok_inv s1 s2 p hstop
    rw [h2] at hp
    exact ⟨hb, hp⟩

/-- Witness for C12: a second start on I2C1 while the read started on it from
the opened system is in flight. -/
theorem i2c_second_start_waits_witness :
    i2c_start (i2c_start (System.opened (fun _ => 0)) I2C_Ptr.I2C1 0x55 READ_OP 7 2 0x13 8).final
        I2C_Ptr.I2C1 0x29 WRITE_OP 9 1 0 4
      = Outcome.spin
          (i2c_start (System.opened (fun _ => 0)) I2C_Ptr.I2C1 0x55 READ_OP 7 2 0x13 8).final :=
  (i2c_second_start_waits
    (i2c_start (System.opened (fun _ => 0)) I2C_Ptr.I2C1 0x55 READ_OP 7 2 0x13 8).final
    I2C_Ptr.I2C1 SM_Ptr.i2c1_statemachine_vars 0x29 WRITE_OP 9 1 0 4 rfl (by decide)).1

/-! ## Transactions in flight and the EM2 block -/

theorem I2C_Step.flight_event (f : SM_Ptr → Bool) (p : SM_Ptr) (e : I2C_Event)
    (he : e ≠ I2C_Event.mstop) : (I2C_Step.event p e).flight f = f := by
  cases e with
  | ack => rfl
  | rxdatav b => rfl
  | mstop => exact absurd rfl he

theorem flight_count_set_true (f : SM_Ptr → Bool) (p : SM_Ptr) (h : f p = false) :
    flight_count (fun q => if q = p then true else f q) = flight_count f + 1 := by
  cases p
  · simp only [flight_count] at h ⊢
    simp only [h, if_true, if_false, reduceCtorEq]
    simp
    omega
  · simp only [flight_count] at h ⊢
    simp only [h, if_true, if_false, reduceCtorEq]
    simp

theorem flight_count_set_false (f : SM_Ptr → Bool) (p : SM_Ptr) (h : f p = true) :
    flight_count (fun q => if q = p then false else f q) = flight_count f - 1 := by
  cases p <;> (simp [flight_count] at h ⊢; rw [h]; simp)

theorem flight_count_pos (f : SM_Ptr → Bool) (p : SM_Ptr) (h : f p = true) :
    1 ≤ flight_count f := by
  cases p <;> simp [flight_count] at h ⊢ <;> rw [h] <;> simp <;> split <;> omega

theorem i2c_step_flight_invariant (c : I2C_Step) (s s2 : System) (f : SM_Ptr → Bool)
    (started : SM_Ptr → Prop) (c0 : Int)
    (ha : ∀ q, f q = true → (s.sm q).busy = false)
    (hb : ∀ q, started q → f q = false → (s.sm q).busy = true)
    (hc : s.lowest_energy_mode I2C_EM_BLOCK_index = c0 + flight_count f)
    (ht : c.timely f = true)
    (hrun : c.run s = Outcome.ok s2) :
    (∀ q, c.flight f q = true → (s2.sm q).busy = false) ∧
    (∀ q, (started q ∨ c.starts q = true) → c.flight f q = false → (s2.sm q).busy = true) ∧
    s2.lowest_energy_mode I2C_EM_BLOCK_index = c0 + flight_count (c.flight f) := by
  cases c with
  | start i2c dev mode data n reg cb =>
    obtain ⟨p, hbus, hidle, hnew, hoth, _⟩ :=
      i2c_start_ok_sm s s2 i2c dev mode data n reg cb hrun
    have htab := i2c_start_ok_table s s2 i2c dev mode data n reg cb hrun
    have hfp : f p = false := by
      cases hf : f p with
      | false => rfl
      | true =>
        have := ha p hf
        rw [hidle] at this
        cases this
    have hfl : (I2C_Step.start i2c dev mode data n reg cb).flight f
        = fun q => if q = p then true else f q := by
      funext q
      simp only [I2C_Step.flight, hbus, Option.some.injEq]
      by_cases hq : q = p
      · subst hq
        simp
      · rw [if_neg hq, if_neg (fun e => hq e.symm)]
    rw [hfl, flight_count_set_true f p hfp, htab, EnergyTable.set_same, hc]
    refine ⟨?_, ?_, by ring⟩
    · intro q hq
      by_cases e : q = p
      · subst e
        exact hnew
      · simp only [if_neg e] at hq
        rw [hoth q e]
        exact ha q hq
    · intro q hs hq
      by_cases e : q = p
      · subst e
        simp at hq
      · simp only [if_neg e] at hq
        rw [hoth q e]
        rcases hs with hs | hs
        · exact hb q hs hq
        · simp only [I2C_Step.starts, hbus, Option.some.injEq, decide_eq_true_eq] at hs
          exact absurd hs.symm e
  | event p e =>
    by_cases he : e = I2C_Event.mstop
    · subst he
      have hfp : f p = true := ht
      obtain ⟨_, htab, hbusy, _, _, _⟩ := i2c_msstop_sm_ok_inv s s2 p hrun
      have hfl : (I2C_Step.event p I2C_Event.mstop).flight f
          = fun q => if q = p then false else f q := rfl
      rw [hfl, flight_count_set_false f p hfp, htab, EnergyTable.set_same, hc]
      refine ⟨?_, ?_, by ring⟩
      · intro q hq
        by_cases e : q = p
        · subst e
          simp at hq
        · simp only [if_neg e] at hq
          rw [i2c_msstop_sm_other s s2 p q e hrun]
          exact ha q hq
      · intro q hs hq
        by_cases e : q = p
        · subst e
          exact hbusy
        · simp only [if_neg e] at hq
          rw [i2c_msstop_sm_other s s2 p q e hrun]
          rcases hs with hs | hs
          · exact hb q hs hq
          · simp [I2C_Step.starts] at hs
    · rw [I2C_Step.flight_event f p e he]
      have htab := i2c_event_table s s2 p e he hrun
      refine ⟨?_, ?_, by rw [htab]; exact hc⟩
      · intro q hq
        rw [(i2c_event_frame s s2 p q e he hrun).1]
        exact ha q hq
      · intro q hs hq
        rw [(i2c_event_frame s s2 p q e he hrun).1]
        rcases hs with hs | hs
        · exact hb q hs hq
        · simp [I2C_Step.starts] at hs

theorem i2c_steps_flight_invariant :
    ∀ (steps : List I2C_Step) (s s1 : System) (f : SM_Ptr → Bool) (started : SM_Ptr → Prop)
      (c0 : Int),
      (∀ q, f q = true → (s.sm q).busy = false) →
      (∀ q, started q → f q = false → (s.sm q).busy = true) →
      s.lowest_energy_mode I2C_EM_BLOCK_index = c0 + flight_count f →
      stops_in_flight f steps = true →
      i2c_steps s steps = Outcome.ok s1 →
      (∀ q, steps.foldl I2C_Step.flight f q = true → (s1.sm q).busy = false) ∧
      (∀ q, (started q ∨ ∃ c ∈ steps, c.starts q = true) →
        steps.foldl I2C_Step.flight f q = false → (s1.sm q).busy = true) ∧
      s1.lowest_energy_mode I2C_EM_BLOCK_index
        = c0 + flight_count (steps.foldl I2C_Step.flight f) := by
  intro steps
  induction steps with
  | nil =>
    intro s s1 f started c0 ha hb hc _ h
    simp only [i2c_steps, Outcome.ok.injEq] at h
    subst h
    refine ⟨ha, ?_, hc⟩
    intro q hs hq
    rcases hs with hs | ⟨c, hmem, _⟩
    · exact hb q hs hq
    · cases hmem
  | cons c cs ih =>
    intro s s1 f started c0 ha hb hc ht h
    simp only [stops_in_flight, Bool.and_eq_true] at ht
    simp only [i2c_steps] at h
    cases hrun : c.run s with
    | halt s2 => rw [hrun] at h; cases h
    | spin s2 => rw [hrun] at h; cases h
    | ok s2 =>
      rw [hrun] at h
      simp only [Outcome.bind] at h
      obtain ⟨ha2, hb2, hc2⟩ := i2c_step_flight_invariant c s s2 f started c0 ha hb hc ht.1 hrun
      obtain ⟨ha1, hb1, hc1⟩ := ih s2 s1 (c.flight f) (fun q => started q ∨ c.starts q = true) c0
        ha2 hb2 hc2 ht.2 h
      refine ⟨ha1, ?_, hc1⟩
      intro q hs hq
      apply hb1 q ?_ hq
      rcases hs with hs | ⟨c1, hmem, hc1s⟩
      · exact Or.inl (Or.inl hs)
      · rcases List.mem_cons.mp hmem with e | hmem1
        · subst e
          exact Or.inl (Or.inr hc1s)
        · exact Or.inr ⟨c1, hmem1, hc1s⟩

/-- C11, as it holds: from a state whose EM2 counter is not negative (0 after
`sleep_open`), in every state reached by a run of `i2c_start` calls and I2C
interrupt events in which every step returned (no assertion failed) and every
bus-stop event arrived on a bus whose transaction was in flight: a bus that
was started in the run and whose busy flag is false has its transaction in
flight, the EM2 counter is at least 1, `current_block_energy_mode` is at most
2, and `enter_sleep` enters neither EM2 nor EM3. -/
theorem i2c_in_flight_blocks_deep_sleep (s0 s : System) (steps : List I2C_Step) (p : SM_Ptr)
    (hopen : 0 ≤ s0.lowest_energy_mode I2C_EM_BLOCK_index)
    (hrun : i2c_steps s0 steps = Outcome.ok s)
    (htimed : stops_in_flight (fun _ => false) steps = true)
    (hstarted : ∃ c ∈ steps, c.starts p = true)
    (hbusy : (s.sm p).busy = false) :
    in_flight steps p = true ∧
    1 ≤ s.lowest_energy_mode I2C_EM_BLOCK_index ∧
    current_block_energy_mode s.lowest_energy_mode ≤ 2 ∧
    enter_sleep s.lowest_energy_mode ≠ SleepAction.enterEM2 ∧
    enter_sleep s.lowest_energy_mode ≠ SleepAction.enterEM3 := by
  obtain ⟨_, hb, hc⟩ := i2c_steps_flight_invariant steps s0 s (fun _ => false)
    (fun _ => False) (s0.lowest_energy_mode I2C_EM_BLOCK_index)
    (fun q hq => by cases hq) (fun q hq => hq.elim)
    (by simp [flight_count]) htimed hrun
  have hfl : in_flight steps p = true := by
    cases hf : in_flight steps p with
    | true => rfl
    | false =>
      have := hb p (Or.inr hstarted) hf
      rw [hbusy] at this
      cases this
  have hpos := flight_count_pos _ p hfl
  have h1 : 1 ≤ s.lowest_energy_mode I2C_EM_BLOCK_index := by
    rw [hc]
    unfold in_flight at hpos
    omega
  have h2 : 1 ≤ s.lowest_energy_mode 2 := h1
  refine ⟨hfl, h1, ?_, ?_, ?_⟩
  · rw [current_block_energy_mode_eq]
    have h2n : s.lowest_energy_mode 2 ≠ 0 := by omega
    by_cases e0 : s.lowest_energy_mode 0 = 0 <;> by_cases e1 : s.lowest_energy_mode 1 = 0 <;>
      simp [e0, e1, h2n]
  · unfold enter_sleep
    have h2p : s.lowest_energy_mode 2 > 0 := by omega
    split
    · simp
    · split
      · simp
      · simp
  · unfold enter_sleep
    have h2p : s.lowest_energy_mode 2 > 0 := by omega
    split
    · simp
    · split
      · simp
      · simp

/-- Witness for C11: a two-byte read started on I2C1 from the opened system,
after its first acknowledge. -/
theorem i2c_in_flight_blocks_deep_sleep_witness :
    1 ≤ (i2c_steps (System.opened (sleep_open (fun _ => 0)))
        [I2C_Step.start I2C_Ptr.I2C1 0x55 READ_OP 7 2 0x13 8,
         I2C_Step.event SM_Ptr.i2c1_statemachine_vars I2C_Event.ack]).final.lowest_energy_mode
          I2C_EM_BLOCK_index ∧
    enter_sleep (i2c_steps (System.opened (sleep_open (fun _ => 0)))
        [I2C_Step.start I2C_Ptr.I2C1 0x55 READ_OP 7 2 0x13 8,
         I2C_Step.event SM_Ptr.i2c1_statemachine_vars I2C_Event.ack]).final.lowest_energy_mode
      ≠ SleepAction.enterEM2 :=
  ⟨(i2c_in_flight_blocks_deep_sleep (System.opened (sleep_open (fun _ => 0)))
      (i2c_steps (System.opened (sleep_open (fun _ => 0)))
        [I2C_Step.start I2C_Ptr.I2C1 0x55 READ_OP 7 2 0x13 8,
         I2C_Step.event SM_Ptr.i2c1_statemachine_vars I2C_Event.ack]).final
      [I2C_Step.start I2C_Ptr.I2C1 0x55 READ_OP 7 2 0x13 8,
       I2C_Step.event SM_Ptr.i2c1_statemachine_vars I2C_Event.ack]
      SM_Ptr.i2c1_statemachine_vars (by decide) rfl (by decide)
      ⟨_, List.mem_cons_self _ _, by decide⟩ (by decide)).2.1,
   (i2c_in_flight_blocks_deep_sleep (System.opened (sleep_open (fun _ => 0)))
      (i2c_steps (System.opened (sleep_open (fun _ => 0)))
        [I2C_Step.start I2C_Ptr.I2C1 0x55 READ_OP 7 2 0x13 8,
         I2C_Step.event SM_Ptr.i2c1_statemachine_vars I2C_Event.ack]).final
      [I2C_Step.start I2C_Ptr.I2C1 0x55 READ_OP 7 2 0x13 8,
       I2C_Step.event SM_Ptr.i2c1_statemachine_vars I2C_Event.ack]
      SM_Ptr.i2c1_statemachine_vars (by decide) rfl (by decide)
      ⟨_, List.mem_cons_self _ _, by decide⟩ (by decide)).2.2.2.1⟩

/-- Counterexample to C11 as stated: from `sleep_open` and both buses opened,
the run `stop_on_idle_bus_steps` returns at every step (no assertion fails),
yet at its end the read on I2C0 is in flight (started, busy flag false) while
the EM2 counter is 0, `current_block_energy_mode` is 4 and `enter_sleep`
enters EM3: the acknowledge and bus-stop events handled for the idle I2C1
released the block taken for I2C0. -/
theorem i2c_stop_on_idle_bus_releases_block :
    (i2c_steps (System.opened (sleep_open (fun _ => 0))) stop_on_idle_bus_steps).state?.isSome
      = true ∧
    (i2c_steps (System.opened (sleep_open (fun _ => 0))) stop_on_idle_bus_steps).failed
      = false ∧
    in_flight stop_on_idle_bus_steps SM_Ptr.i2c0_statemachine_vars = true ∧
    busy_state (i2c_steps (System.opened (sleep_open (fun _ => 0)))
      stop_on_idle_bus_steps).final I2C_Ptr.I2C0 = false ∧
    (i2c_steps (System.opened (sleep_open (fun _ => 0)))
      stop_on_idle_bus_steps).final.lowest_energy_mode I2C_EM_BLOCK_index = 0 ∧
    current_block_energy_mode (i2c_steps (System.opened (sleep_open (fun _ => 0)))
      stop_on_idle_bus_steps).final.lowest_energy_mode = 4 ∧
    enter_sleep (i2c_steps (System.opened (sleep_open (fun _ => 0)))
      stop_on_idle_bus_steps).final.lowest_energy_mode = SleepAction.enterEM3 := by
  decide

/-! ## LEUART: receive path -/

theorem to_char_of_lt (c : Nat) (h : c < 256) : to_char c = c := by
  unfold to_char
  exact Nat.mod_eq_of_lt h

theorem c_string_of_list (a : Nat → Nat) :
    ∀ (l : List Nat) (size i : Nat), l.length < size →
      (∀ j, j < l.length → a (i + j) = l.getD j 0) → a (i + l.length) = 0 →
      c_string a size i = some (l.takeWhile (fun c => c != 0)) := by
  intro l
  induction l with
  | nil =>
    intro size i hsize _ hz
    cases size with
    | zero => cases hsize
    | succ n =>
      simp only [List.length_nil, Nat.add_zero] at hz
      simp [c_string, hz]
  | cons c l ih =>
    intro size i hsize hl hz
    cases size with
    | zero => cases hsize
    | succ n =>
      have h0 : a i = c := by
        have := hl 0 (by simp)
        simpa using this
      by_cases hc : c = 0
      · simp [c_string, h0, hc]
      · have hrec := ih n (i + 1) (by simpa using hsize)
          (fun j hj => by
            have := hl (j + 1) (by simpa using hj)
            rw [show i + 1 + j = i + (j + 1) by omega, this]
            simp)
          (by
            rw [show i + 1 + l.length = i + (c :: l).length by simp; omega]
            exact hz)
        simp [c_string, h0, hc, hrec]

theorem leuart_ien_after_frame (x : Nat) :
    u32 (u32 (x &&& not32 LEUART_IEN_RXDATAV) &&& not32 LEUART_IEN_SIGF) &&& LEUART_IEN_RXDATAV = 0 ∧
    u32 (u32 (x &&& not32 LEUART_IEN_RXDATAV) &&& not32 LEUART_IEN_SIGF) &&& LEUART_IEN_SIGF = 0 := by
  constructor
  · apply Nat.eq_of_testBit_eq
    intro i
    have e : LEUART_IEN_RXDATAV = 2 ^ 2 := by decide
    simp only [u32, Nat.testBit_and, Nat.testBit_mod_two_pow, testBit_not32, Nat.zero_testBit]
    rw [e, Nat.testBit_two_pow]
    by_cases hi : 2 = i <;> simp [hi]
  · apply Nat.eq_of_testBit_eq
    intro i
    have e : LEUART_IEN_SIGF = 2 ^ 10 := by decide
    simp only [u32, Nat.testBit_and, Nat.testBit_mod_two_pow, testBit_not32, Nat.zero_testBit]
    rw [e, Nat.testBit_two_pow]
    by_cases hi : 10 = i <;> simp [hi]

theorem LEUART_System.store_SYNCBUSY (s : LEUART_System) (p q : LEUART_Ptr) (w : LEUART_Write) :
    ((s.store p w).leuart q).SYNCBUSY = (s.leuart q).SYNCBUSY := by
  by_cases hq : q = p <;> cases w <;> simp [LEUART_System.store, LEUART_TypeDef.store, hq]

theorem leuart_event_startf (s : LEUART_System) (b : Nat)
    (h : s.leuart0_SM_READ.current_read_state = LEUART_READ_STATES.STARTFRAME) :
    ∃ s1, leuart_event s (LEUART_Event.startf b) = Outcome.ok s1 ∧
      s1.leuart0_SM_READ.current_read_state = LEUART_READ_STATES.RXDATAV ∧
      s1.leuart0_SM_READ.str_length = 1 ∧
      s1.leuart0_SM_READ.leuart_read = s.leuart0_SM_READ.leuart_read ∧
      s1.leuart0_SM_READ.read_str 0 = to_char b ∧
      (s1.leuart s.leuart0_SM_READ.leuart_read).SYNCBUSY
        = (s.leuart s.leuart0_SM_READ.leuart_read).SYNCBUSY ∧
      s1.posted = s.posted ∧ s1.event_scheduled = s.event_scheduled ∧
      s1.lowest_energy_mode = s.lowest_energy_mode := by
  have e : leuart_event s (LEUART_Event.startf b)
      = Outcome.ok (leuart_event s (LEUART_Event.startf b)).final := by
    simp only [leuart_event, STARTFRAME_HANDLER, LEUART_System.receive, h, Outcome.final]
  refine ⟨_, e, ?_⟩
  simp only [leuart_event, STARTFRAME_HANDLER, LEUART_System.receive, h, Outcome.final]
  simp [LEUART_System.store, LEUART_TypeDef.store, char_store, u32]

theorem leuart_event_rxdatav (s : LEUART_System) (b : Nat)
    (h : s.leuart0_SM_READ.current_read_state = LEUART_READ_STATES.RXDATAV) :
    ∃ s1, leuart_event s (LEUART_Event.rxdatav b) = Outcome.ok s1 ∧
      s1.leuart0_SM_READ.current_read_state = LEUART_READ_STATES.RXDATAV ∧
      s1.leuart0_SM_READ.str_length = u32 (s.leuart0_SM_READ.str_length + 1) ∧
      s1.leuart0_SM_READ.leuart_read = s.leuart0_SM_READ.leuart_read ∧
      s1.leuart0_SM_READ.read_str
        = char_store s.leuart0_SM_READ.read_str s.leuart0_SM_READ.str_length b ∧
      (∀ q, (s1.leuart q).SYNCBUSY = (s.leuart q).SYNCBUSY) ∧
      s1.posted = s.posted ∧ s1.event_scheduled = s.event_scheduled ∧
      s1.lowest_energy_mode = s.lowest_energy_mode := by
  have e : leuart_event s (LEUART_Event.rxdatav b)
      = Outcome.ok (leuart_event s (LEUART_Event.rxdatav b)).final := by
    simp only [leuart_event, RXDATAV_HANDLER, LEUART_System.receive, h, Outcome.final]
  refine ⟨_, e, ?_, ?_, ?_, ?_, ?_, ?_, ?_, ?_⟩ <;>
    simp only [leuart_event, RXDATAV_HANDLER, LEUART_System.receive, h, Outcome.final]
  · simp
  · intro q
    by_cases hq : q = s.leuart0_SM_READ.leuart_read <;> simp [hq]

theorem leuart_event_sigf (s : LEUART_System)
    (h : s.leuart0_SM_READ.current_read_state = LEUART_READ_STATES.RXDATAV)
    (hsync : (s.leuart s.leuart0_SM_READ.leuart_read).SYNCBUSY = 0) :
    ∃ s1, leuart_event s LEUART_Event.sigf = Outcome.ok s1 ∧
      s1.leuart0_SM_READ.current_read_state = LEUART_READ_STATES.STARTFRAME ∧
      s1.leuart0_SM_READ.str_length = u32 (s.leuart0_SM_READ.str_length + 1) ∧
      s1.leuart0_SM_READ.leuart_read = s.leuart0_SM_READ.leuart_read ∧
      s1.leuart0_SM_READ.read_str
        = char_store s.leuart0_SM_READ.read_str s.leuart0_SM_READ.str_length 0 ∧
      (s1.leuart s.leuart0_SM_READ.leuart_read).IEN &&& LEUART_IEN_RXDATAV = 0 ∧
      (s1.leuart s.leuart0_SM_READ.leuart_read).IEN &&& LEUART_IEN_SIGF = 0 ∧
      s1.posted = s.posted ++ [BLE_TX_DONE_CB] ∧
      s1.event_scheduled = s.event_scheduled ||| BLE_TX_DONE_CB ∧
      s1.lowest_energy_mode = s.lowest_energy_mode := by
  have e : leuart_event s LEUART_Event.sigf
      = Outcome.ok (leuart_event s LEUART_Event.sigf).final := by
    simp only [leuart_event, SIGFRAME_HANDLER, h, LEUART_System.store_SYNCBUSY, hsync, ne_eq,
      not_true_eq_false, if_false, Outcome.final]
  refine ⟨_, e, ?_, ?_, ?_, ?_, ?_, ?_, ?_, ?_, ?_⟩ <;>
    simp only [leuart_event, SIGFRAME_HANDLER, h, LEUART_System.store_SYNCBUSY, hsync, ne_eq,
      not_true_eq_false, if_false, Outcome.final]
  · rfl
  · rfl
  · rfl
  · rfl
  · simp only [LEUART_System.post, LEUART_System.store, LEUART_TypeDef.store, if_true]
    exact (leuart_ien_after_frame _).1
  · simp only [LEUART_System.post, LEUART_System.store, LEUART_TypeDef.store, if_true]
    exact (leuart_ien_after_frame _).2
  · rfl
  · rfl
  · rfl

theorem leuart_events_append (s : LEUART_System) (es1 es2 : List LEUART_Event) :
    leuart_events s (es1 ++ es2)
      = Outcome.bind id (leuart_events s es1) (fun s1 => leuart_events s1 es2) := by
  induction es1 generalizing s with
  | nil => rfl
  | cons e es ih =>
    simp only [List.cons_append, leuart_events]
    cases leuart_event s e with
    | ok s1 => simp only [Outcome.bind]; exact ih s1
    | halt s1 => rfl
    | spin s1 => rfl

theorem leuart_rxdatav_run :
    ∀ (cs : List Nat) (s : LEUART_System),
      s.leuart0_SM_READ.current_read_state = LEUART_READ_STATES.RXDATAV →
      s.leuart0_SM_READ.str_length + cs.length < 2 ^ 32 →
      ∃ s1, leuart_events s (cs.map LEUART_Event.rxdatav) = Outcome.ok s1 ∧
        s1.leuart0_SM_READ.current_read_state = LEUART_READ_STATES.RXDATAV ∧
        s1.leuart0_SM_READ.str_length = s.leuart0_SM_READ.str_length + cs.length ∧
        s1.leuart0_SM_READ.leuart_read = s.leuart0_SM_READ.leuart_read ∧
        (∀ i, s1.leuart0_SM_READ.read_str i =
          if s.leuart0_SM_READ.str_length ≤ i ∧
              i < s.leuart0_SM_READ.str_length + cs.length
          then to_char (cs.getD (i - s.leuart0_SM_READ.str_length) 0)
          else s.leuart0_SM_READ.read_str i) ∧
        (∀ q, (s1.leuart q).SYNCBUSY = (s.leuart q).SYNCBUSY) ∧
        s1.posted = s.posted ∧ s1.event_scheduled = s.event_scheduled ∧
        s1.lowest_energy_mode = s.lowest_energy_mode := by
  intro cs
  induction cs with
  | nil =>
    intro s h _
    refine ⟨s, rfl, h, rfl, rfl, ?_, fun _ => rfl, rfl, rfl, rfl⟩
    intro i
    rw [if_neg]
    simp only [List.length_nil, Nat.add_zero]
    omega
  | cons c cs ih =>
    intro s h hlen
    simp only [List.length_cons] at hlen
    obtain ⟨s2, e2, hst2, hl2, hp2, hr2, hy2, hpo2, hev2, ht2⟩ := leuart_event_rxdatav s c h
    rw [u32_of_lt _ (by omega)] at hl2
    obtain ⟨s1, e1, hst1, hl1, hp1, hr1, hy1, hpo1, hev1, ht1⟩ :=
      ih s2 hst2 (by rw [hl2]; omega)
    refine ⟨s1, ?_, hst1, ?_, hp1.trans hp2, ?_, fun q => (hy1 q).trans (hy2 q),
      hpo1.trans hpo2, hev1.trans hev2, ht1.trans ht2⟩
    · simp only [List.map_cons, leuart_events, e2, Outcome.bind]
      exact e1
    · rw [hl1, hl2, List.length_cons]
      omega
    · intro i
      rw [hr1 i, hl2, hr2, List.length_cons]
      by_cases hi : i = s.leuart0_SM_READ.str_length
      · subst hi
        rw [if_neg (by omega), if_pos (by omega)]
        simp [char_store]
      · by_cases hin : s.leuart0_SM_READ.str_length + 1 ≤ i ∧
            i < s.leuart0_SM_READ.str_length + 1 + cs.length
        · rw [if_pos hin, if_pos (by omega)]
          have : i - s.leuart0_SM_READ.str_length
              = (i - (s.leuart0_SM_READ.str_length + 1)) + 1 := by omega
          rw [this]
          simp
        · rw [if_neg hin, if_neg (by omega)]
          simp [char_store, hi]

theorem getD_lt_of_forall_lt (l : List Nat) (j : Nat) (h : ∀ c ∈ l, c < 256) :
    l.getD j 0 < 256 := by
  by_cases hj : j < l.length
  · rw [List.getD_eq_getElem _ _ hj]
    exact h _ (List.getElem_mem _)
  · rw [List.getD_eq_default _ _ (by omega)]
    decide

theorem takeWhile_nonzero_self (l : List Nat) (h : ∀ c ∈ l, c ≠ 0) :
    l.takeWhile (fun c => c != 0) = l := by
  rw [List.takeWhile_eq_self_iff]
  intro x hx
  simpa using h x hx

theorem leuart_frame_run (s : LEUART_System) (sf g : Nat) (cs : List Nat)
    (hstate : s.leuart0_SM_READ.current_read_state = LEUART_READ_STATES.STARTFRAME)
    (hsync : (s.leuart s.leuart0_SM_READ.leuart_read).SYNCBUSY = 0)
    (hlen : cs.length + 3 ≤ 80)
    (hsf : sf < 256) (hg : g < 256) (hcs : ∀ c ∈ cs, c < 256) :
    ∃ s1, leuart_events s (LEUART_Event.startf sf ::
          (cs.map LEUART_Event.rxdatav ++ [LEUART_Event.rxdatav g, LEUART_Event.sigf]))
        = Outcome.ok s1 ∧
      (∀ i, i < cs.length + 2 → s1.leuart0_SM_READ.read_str i = (sf :: cs ++ [g]).getD i 0) ∧
      s1.leuart0_SM_READ.read_str (cs.length + 2) = 0 ∧
      s1.leuart0_SM_READ.str_length = cs.length + 3 ∧
      s1.leuart0_SM_READ.current_read_state = LEUART_READ_STATES.STARTFRAME ∧
      s1.leuart0_SM_READ.leuart_read = s.leuart0_SM_READ.leuart_read ∧
      s1.posted = s.posted ++ [BLE_TX_DONE_CB] ∧
      s1.lowest_energy_mode = s.lowest_energy_mode ∧
      (s1.leuart s.leuart0_SM_READ.leuart_read).IEN &&& LEUART_IEN_RXDATAV = 0 ∧
      (s1.leuart s.leuart0_SM_READ.leuart_read).IEN &&& LEUART_IEN_SIGF = 0 := by
  obtain ⟨s1, e1, hst1, hl1, hp1, hr1, hy1, hpo1, _, ht1⟩ := leuart_event_startf s sf hstate
  obtain ⟨s2, e2, hst2, hl2, hp2, hr2, hy2, hpo2, _, ht2⟩ :=
    leuart_rxdatav_run (cs ++ [g]) s1 hst1 (by
      rw [hl1, List.length_append, List.length_singleton]
      have : (80 : Nat) < 2 ^ 32 := by decide
      omega)
  rw [hl1, List.length_append, List.length_singleton] at hl2
  have hsync2 : (s2.leuart s2.leuart0_SM_READ.leuart_read).SYNCBUSY = 0 := by
    rw [hp2, hp1, hy2, hy1, hsync]
  obtain ⟨s3, e3, hst3, hl3, hp3, hr3, hi3, hi3', hpo3, _, ht3⟩ := leuart_event_sigf s2 hst2 hsync2
  rw [hl2, u32_of_lt _ (by
    have : (80 : Nat) < 2 ^ 32 := by decide
    omega)] at hl3
  have hbytes : ∀ c ∈ cs ++ [g], c < 256 := by
    intro c hc
    rcases List.mem_append.mp hc with h | h
    · exact hcs c h
    · rw [List.mem_singleton.mp h]
      exact hg
  have hev : LEUART_Event.startf sf ::
        (cs.map LEUART_Event.rxdatav ++ [LEUART_Event.rxdatav g, LEUART_Event.sigf])
      = [LEUART_Event.startf sf] ++ ((cs ++ [g]).map LEUART_Event.rxdatav
          ++ [LEUART_Event.sigf]) := by
    simp
  refine ⟨s3, ?_, ?_, ?_, by rw [hl3]; omega, hst3, hp3.trans (hp2.trans hp1),
    by rw [hpo3, hpo2, hpo1], ht3.trans (ht2.trans ht1), ?_, ?_⟩
  · rw [hev, leuart_events_append]
    simp only [leuart_events, e1, Outcome.bind]
    rw [leuart_events_append, e2]
    simp only [Outcome.bind, leuart_events, e3]
  · intro i hi
    rw [hr3, hl2]
    simp only [char_store]
    rw [if_neg (by omega), hr2 i, hl1, List.length_append, List.length_singleton]
    by_cases h0 : i = 0
    · subst h0
      rw [if_neg (by omega), hr1, to_char_of_lt _ hsf]
      simp
    · rw [if_pos (by omega), to_char_of_lt _ (getD_lt_of_forall_lt _ _ hbytes)]
      have : i = (i - 1) + 1 := by omega
      conv_rhs => rw [this]
      simp
  · rw [hr3, hl2]
    simp only [char_store]
    rw [if_pos (by omega)]
    rfl
  · rw [← hp1, ← hp2]
    exact hi3
  · rw [← hp1, ← hp2]
    exact hi3'

/-! ## LEUART: transmit path -/

theorem leuart_txbl_raised (x : Nat) : (x ||| LEUART_IF_TXBL) &&& LEUART_IF_TXBL ≠ 0 := by
  intro h
  have h1 : ((x ||| LEUART_IF_TXBL) &&& LEUART_IF_TXBL).testBit 1 = true := by
    rw [Nat.testBit_and, Nat.testBit_or]
    have : LEUART_IF_TXBL.testBit 1 = true := by decide
    rw [this]
    simp
  rw [h] at h1
  simp at h1

theorem leuart_ien_after_last_txbl (x : Nat) :
    u32 (u32 (x &&& not32 LEUART_IEN_TXBL) ||| LEUART_IEN_TXC) &&& LEUART_IEN_TXBL = 0 ∧
    u32 (u32 (x &&& not32 LEUART_IEN_TXBL) ||| LEUART_IEN_TXC) &&& LEUART_IEN_TXC
      = LEUART_IEN_TXC := by
  have e1 : LEUART_IEN_TXBL = 2 ^ 1 := by decide
  have e0 : LEUART_IEN_TXC = 2 ^ 0 := by decide
  constructor
  · apply Nat.eq_of_testBit_eq
    intro i
    simp only [u32, Nat.testBit_and, Nat.testBit_or, Nat.testBit_mod_two_pow, testBit_not32,
      Nat.zero_testBit]
    rw [e1, e0, Nat.testBit_two_pow, Nat.testBit_two_pow]
    by_cases hi : 1 = i
    · subst hi
      simp
    · simp [hi]
  · apply Nat.eq_of_testBit_eq
    intro i
    simp only [u32, Nat.testBit_and, Nat.testBit_or, Nat.testBit_mod_two_pow, testBit_not32]
    rw [e1, e0, Nat.testBit_two_pow, Nat.testBit_two_pow]
    by_cases hi : 0 = i
    · subst hi
      simp
    · simp [hi]

theorem leuart_ien_after_txc (x : Nat) : u32 (x &&& not32 LEUART_IEN_TXC) &&& LEUART_IEN_TXC = 0 := by
  have e0 : LEUART_IEN_TXC = 2 ^ 0 := by decide
  apply Nat.eq_of_testBit_eq
  intro i
  simp only [u32, Nat.testBit_and, Nat.testBit_mod_two_pow, testBit_not32, Nat.zero_testBit]
  rw [e0, Nat.testBit_two_pow]
  by_cases hi : 0 = i
  · subst hi
    simp
  · simp [hi]

theorem leuart_start_ok_inv (s s1 : LEUART_System) (leuart : LEUART_Ptr) (str : List Nat)
    (n cb : Nat) (h : leuart_start s leuart str n cb = Outcome.ok s1) :
    s.leuart0_SM.busy = false ∧ s.lowest_energy_mode LEUART_TX_EM_index + 1 < 5 ∧
    s1.leuart0_SM =
      { current_state := LEUART_WRITE_STATES.STRING_INIT, leuart := leuart,
        data := strcpy s.leuart0_SM.data str, data_sent := 0, str_length := n,
        leuart0_write_cb := cb, busy := true } ∧
    s1.lowest_energy_mode = s.lowest_energy_mode.set LEUART_TX_EM_index
      (s.lowest_energy_mode LEUART_TX_EM_index + 1) ∧
    s1.posted = s.posted ∧ s1.event_scheduled = s.event_scheduled ∧
    s1.leuart0_SM_READ = s.leuart0_SM_READ ∧
    (∀ q, q ≠ leuart → s1.leuart q = s.leuart q) ∧
    (s1.leuart leuart).writes = (s.leuart leuart).writes ++
      [LEUART_Write.IEN ((s.leuart leuart).IEN ||| LEUART_IEN_TXBL)] := by
  unfold leuart_start at h
  by_cases hb : s.leuart0_SM.busy = true
  · simp [hb] at h
  · have hb' : s.leuart0_SM.busy = false := by simpa using hb
    by_cases hroom : s.lowest_energy_mode LEUART_TX_EM_index + 1 < 5
    · simp only [hb', Bool.false_eq_true, if_false, LEUART_System.withTable,
        sleep_block_mode_ok _ _ hroom, Outcome.bind, Outcome.ok.injEq] at h
      subst h
      refine ⟨hb', hroom, rfl, rfl, rfl, rfl, rfl, ?_, ?_⟩
      · intro q hq
        simp [LEUART_System.store, hq]
      · simp [LEUART_System.store, LEUART_TypeDef.store]
    · simp only [hb', Bool.false_eq_true, if_false, LEUART_System.withTable,
        sleep_block_mode_halt _ _ hroom, Outcome.bind] at h
      cases h

theorem leuart_event_txbl_init (s : LEUART_System)
    (h : s.leuart0_SM.current_state = LEUART_WRITE_STATES.STRING_INIT) :
    ∃ s1, leuart_event s LEUART_Event.txbl = Outcome.ok s1 ∧
      s1.leuart0_SM = { s.leuart0_SM with current_state := LEUART_WRITE_STATES.write_op } ∧
      s1.lowest_energy_mode = s.lowest_energy_mode ∧ s1.posted = s.posted ∧
      s1.event_scheduled = s.event_scheduled ∧
      (∀ q, (s1.leuart q).writes = (s.leuart q).writes) := by
  have e : leuart_event s LEUART_Event.txbl
      = Outcome.ok (leuart_event s LEUART_Event.txbl).final := by
    simp only [leuart_event, TXBL_IRQ, LEUART_System.raise, h, Outcome.final]
  refine ⟨_, e, ?_, ?_, ?_, ?_, ?_⟩ <;>
    simp only [leuart_event, TXBL_IRQ, LEUART_System.raise, h, Outcome.final]
  intro q
  by_cases hq : q = s.leuart0_SM.leuart <;> simp [hq]

theorem leuart_event_txbl_send (s : LEUART_System)
    (h : s.leuart0_SM.current_state = LEUART_WRITE_STATES.write_op)
    (hmore : s.leuart0_SM.data_sent ≠ s.leuart0_SM.str_length) :
    ∃ s1, leuart_event s LEUART_Event.txbl = Outcome.ok s1 ∧
      s1.leuart0_SM = { s.leuart0_SM with data_sent := u32 (s.leuart0_SM.data_sent + 1) } ∧
      s1.lowest_energy_mode = s.lowest_energy_mode ∧ s1.posted = s.posted ∧
      s1.event_scheduled = s.event_scheduled ∧
      (∀ q, (s1.leuart q).writes =
        if q = s.leuart0_SM.leuart then
          (s.leuart q).writes ++
            [LEUART_Write.TXDATA (to_char (s.leuart0_SM.data s.leuart0_SM.data_sent))]
        else (s.leuart q).writes) := by
  have hif : ¬ ((s.leuart s.leuart0_SM.leuart).IF ||| LEUART_IF_TXBL) &&& LEUART_IF_TXBL = 0 :=
    leuart_txbl_raised _
  have e : leuart_event s LEUART_Event.txbl
      = Outcome.ok (leuart_event s LEUART_Event.txbl).final := by
    simp only [leuart_event, TXBL_IRQ, LEUART_System.raise, h, hmore, ne_eq, not_false_eq_true,
      if_true, leuart_app_transmit_byte, hif, if_false, Outcome.bind, Outcome.final]
  refine ⟨_, e, ?_, ?_, ?_, ?_, ?_⟩ <;>
    simp only [leuart_event, TXBL_IRQ, LEUART_System.raise, h, hmore, ne_eq, not_false_eq_true,
      if_true, leuart_app_transmit_byte, hif, if_false, Outcome.bind, Outcome.final]
  · simp [LEUART_System.store, h]
  · simp [LEUART_System.store]
  · simp [LEUART_System.store]
  · simp [LEUART_System.store]
  · intro q
    by_cases hq : q = s.leuart0_SM.leuart <;>
      simp [hq, LEUART_System.store, LEUART_TypeDef.store]

theorem LEUART_System.raise_IEN (s : LEUART_System) (p q : LEUART_Ptr) (f : Nat) :
    ((s.raise p f).leuart q).IEN = (s.leuart q).IEN := by
  by_cases hq : q = p <;> simp [LEUART_System.raise, hq]

theorem LEUART_System.raise_writes (s : LEUART_System) (p q : LEUART_Ptr) (f : Nat) :
    ((s.raise p f).leuart q).writes = (s.leuart q).writes := by
  by_cases hq : q = p <;> simp [LEUART_System.raise, hq]

theorem LEUART_System.store_writes (s : LEUART_System) (p q : LEUART_Ptr) (w : LEUART_Write) :
    ((s.store p w).leuart q).writes
      = if q = p then (s.leuart q).writes ++ [w] else (s.leuart q).writes := by
  by_cases hq : q = p <;> cases w <;> simp [LEUART_System.store, LEUART_TypeDef.store, hq]

theorem LEUART_System.store_IEN_IEN (s : LEUART_System) (p : LEUART_Ptr) (v : Nat) :
    ((s.store p (LEUART_Write.IEN v)).leuart p).IEN = u32 v := by
  simp [LEUART_System.store, LEUART_TypeDef.store]

theorem LEUART_System.store_IFC_IEN (s : LEUART_System) (p : LEUART_Ptr) (v : Nat) :
    ((s.store p (LEUART_Write.IFC v)).leuart p).IEN = (s.leuart p).IEN := by
  simp [LEUART_System.store, LEUART_TypeDef.store]

theorem leuart_event_txbl_last (s : LEUART_System)
    (h : s.leuart0_SM.current_state = LEUART_WRITE_STATES.write_op)
    (hdone : s.leuart0_SM.data_sent = s.leuart0_SM.str_length) :
    ∃ s1, leuart_event s LEUART_Event.txbl = Outcome.ok s1 ∧
      s1.leuart0_SM = { s.leuart0_SM with current_state := LEUART_WRITE_STATES.end_state } ∧
      s1.lowest_energy_mode = s.lowest_energy_mode ∧ s1.posted = s.posted ∧
      s1.event_scheduled = s.event_scheduled ∧
      (s1.leuart LEUART_Ptr.LEUART0).IEN &&& LEUART_IEN_TXBL = 0 ∧
      (s1.leuart LEUART_Ptr.LEUART0).IEN &&& LEUART_IEN_TXC = LEUART_IEN_TXC ∧
      (∃ a b c, (s1.leuart LEUART_Ptr.LEUART0).writes = (s.leuart LEUART_Ptr.LEUART0).writes ++
        [LEUART_Write.IEN a, LEUART_Write.IFC b, LEUART_Write.IEN c]) ∧
      (∀ q, q ≠ LEUART_Ptr.LEUART0 → (s1.leuart q).writes = (s.leuart q).writes) := by
  have e : leuart_event s LEUART_Event.txbl
      = Outcome.ok (leuart_event s LEUART_Event.txbl).final := by
    simp only [leuart_event, TXBL_IRQ, h, hdone, LEUART_System.raise, ne_eq, not_true_eq_false,
      if_false, Outcome.final]
  have hraise : (s.raise s.leuart0_SM.leuart LEUART_IF_TXBL).leuart0_SM = s.leuart0_SM := rfl
  refine ⟨_, e, ?_, ?_, ?_, ?_, ?_, ?_, ?_, ?_⟩ <;>
    simp only [leuart_event, TXBL_IRQ, hraise, h, hdone, ne_eq, not_true_eq_false,
      if_false, Outcome.final]
  · simp [LEUART_System.store, h, hraise, hdone]
  · simp [LEUART_System.store, LEUART_System.raise]
  · simp [LEUART_System.store, LEUART_System.raise]
  · simp [LEUART_System.store, LEUART_System.raise]
  · simp only [LEUART_System.store_IEN_IEN, LEUART_System.store_IFC_IEN,
      LEUART_System.raise_IEN]
    exact (leuart_ien_after_last_txbl _).1
  · simp only [LEUART_System.store_IEN_IEN, LEUART_System.store_IFC_IEN,
      LEUART_System.raise_IEN]
    exact (leuart_ien_after_last_txbl _).2
  · simp only [LEUART_System.store_writes, LEUART_System.raise_writes, if_true,
      List.append_assoc, List.singleton_append]
    exact ⟨_, _, _, rfl⟩
  · intro q hq
    simp only [LEUART_System.store_writes, LEUART_System.raise_writes, if_neg hq]

theorem LEUART_System.store_table (s : LEUART_System) (p : LEUART_Ptr) (w : LEUART_Write) :
    (s.store p w).lowest_energy_mode = s.lowest_energy_mode := rfl

theorem LEUART_System.store_leuart0_SM (s : LEUART_System) (p : LEUART_Ptr) (w : LEUART_Write) :
    (s.store p w).leuart0_SM = s.leuart0_SM := rfl

theorem leuart_event_txc (s : LEUART_System)
    (h : s.leuart0_SM.current_state = LEUART_WRITE_STATES.end_state)
    (hc : 0 ≤ s.lowest_energy_mode LEUART_TX_EM_index - 1) :
    ∃ s1, leuart_event s LEUART_Event.txc = Outcome.ok s1 ∧
      s1.leuart0_SM = { s.leuart0_SM with busy := false } ∧
      s1.lowest_energy_mode = s.lowest_energy_mode.set LEUART_TX_EM_index
        (s.lowest_energy_mode LEUART_TX_EM_index - 1) ∧
      s1.posted = s.posted ++ [s.leuart0_SM.leuart0_write_cb] ∧
      s1.event_scheduled = s.event_scheduled ||| s.leuart0_SM.leuart0_write_cb ∧
      (s1.leuart s.leuart0_SM.leuart).IEN &&& LEUART_IEN_TXC = 0 := by
  have e : leuart_event s LEUART_Event.txc
      = Outcome.ok (leuart_event s LEUART_Event.txc).final := by
    simp only [leuart_event, TXC_IRQ, h, LEUART_System.store_table,
      sleep_unblock_mode_ok _ _ hc, Outcome.bind, Outcome.final]
  refine ⟨_, e, ?_, ?_, ?_, ?_, ?_⟩ <;>
    simp only [leuart_event, TXC_IRQ, h, LEUART_System.store_table,
      sleep_unblock_mode_ok _ _ hc, Outcome.bind, Outcome.final]
  · simp [LEUART_System.post, LEUART_System.withTable, LEUART_System.store, h]
  · simp [LEUART_System.post, LEUART_System.withTable]
  · simp [LEUART_System.post, LEUART_System.withTable, LEUART_System.store]
  · simp [LEUART_System.post, LEUART_System.withTable, LEUART_System.store,
      add_scheduled_event]
  · simp only [LEUART_System.post, LEUART_System.withTable, LEUART_System.store_IEN_IEN]
    exact leuart_ien_after_txc _

theorem leuart_txbl_run :
    ∀ (k : Nat) (s : LEUART_System),
      s.leuart0_SM.current_state = LEUART_WRITE_STATES.write_op →
      s.leuart0_SM.data_sent + k ≤ s.leuart0_SM.str_length →
      s.leuart0_SM.str_length < 2 ^ 32 →
      ∃ s1, leuart_events s (List.replicate k LEUART_Event.txbl) = Outcome.ok s1 ∧
        s1.leuart0_SM = { s.leuart0_SM with data_sent := s.leuart0_SM.data_sent + k } ∧
        s1.lowest_energy_mode = s.lowest_energy_mode ∧ s1.posted = s.posted ∧
        s1.event_scheduled = s.event_scheduled ∧
        (∀ q, (s1.leuart q).writes =
          if q = s.leuart0_SM.leuart then
            (s.leuart q).writes ++ (List.range k).map (fun j =>
              LEUART_Write.TXDATA (to_char (s.leuart0_SM.data (s.leuart0_SM.data_sent + j))))
          else (s.leuart q).writes) := by
  intro k
  induction k with
  | zero =>
    intro s _ _ _
    refine ⟨s, rfl, rfl, rfl, rfl, rfl, ?_⟩
    intro q
    simp
  | succ k ih =>
    intro s h hle hn
    obtain ⟨s2, e2, hm2, ht2, hp2, hev2, hw2⟩ := leuart_event_txbl_send s h (by omega)
    rw [u32_of_lt _ (by omega)] at hm2
    obtain ⟨s1, e1, hm1, ht1, hp1, hev1, hw1⟩ := ih s2 (by rw [hm2]; exact h)
      (by rw [hm2]; show s.leuart0_SM.data_sent + 1 + k ≤ s.leuart0_SM.str_length; omega)
      (by rw [hm2]; exact hn)
    refine ⟨s1, ?_, ?_, ht1.trans ht2, hp1.trans hp2, hev1.trans hev2, ?_⟩
    · simp only [List.replicate_succ, leuart_events, e2, Outcome.bind]
      exact e1
    · rw [hm1, hm2]
      simp only [LEUART_WRITE_SM.mk.injEq, true_and]
      omega
    · intro q
      rw [hw1 q, hm2]
      simp only
      rw [hw2 q]
      by_cases hq : q = s.leuart0_SM.leuart
      · simp only [hq, if_true, List.append_assoc, List.singleton_append]
        rw [List.range_succ_eq_map, List.map_cons, List.map_map, Nat.add_zero]
        congr 2
        apply List.map_congr_left
        intro j _
        simp only [Function.comp, Nat.succ_eq_add_one]
        rw [show s.leuart0_SM.data_sent + 1 + j = s.leuart0_SM.data_sent + (j + 1) by omega]
      · simp only [hq, if_false]

/-! ## LEUART: specification properties -/

/-- C15, as it holds: for every start-frame byte `sf`, body `cs = c1..ck` and
sig-frame byte `g`, none of them NUL, with `k + 3 <= 80`, from read state
`STARTFRAME` (whatever `read_str` and `str_length` hold from earlier bytes, the
controller not busy synchronising): the STARTF event delivering `sf`, the
RXDATAV events delivering `c1..ck` and `g`, and the SIGF event all return;
afterwards `read_str` holds `sf c1 .. ck g` followed by a NUL, `str_length` is
`k + 3`, `received_str` returns start frame + body + sig frame, the read state
is back to `STARTFRAME`, `BLE_TX_DONE_CB` has been posted, and the RXDATAV and
SIGF interrupts are disabled again, so that later bytes reach no handler. -/
theorem leuart_receive_frame (s : LEUART_System) (sf g : Nat) (cs : List Nat)
    (hstate : s.leuart0_SM_READ.current_read_state = LEUART_READ_STATES.STARTFRAME)
    (hsync : (s.leuart s.leuart0_SM_READ.leuart_read).SYNCBUSY = 0)
    (hlen : cs.length + 3 ≤ 80)
    (hsf : sf < 256) (hg : g < 256) (hcs : ∀ c ∈ cs, c < 256)
    (hnul : sf ≠ 0 ∧ g ≠ 0 ∧ ∀ c ∈ cs, c ≠ 0) :
    ∃ s1, leuart_events s (LEUART_Event.startf sf ::
          (cs.map LEUART_Event.rxdatav ++ [LEUART_Event.rxdatav g, LEUART_Event.sigf]))
        = Outcome.ok s1 ∧
      (∀ i, i < cs.length + 2 → s1.leuart0_SM_READ.read_str i = (sf :: cs ++ [g]).getD i 0) ∧
      s1.leuart0_SM_READ.read_str (cs.length + 2) = 0 ∧
      s1.leuart0_SM_READ.str_length = cs.length + 3 ∧
      received_str s1 = some (sf :: cs ++ [g]) ∧
      s1.leuart0_SM_READ.current_read_state = LEUART_READ_STATES.STARTFRAME ∧
      s1.posted = s.posted ++ [BLE_TX_DONE_CB] ∧
      (s1.leuart s.leuart0_SM_READ.leuart_read).IEN &&& LEUART_IEN_RXDATAV = 0 ∧
      (s1.leuart s.leuart0_SM_READ.leuart_read).IEN &&& LEUART_IEN_SIGF = 0 := by
  obtain ⟨s1, e1, hr, hz, hl, hst, _, hpo, _, hi1, hi2⟩ :=
    leuart_frame_run s sf g cs hstate hsync hlen hsf hg hcs
  refine ⟨s1, e1, hr, hz, hl, ?_, hst, hpo, hi1, hi2⟩
  have hstr := c_string_of_list s1.leuart0_SM_READ.read_str (sf :: cs ++ [g]) 80 0
    (by simp; omega)
    (fun j hj => by
      rw [Nat.zero_add]
      exact hr j (by simpa using hj))
    (by
      rw [Nat.zero_add]
      have : (sf :: cs ++ [g]).length = cs.length + 2 := by simp
      rw [this]
      exact hz)
  unfold received_str
  rw [hstr, takeWhile_nonzero_self]
  intro c hc
  rcases List.mem_cons.mp hc with h | h
  · rw [h]
    exact hnul.1
  · rcases List.mem_append.mp h with h | h
    · exact hnul.2.2 c h
    · rw [List.mem_singleton.mp h]
      exact hnul.2.1

/-- Witness for C15: the frame `#hello!` of the driver's loopback test,
received by the opened system. -/
theorem leuart_receive_frame_witness :
    ∃ s1, leuart_events (LEUART_System.opened (fun _ => 0)) (LEUART_Event.startf 35 ::
          ([104, 101, 108, 108, 111].map LEUART_Event.rxdatav
            ++ [LEUART_Event.rxdatav 33, LEUART_Event.sigf]))
        = Outcome.ok s1 ∧
      received_str s1 = some [35, 104, 101, 108, 108, 111, 33] ∧
      s1.leuart0_SM_READ.current_read_state = LEUART_READ_STATES.STARTFRAME :=
  (leuart_receive_frame (LEUART_System.opened (fun _ => 0)) 35 33 [104, 101, 108, 108, 111]
    rfl rfl (by decide) (by decide) (by decide) (by decide) (by decide)).imp
    (fun _ h => ⟨h.1, h.2.2.2.2.1, h.2.2.2.2.2.1⟩)

/-- Counterexample to C15 as stated: with start frame `#` (35), body the single
byte 0 and sig frame `!` (33), the four events return and `read_str` holds
35, 0, 33, 0, but `received_str` returns the string `#` only: the copy stops
at the NUL of the body. -/
theorem leuart_received_str_stops_at_nul :
    [(0 : Nat)].length + 3 ≤ 80 ∧
    (LEUART_System.opened (fun _ => 0)).leuart0_SM_READ.current_read_state
      = LEUART_READ_STATES.STARTFRAME ∧
    (leuart_events (LEUART_System.opened (fun _ => 0))
      [LEUART_Event.startf 35, LEUART_Event.rxdatav 0, LEUART_Event.rxdatav 33,
       LEUART_Event.sigf]).state?.isSome = true ∧
    [0, 1, 2, 3].map (leuart_events (LEUART_System.opened (fun _ => 0))
      [LEUART_Event.startf 35, LEUART_Event.rxdatav 0, LEUART_Event.rxdatav 33,
       LEUART_Event.sigf]).final.leuart0_SM_READ.read_str = [35, 0, 33, 0] ∧
    received_str (leuart_events (LEUART_System.opened (fun _ => 0))
      [LEUART_Event.startf 35, LEUART_Event.rxdatav 0, LEUART_Event.rxdatav 33,
       LEUART_Event.sigf]).final = some [35] ∧
    received_str (leuart_events (LEUART_System.opened (fun _ => 0))
      [LEUART_Event.startf 35, LEUART_Event.rxdatav 0, LEUART_Event.rxdatav 33,
       LEUART_Event.sigf]).final ≠ some [35, 0, 33] := by
  decide

theorem strcpy_getD (dst : Nat → Nat) (str : List Nat) (hnz : ∀ c ∈ str, c ≠ 0) (j : Nat)
    (hj : j < str.length) : strcpy dst str j = str.getD j 0 := by
  unfold strcpy
  rw [takeWhile_nonzero_self str hnz, if_pos hj]

theorem leuart_sent_chars (dst : Nat → Nat) (str : List Nat)
    (hchars : ∀ c ∈ str, c ≠ 0 ∧ c < 256) :
    ∀ k, k ≤ str.length →
      (List.range k).map (fun j => LEUART_Write.TXDATA (to_char (strcpy dst str (0 + j))))
        = (str.take k).map LEUART_Write.TXDATA := by
  intro k
  induction k with
  | zero => intro _; rfl
  | succ k ih =>
    intro hk
    have hk' : k < str.length := by omega
    rw [List.range_succ, List.map_append, ih (by omega), List.take_succ, List.map_append,
      List.getElem?_eq_getElem hk']
    simp only [List.map_cons, List.map_nil, Option.toList_some, Nat.zero_add]
    rw [strcpy_getD dst str (fun c hc => (hchars c hc).1) k hk', List.getD_eq_getElem _ _ hk',
      to_char_of_lt _ (hchars _ (List.getElem_mem _)).2]

/-- C16: for every string `str` of chars (none NUL, each below 256) of length
`n <= 79`, every controller pointer and callback, when
`leuart_start(leuart, str, n, cb)` has returned, from a table whose EM3 counter
was not negative: the first TXBL event returns and only moves `STRING_INIT` to
`write_op` (no store to a register); for every `j <= n`, after `j` further TXBL
events `data_sent = j <= str_length` and the stores to the controller since
the start are exactly `TXDATA = str[0], ..., str[j-1]` in order; the TXBL event
after the `n`-th byte stores only to `IEN`, `IFC`, `IEN` of `LEUART0`, leaving
TXBL disabled and TXC enabled, and moves to state `end`; the TXC event then
disables TXC, clears `busy`, posts `cb`, and the energy-mode table is the one
before `leuart_start`. -/
theorem leuart_transmit_string (s0 s1 : LEUART_System) (leuart : LEUART_Ptr)
    (str : List Nat) (cb : Nat)
    (hchars : ∀ c ∈ str, c ≠ 0 ∧ c < 256)
    (hn : str.length ≤ 79)
    (hcount : 0 ≤ s0.lowest_energy_mode LEUART_TX_EM_index)
    (hstart : leuart_start s0 leuart str str.length cb = Outcome.ok s1) :
    s1.leuart0_SM.busy = true ∧
    (∃ s2, leuart_event s1 LEUART_Event.txbl = Outcome.ok s2 ∧
      s2.leuart0_SM.current_state = LEUART_WRITE_STATES.write_op ∧
      s2.leuart0_SM.data_sent = 0 ∧
      ∀ q, (s2.leuart q).writes = (s1.leuart q).writes) ∧
    (∀ j, j ≤ str.length →
      ∃ s3, leuart_events s1 (List.replicate (j + 1) LEUART_Event.txbl) = Outcome.ok s3 ∧
        s3.leuart0_SM.current_state = LEUART_WRITE_STATES.write_op ∧
        s3.leuart0_SM.data_sent = j ∧
        s3.leuart0_SM.data_sent ≤ s3.leuart0_SM.str_length ∧
        (s3.leuart leuart).writes
          = (s1.leuart leuart).writes ++ (str.take j).map LEUART_Write.TXDATA) ∧
    (∃ s3 s4 s5,
      leuart_events s1 (List.replicate (str.length + 1) LEUART_Event.txbl) = Outcome.ok s3 ∧
      (s3.leuart leuart).writes = (s1.leuart leuart).writes ++ str.map LEUART_Write.TXDATA ∧
      leuart_event s3 LEUART_Event.txbl = Outcome.ok s4 ∧
      s4.leuart0_SM.current_state = LEUART_WRITE_STATES.end_state ∧
      (s4.leuart LEUART_Ptr.LEUART0).IEN &&& LEUART_IEN_TXBL = 0 ∧
      (s4.leuart LEUART_Ptr.LEUART0).IEN &&& LEUART_IEN_TXC = LEUART_IEN_TXC ∧
      (∃ a b c, (s4.leuart LEUART_Ptr.LEUART0).writes = (s3.leuart LEUART_Ptr.LEUART0).writes ++
        [LEUART_Write.IEN a, LEUART_Write.IFC b, LEUART_Write.IEN c]) ∧
      (∀ q, q ≠ LEUART_Ptr.LEUART0 → (s4.leuart q).writes = (s3.leuart q).writes) ∧
      leuart_event s4 LEUART_Event.txc = Outcome.ok s5 ∧
      s5.leuart0_SM.busy = false ∧
      s5.posted = s0.posted ++ [cb] ∧
      s5.event_scheduled = add_scheduled_event s0.event_scheduled cb ∧
      s5.lowest_energy_mode = s0.lowest_energy_mode ∧
      (s5.leuart leuart).IEN &&& LEUART_IEN_TXC = 0) := by
  obtain ⟨_, hroom, hm1, ht1, hp1, hev1, _, _, _⟩ :=
    leuart_start_ok_inv s0 s1 leuart str str.length cb hstart
  have hlt : str.length < 2 ^ 32 := by
    have : (79 : Nat) < 2 ^ 32 := by decide
    omega
  obtain ⟨s2, e2, hm2, ht2, hp2, hev2, hw2⟩ := leuart_event_txbl_init s1 (by simp [hm1])
  have hrun : ∀ j, j ≤ str.length →
      ∃ s3, leuart_events s1 (List.replicate (j + 1) LEUART_Event.txbl) = Outcome.ok s3 ∧
        s3.leuart0_SM = { s2.leuart0_SM with data_sent := j } ∧
        s3.lowest_energy_mode = s1.lowest_energy_mode ∧ s3.posted = s1.posted ∧
        s3.event_scheduled = s1.event_scheduled ∧
        (s3.leuart leuart).writes
          = (s1.leuart leuart).writes ++ (str.take j).map LEUART_Write.TXDATA := by
    intro j hj
    obtain ⟨s3, e3, hm3, ht3, hp3, hev3, hw3⟩ := leuart_txbl_run j s2 (by simp [hm2])
      (by simp only [hm2, hm1]; simpa using hj) (by simp only [hm2, hm1]; exact hlt)
    refine ⟨s3, ?_, ?_, ht3.trans ht2, hp3.trans hp2, hev3.trans hev2, ?_⟩
    · simp only [List.replicate_succ, leuart_events, e2, Outcome.bind]
      exact e3
    · simp [hm3, hm2, hm1]
    · rw [hw3 leuart, hw2 leuart]
      simp only [hm2, hm1, if_true]
      rw [leuart_sent_chars _ str hchars j hj]
  refine ⟨by simp [hm1], ⟨s2, e2, by simp [hm2], by simp [hm2, hm1], hw2⟩, ?_, ?_⟩
  · intro j hj
    obtain ⟨s3, e3, hm3, _, _, _, hw3⟩ := hrun j hj
    refine ⟨s3, e3, by simp [hm3, hm2], by simp [hm3], ?_, hw3⟩
    simp only [hm3, hm2, hm1]
    exact hj
  · obtain ⟨s3, e3, hm3, ht3, hp3, hev3, hw3⟩ := hrun str.length (le_refl _)
    rw [List.take_length] at hw3
    obtain ⟨s4, e4, hm4, ht4, hp4, hev4, hi4, hi4', hw4, hw4'⟩ :=
      leuart_event_txbl_last s3 (by simp [hm3, hm2]) (by simp [hm3, hm2, hm1])
    have htab : s4.lowest_energy_mode = s0.lowest_energy_mode.set LEUART_TX_EM_index
        (s0.lowest_energy_mode LEUART_TX_EM_index + 1) := by
      rw [ht4, ht3, ht1]
    obtain ⟨s5, e5, hm5, ht5, hp5, hev5, hi5⟩ := leuart_event_txc s4 (by simp [hm4])
      (by rw [htab, EnergyTable.set_same]; omega)
    refine ⟨s3, s4, s5, e3, hw3, e4, by simp [hm4], hi4, hi4', hw4, hw4', e5, by simp [hm5], ?_,
      ?_, ?_, ?_⟩
    · simp [hp5, hp4, hp3, hp1, hm4, hm3, hm2, hm1]
    · simp [hev5, hev4, hev3, hev1, hm4, hm3, hm2, hm1, add_scheduled_event]
    · rw [ht5, htab, EnergyTable.set_same, EnergyTable.set_set]
      have : s0.lowest_energy_mode LEUART_TX_EM_index + 1 - 1
          = s0.lowest_energy_mode LEUART_TX_EM_index := by omega
      rw [this, EnergyTable.set_self]
    · have : s4.leuart0_SM.leuart = leuart := by simp [hm4, hm3, hm2, hm1]
      rw [← this]
      exact hi5

/-- Witness for C16: the string `hi` started on `LEUART0` of the opened system
with callback 4. -/
theorem leuart_transmit_string_witness :
    (leuart_start (LEUART_System.opened (fun _ => 0)) LEUART_Ptr.LEUART0 [104, 105]
      [104, 105].length 4).final.leuart0_SM.busy = true ∧
    ∃ s3, leuart_events (leuart_start (LEUART_System.opened (fun _ => 0)) LEUART_Ptr.LEUART0
          [104, 105] [104, 105].length 4).final (List.replicate (2 + 1) LEUART_Event.txbl)
        = Outcome.ok s3 ∧
      (s3.leuart LEUART_Ptr.LEUART0).writes
        = ((leuart_start (LEUART_System.opened (fun _ => 0)) LEUART_Ptr.LEUART0
            [104, 105] [104, 105].length 4).final.leuart LEUART_Ptr.LEUART0).writes
          ++ ([104, 105].take 2).map LEUART_Write.TXDATA :=
  ⟨(leuart_transmit_string (LEUART_System.opened (fun _ => 0))
      (leuart_start (LEUART_System.opened (fun _ => 0)) LEUART_Ptr.LEUART0 [104, 105]
        [104, 105].length 4).final
      LEUART_Ptr.LEUART0 [104, 105] 4 (by decide) (by decide) (by decide) rfl).1,
   ((leuart_transmit_string (LEUART_System.opened (fun _ => 0))
      (leuart_start (LEUART_System.opened (fun _ => 0)) LEUART_Ptr.LEUART0 [104, 105]
        [104, 105].length 4).final
      LEUART_Ptr.LEUART0 [104, 105] 4 (by decide) (by decide) (by decide) rfl).2.2.1 2
        (by decide)).imp (fun _ h => ⟨h.1, h.2.2.2.2⟩)⟩

/-! ## The receive and bus-stop handlers -/

/-- C21, as it holds: a receive-data-valid event stores a byte only in state
`init_read`, where the handler returns; in `init_write` and `write_data` the
handler returns without any change and without a failed assertion; in
`read_data`, `rec_data` and `end_process` it fails its assertion, with the
state unchanged. -/
theorem i2c_receive_sm_acceptance (s : System) (p : SM_Ptr) :
    ((s.sm p).current_state = DEFINED_STATES.init_read →
      ∃ s1, i2c_receive_sm s p = Outcome.ok s1 ∧
        (s1.sm p).bytes_per_transfer = dec32 (s.sm p).bytes_per_transfer) ∧
    (((s.sm p).current_state = DEFINED_STATES.init_write ∨
      (s.sm p).current_state = DEFINED_STATES.write_data) →
      i2c_receive_sm s p = Outcome.ok s) ∧
    (((s.sm p).current_state = DEFINED_STATES.read_data ∨
      (s.sm p).current_state = DEFINED_STATES.rec_data ∨
      (s.sm p).current_state = DEFINED_STATES.end_process) →
      i2c_receive_sm s p = Outcome.halt s ∧ (i2c_receive_sm s p).failed = true) := by
  refine ⟨fun h => ?_, fun h => ?_, fun h => ?_⟩
  · unfold i2c_receive_sm
    simp only [h]
    by_cases hn : dec32 (s.sm p).bytes_per_transfer ≠ 0
    · rw [if_pos hn]
      exact ⟨_, rfl, by simp⟩
    · rw [if_neg hn]
      exact ⟨_, rfl, by simp⟩
  · unfold i2c_receive_sm
    rcases h with h | h <;> simp only [h]
  · have e : i2c_receive_sm s p = Outcome.halt s := by
      unfold i2c_receive_sm
      rcases h with h | h | h <;> simp only [h]
    rw [e]
    exact ⟨rfl, rfl⟩

/-- Counterexample to C21 as stated: a receive-data-valid event arriving right
after `i2c_start` on I2C1, in state `init_write`, fails no assertion: the
handler returns, the state is still `init_write`, and the byte count and the
data word are unchanged. -/
theorem i2c_receive_sm_init_write_no_failure :
    ((i2c_start (System.opened (fun _ => 0)) I2C_Ptr.I2C1 0x55 READ_OP 7 2 0x13 8).final.sm
        SM_Ptr.i2c1_statemachine_vars).current_state = DEFINED_STATES.init_write ∧
    (i2c_event (i2c_start (System.opened (fun _ => 0)) I2C_Ptr.I2C1 0x55 READ_OP 7 2 0x13 8).final
        SM_Ptr.i2c1_statemachine_vars (I2C_Event.rxdatav 0x5A)).failed = false ∧
    (i2c_event (i2c_start (System.opened (fun _ => 0)) I2C_Ptr.I2C1 0x55 READ_OP 7 2 0x13 8).final
        SM_Ptr.i2c1_statemachine_vars (I2C_Event.rxdatav 0x5A)).state?.isSome = true ∧
    ((i2c_event (i2c_start (System.opened (fun _ => 0)) I2C_Ptr.I2C1 0x55 READ_OP 7 2 0x13 8).final
        SM_Ptr.i2c1_statemachine_vars (I2C_Event.rxdatav 0x5A)).final.sm
        SM_Ptr.i2c1_statemachine_vars).current_state = DEFINED_STATES.init_write ∧
    ((i2c_event (i2c_start (System.opened (fun _ => 0)) I2C_Ptr.I2C1 0x55 READ_OP 7 2 0x13 8).final
        SM_Ptr.i2c1_statemachine_vars (I2C_Event.rxdatav 0x5A)).final.sm
        SM_Ptr.i2c1_statemachine_vars).bytes_per_transfer = 2 ∧
    (i2c_event (i2c_start (System.opened (fun _ => 0)) I2C_Ptr.I2C1 0x55 READ_OP 7 2 0x13 8).final
        SM_Ptr.i2c1_statemachine_vars (I2C_Event.rxdatav 0x5A)).final.mem 7 = 0 := by
  decide

/-- C22, as it holds: a bus-stop event handled in state `read_data` or
`rec_data` with the EM2 counter at least 1 returns, decrements the EM2 counter
by 1 and leaves the other counters, sets the busy flag to true and the
protocol state to `init_write`, ORs the callback token into the
scheduled-event mask (one `add_scheduled_event` call), and changes no other
field of the bus state, no field of the other bus, no data word and no
hardware register (no store is made). -/
theorem i2c_msstop_sm_completes (s : System) (p : SM_Ptr)
    (hstate : (s.sm p).current_state = DEFINED_STATES.read_data ∨
      (s.sm p).current_state = DEFINED_STATES.rec_data)
    (hheld : 1 ≤ s.lowest_energy_mode I2C_EM_BLOCK_index) :
    ∃ s1, i2c_msstop_sm s p = Outcome.ok s1 ∧
      s1.lowest_energy_mode I2C_EM_BLOCK_index = s.lowest_energy_mode I2C_EM_BLOCK_index - 1 ∧
      (∀ j, j ≠ I2C_EM_BLOCK_index → s1.lowest_energy_mode j = s.lowest_energy_mode j) ∧
      s1.sm p = { s.sm p with busy := true, current_state := DEFINED_STATES.init_write } ∧
      (∀ q, q ≠ p → s1.sm q = s.sm q) ∧
      s1.event_scheduled = s.event_scheduled ||| (s.sm p).i2c_callback ∧
      s1.posted = s.posted ++ [(s.sm p).i2c_callback] ∧
      s1.i2c = s.i2c ∧ s1.mem = s.mem := by
  have hd : 0 ≤ s.lowest_energy_mode I2C_EM_BLOCK_index - 1 := by omega
  have e : i2c_msstop_sm s p = Outcome.ok (post_event ((withTable s
      (s.lowest_energy_mode.set I2C_EM_BLOCK_index
        (s.lowest_energy_mode I2C_EM_BLOCK_index - 1))).setSM p
      { s.sm p with busy := true, current_state := DEFINED_STATES.init_write })
      (s.sm p).i2c_callback) := by
    unfold i2c_msstop_sm
    rcases hstate with h | h <;>
      simp only [h, sleep_unblock_mode_ok _ _ hd, Outcome.bind]
  refine ⟨_, e, ?_, ?_, ?_, ?_, ?_, ?_, ?_, ?_⟩
  · simp [EnergyTable.set_same]
  · intro j hj
    simp [EnergyTable.set_other _ _ _ _ hj]
  · simp
  · intro q hq
    simp [System.sm_setSM_ite, hq]
  · simp [add_scheduled_event]
  · simp
  · simp
  · simp

/-- Witness for C22: the bus-stop of a one-byte write on I2C1, in `rec_data`
with the EM2 counter at 1. -/
theorem i2c_msstop_sm_completes_witness :
    ∃ s1, i2c_msstop_sm (i2c_steps (System.opened (fun _ => 0))
        [I2C_Step.start I2C_Ptr.I2C1 0x55 WRITE_OP 7 1 0x13 8,
         I2C_Step.event SM_Ptr.i2c1_statemachine_vars I2C_Event.ack,
         I2C_Step.event SM_Ptr.i2c1_statemachine_vars I2C_Event.ack]).final
        SM_Ptr.i2c1_statemachine_vars = Outcome.ok s1 ∧
      s1.lowest_energy_mode I2C_EM_BLOCK_index
        = (i2c_steps (System.opened (fun _ => 0))
          [I2C_Step.start I2C_Ptr.I2C1 0x55 WRITE_OP 7 1 0x13 8,
           I2C_Step.event SM_Ptr.i2c1_statemachine_vars I2C_Event.ack,
           I2C_Step.event SM_Ptr.i2c1_statemachine_vars I2C_Event.ack]).final.lowest_energy_mode
            I2C_EM_BLOCK_index - 1 :=
  (i2c_msstop_sm_completes (i2c_steps (System.opened (fun _ => 0))
      [I2C_Step.start I2C_Ptr.I2C1 0x55 WRITE_OP 7 1 0x13 8,
       I2C_Step.event SM_Ptr.i2c1_statemachine_vars I2C_Event.ack,
       I2C_Step.event SM_Ptr.i2c1_statemachine_vars I2C_Event.ack]).final
    SM_Ptr.i2c1_statemachine_vars (Or.inr (by decide)) (by decide)).imp
    (fun _ h => ⟨h.1, h.2.1⟩)

/-- Counterexample to C22 as stated: after the run `read_after_lost_block_steps`
(every step returned) the two-byte read on I2C0 is in `rec_data` with the EM2
counter at 0; its bus-stop event decrements the counter to -1 and fails the
assertion of `sleep_unblock_mode`: the busy flag is still false, the state is
still `rec_data`, and the callback token 4 is not in the scheduled-event mask. -/
theorem i2c_msstop_sm_fails_without_block :
    (i2c_steps (System.opened (sleep_open (fun _ => 0)))
      read_after_lost_block_steps).state?.isSome = true ∧
    ((i2c_steps (System.opened (sleep_open (fun _ => 0)))
      read_after_lost_block_steps).final.sm SM_Ptr.i2c0_statemachine_vars).current_state
        = DEFINED_STATES.rec_data ∧
    (i2c_steps (System.opened (sleep_open (fun _ => 0)))
      read_after_lost_block_steps).final.lowest_energy_mode I2C_EM_BLOCK_index = 0 ∧
    (i2c_event (i2c_steps (System.opened (sleep_open (fun _ => 0)))
      read_after_lost_block_steps).final SM_Ptr.i2c0_statemachine_vars
        I2C_Event.mstop).failed = true ∧
    (i2c_event (i2c_steps (System.opened (sleep_open (fun _ => 0)))
      read_after_lost_block_steps).final SM_Ptr.i2c0_statemachine_vars
        I2C_Event.mstop).final.lowest_energy_mode I2C_EM_BLOCK_index = -1 ∧
    ((i2c_event (i2c_steps (System.opened (sleep_open (fun _ => 0)))
      read_after_lost_block_steps).final SM_Ptr.i2c0_statemachine_vars
        I2C_Event.mstop).final.sm SM_Ptr.i2c0_statemachine_vars).busy = false ∧
    ((i2c_event (i2c_steps (System.opened (sleep_open (fun _ => 0)))
      read_after_lost_block_steps).final SM_Ptr.i2c0_statemachine_vars
        I2C_Event.mstop).final.sm SM_Ptr.i2c0_statemachine_vars).current_state
        = DEFINED_STATES.rec_data ∧
    (i2c_event (i2c_steps (System.opened (sleep_open (fun _ => 0)))
      read_after_lost_block_steps).final SM_Ptr.i2c0_statemachine_vars
        I2C_Event.mstop).final.event_scheduled &&& 4 = 0 := by
  decide

theorem i2c_ack_sm_transaction (s : System) (p q : SM_Ptr) :
    ((i2c_ack_sm s p).final.sm q).transaction = (s.sm q).transaction := by
  unfold i2c_ack_sm
  by_cases hq : q = p
  · subst hq
    cases hc : (s.sm q).current_state <;> simp only [hc]
    · split
      · simp [Outcome.final, I2C_STATE_MACHINE.transaction]
      · split <;> simp [Outcome.final, I2C_STATE_MACHINE.transaction]
    · simp [Outcome.final, I2C_STATE_MACHINE.transaction]
    · rfl
    · split <;> simp [Outcome.final, I2C_STATE_MACHINE.transaction]
    · rfl
    · rfl
  · cases hc : (s.sm p).current_state <;> simp only [hc]
    · split
      · simp [Outcome.final, System.sm_setSM_ite, hq]
      · split <;> simp [Outcome.final, System.sm_setSM_ite, hq]
    · simp [Outcome.final, System.sm_setSM_ite, hq]
    · rfl
    · split <;> simp [Outcome.final, System.sm_setSM_ite, hq]
    · rfl
    · rfl

theorem i2c_receive_sm_transaction (s : System) (p q : SM_Ptr) :
    ((i2c_receive_sm s p).final.sm q).transaction = (s.sm q).transaction := by
  unfold i2c_receive_sm
  by_cases hq : q = p
  · subst hq
    cases hc : (s.sm q).current_state <;> simp only [hc]
    · rfl
    · rfl
    · split <;> simp [Outcome.final, I2C_STATE_MACHINE.transaction]
    · rfl
    · rfl
    · rfl
  · cases hc : (s.sm p).current_state <;> simp only [hc]
    · rfl
    · rfl
    · split <;> simp [Outcome.final, System.sm_setSM_ite, hq]
    · rfl
    · rfl
    · rfl

theorem i2c_msstop_sm_transaction (s : System) (p q : SM_Ptr) :
    ((i2c_msstop_sm s p).final.sm q).transaction = (s.sm q).transaction := by
  unfold i2c_msstop_sm
  by_cases hd : 0 ≤ s.lowest_energy_mode I2C_EM_BLOCK_index - 1
  · by_cases hq : q = p
    · subst hq
      cases hc : (s.sm q).current_state <;>
        simp [hc, sleep_unblock_mode_ok _ _ hd, Outcome.bind, Outcome.final,
          I2C_STATE_MACHINE.transaction]
    · cases hc : (s.sm p).current_state <;>
        simp [hc, sleep_unblock_mode_ok _ _ hd, Outcome.bind, Outcome.final,
          System.sm_setSM_ite, hq]
  · cases hc : (s.sm p).current_state <;>
      simp [hc, sleep_unblock_mode_halt _ _ hd, Outcome.bind, Outcome.final]

theorem i2c_event_transaction (s : System) (p q : SM_Ptr) (e : I2C_Event) :
    ((i2c_event s p e).final.sm q).transaction = (s.sm q).transaction := by
  cases e with
  | ack => exact i2c_ack_sm_transaction s p q
  | rxdatav b =>
    have := i2c_receive_sm_transaction (s.receive (s.sm p).i2cx b) p q
    simpa [i2c_event] using this
  | mstop => exact i2c_msstop_sm_transaction s p q

theorem i2c_event_other (s s1 : System) (p q : SM_Ptr) (e : I2C_Event) (hq : q ≠ p)
    (h : i2c_event s p e = Outcome.ok s1) : s1.sm q = s.sm q := by
  cases e with
  | ack =>
    simp only [i2c_event] at h
    unfold i2c_ack_sm at h
    cases hc : (s.sm p).current_state <;> simp only [hc] at h
    · split at h
      · cases h; simp [System.sm_setSM_ite, hq]
      · split at h <;> cases h <;> simp [System.sm_setSM_ite, hq]
    · cases h; simp [System.sm_setSM_ite, hq]
    · cases h; rfl
    · split at h <;> cases h <;> simp [System.sm_setSM_ite, hq]
    · cases h; rfl
    · cases h; rfl
  | rxdatav b =>
    simp only [i2c_event] at h
    unfold i2c_receive_sm at h
    simp only [System.sm_receive] at h
    cases hc : (s.sm p).current_state <;> simp only [hc] at h
    · cases h; simp
    · cases h; simp
    · split at h <;> cases h <;> simp [System.sm_setSM_ite, hq]
    · cases h
    · cases h
    · cases h
  | mstop => exact i2c_msstop_sm_other s s1 p q hq h

theorem i2c_steps_transaction (p : SM_Ptr) :
    ∀ (steps : List I2C_Step) (s s1 : System),
      (s.sm p).busy = false → I2C_Step.event p I2C_Event.mstop ∉ steps →
      i2c_steps s steps = Outcome.ok s1 →
      (s1.sm p).busy = false ∧ (s1.sm p).transaction = (s.sm p).transaction := by
  intro steps
  induction steps with
  | nil =>
    intro s s1 hb _ h
    simp only [i2c_steps, Outcome.ok.injEq] at h
    subst h
    exact ⟨hb, rfl⟩
  | cons c cs ih =>
    intro s s1 hb hno h
    simp only [i2c_steps] at h
    have hno1 : I2C_Step.event p I2C_Event.mstop ∉ cs :=
      fun hm => hno (List.mem_cons_of_mem _ hm)
    cases hrun : c.run s with
    | halt s2 => rw [hrun] at h; cases h
    | spin s2 => rw [hrun] at h; cases h
    | ok s2 =>
      rw [hrun] at h
      simp only [Outcome.bind] at h
      have key : (s2.sm p).busy = false ∧ (s2.sm p).transaction = (s.sm p).transaction := by
        cases c with
        | start i2c dev mode data n reg cb =>
          obtain ⟨q, _, hq, _, hoth, _⟩ := i2c_start_ok_sm s s2 i2c dev mode data n reg cb hrun
          have hpq : p ≠ q := by
            intro e
            subst e
            rw [hb] at hq
            cases hq
          rw [hoth p hpq]
          exact ⟨hb, rfl⟩
        | event q e =>
          by_cases hpq : p = q
          · subst hpq
            have he : e ≠ I2C_Event.mstop := by
              intro he
              subst he
              exact hno (List.mem_cons_self _ _)
            have ht := i2c_event_transaction s p p e
            have hrun' : i2c_event s p e = Outcome.ok s2 := hrun
            rw [hrun'] at ht
            exact ⟨((i2c_event_frame s s2 p p e he hrun).1).trans hb, ht⟩
          · rw [i2c_event_other s s2 q p e hpq hrun]
            exact ⟨hb, rfl⟩
      obtain ⟨h1, h2⟩ := ih s2 s1 key.1 hno1 h
      exact ⟨h1, h2.trans key.2⟩

/-- C27: none of the three event handlers, whatever its outcome, changes the
controller, direction, peripheral address, register address, data pointer or
callback token of either bus; after `i2c_start` has returned, through every
run of further steps (events on either bus, starts on the other bus) up to the
bus-stop event of the started bus, these fields hold the values given to
`i2c_start`; and the token that the bus-stop event passes to
`add_scheduled_event` at completion is the callback given to `i2c_start`. -/
theorem i2c_transaction_fields_fixed (s s1 s2 : System) (i2c : I2C_Ptr) (p : SM_Ptr)
    (dev mode data n reg cb : Nat) (steps : List I2C_Step)
    (hbus : i2c_local i2c = some p)
    (hstart : i2c_start s i2c dev mode data n reg cb = Outcome.ok s1)
    (hno : I2C_Step.event p I2C_Event.mstop ∉ steps)
    (hrun : i2c_steps s1 steps = Outcome.ok s2) :
    (∀ (t : System) (q r : SM_Ptr),
      ((i2c_ack_sm t q).final.sm r).transaction = (t.sm r).transaction ∧
      ((i2c_receive_sm t q).final.sm r).transaction = (t.sm r).transaction ∧
      ((i2c_msstop_sm t q).final.sm r).transaction = (t.sm r).transaction) ∧
    (s2.sm p).rwrite = mode ∧ (s2.sm p).peripheral_address = dev ∧
    (s2.sm p).register_address = reg ∧ (s2.sm p).data = data ∧
    (s2.sm p).i2c_callback = cb ∧
    (∀ s3, i2c_event s2 p I2C_Event.mstop = Outcome.ok s3 →
      s3.posted = s2.posted ++ [cb] ∧
      s3.event_scheduled = add_scheduled_event s2.event_scheduled cb ∧
      (s3.sm p).transaction = (i2c, mode, dev, reg, data, cb)) := by
  obtain ⟨p', hbus', hidle, hstate, hroom⟩ := i2c_start_ok_inv s s1 i2c dev mode data n reg cb hstart
  have hpp : p' = p := by
    rw [hbus] at hbus'
    exact (Option.some.inj hbus').symm
  subst hpp
  rw [i2c_start_ok s i2c p' dev mode data n reg cb hbus hidle hstate hroom] at hstart
  have h1 : (s1.sm p').busy = false ∧ (s1.sm p').transaction = (i2c, mode, dev, reg, data, cb) := by
    cases hstart
    simp [I2C_STATE_MACHINE.transaction]
  obtain ⟨_, ht⟩ := i2c_steps_transaction p' steps s1 s2 h1.1 hno hrun
  rw [h1.2] at ht
  have hf : (s2.sm p').i2cx = i2c ∧ (s2.sm p').rwrite = mode ∧
      (s2.sm p').peripheral_address = dev ∧ (s2.sm p').register_address = reg ∧
      (s2.sm p').data = data ∧ (s2.sm p').i2c_callback = cb := by
    simpa [I2C_STATE_MACHINE.transaction] using ht
  refine ⟨fun t q r => ⟨i2c_ack_sm_transaction t q r, i2c_receive_sm_transaction t q r,
    i2c_msstop_sm_transaction t q r⟩, hf.2.1, hf.2.2.1, hf.2.2.2.1, hf.2.2.2.2.1, hf.2.2.2.2.2, ?_⟩
  intro s3 hstop
  obtain ⟨_, _, _, _, hp, _⟩ := i2c_msstop_sm_ok_inv s2 s3 p' hstop
  have ht3 := i2c_msstop_sm_transaction s2 p' p'
  have hstop' : i2c_msstop_sm s2 p' = Outcome.ok s3 := hstop
  rw [hstop'] at ht3
  refine ⟨by rw [hp, hf.2.2.2.2.2], ?_, ht3.trans ht⟩
  unfold i2c_msstop_sm at hstop'
  by_cases hd : 0 ≤ s2.lowest_energy_mode I2C_EM_BLOCK_index - 1
  · cases hc : (s2.sm p').current_state <;>
      simp only [hc, sleep_unblock_mode_ok _ _ hd, Outcome.bind] at hstop' <;>
      cases hstop' <;> simp [hf.2.2.2.2.2, add_scheduled_event]
  · cases hc : (s2.sm p').current_state <;>
      simp only [hc, sleep_unblock_mode_halt _ _ hd, Outcome.bind] at hstop' <;>
      cases hstop'

/-- Witness for C27: a two-byte read on I2C1 from the opened system, after its
three acknowledges and its first byte. -/
theorem i2c_transaction_fields_fixed_witness :
    ((i2c_steps (i2c_start (System.opened (fun _ => 0)) I2C_Ptr.I2C1 0x55 READ_OP 7 2 0x13
        8).final
      [I2C_Step.event SM_Ptr.i2c1_statemachine_vars I2C_Event.ack,
       I2C_Step.event SM_Ptr.i2c1_statemachine_vars I2C_Event.ack,
       I2C_Step.event SM_Ptr.i2c1_statemachine_vars I2C_Event.ack,
       I2C_Step.event SM_Ptr.i2c1_statemachine_vars (I2C_Event.rxdatav 0x12)]).final.sm
        SM_Ptr.i2c1_statemachine_vars).i2c_callback = 8 :=
  (i2c_transaction_fields_fixed (System.opened (fun _ => 0))
    (i2c_start (System.opened (fun _ => 0)) I2C_Ptr.I2C1 0x55 READ_OP 7 2 0x13 8).final
    (i2c_steps (i2c_start (System.opened (fun _ => 0)) I2C_Ptr.I2C1 0x55 READ_OP 7 2 0x13
        8).final
      [I2C_Step.event SM_Ptr.i2c1_statemachine_vars I2C_Event.ack,
       I2C_Step.event SM_Ptr.i2c1_statemachine_vars I2C_Event.ack,
       I2C_Step.event SM_Ptr.i2c1_statemachine_vars I2C_Event.ack,
       I2C_Step.event SM_Ptr.i2c1_statemachine_vars (I2C_Event.rxdatav 0x12)]).final
    I2C_Ptr.I2C1 SM_Ptr.i2c1_statemachine_vars 0x55 READ_OP 7 2 0x13 8
    [I2C_Step.event SM_Ptr.i2c1_statemachine_vars I2C_Event.ack,
     I2C_Step.event SM_Ptr.i2c1_statemachine_vars I2C_Event.ack,
     I2C_Step.event SM_Ptr.i2c1_statemachine_vars I2C_Event.ack,
     I2C_Step.event SM_Ptr.i2c1_statemachine_vars (I2C_Event.rxdatav 0x12)]
    rfl rfl (by decide) rfl).2.2.2.2.2.1

theorem dec32_pos (x : Nat) (h1 : 1 ≤ x) (h32 : x < 2 ^ 32) : dec32 x = x - 1 := by
  unfold dec32 u32
  omega

theorem i2c_event_bytes (s s1 : System) (p : SM_Ptr) (e : I2C_Event)
    (he : e ≠ I2C_Event.mstop) (h : i2c_event s p e = Outcome.ok s1)
    (h32 : (s.sm p).bytes_per_transfer < 2 ^ 32)
    (hz : (s.sm p).current_state = DEFINED_STATES.rec_data ↔
      (s.sm p).bytes_per_transfer = 0) :
    (s1.sm p).bytes_per_transfer ≤ (s.sm p).bytes_per_transfer ∧
    ((s1.sm p).current_state = DEFINED_STATES.rec_data ↔
      (s1.sm p).bytes_per_transfer = 0) := by
  cases e with
  | mstop => exact absurd rfl he
  | ack =>
    simp only [i2c_event] at h
    unfold i2c_ack_sm at h
    cases hc : (s.sm p).current_state <;> simp only [hc] at h hz
    · have hb : (s.sm p).bytes_per_transfer ≠ 0 := fun hb => by simp [hb] at hz
      split at h
      · cases h
        simp [hb]
      · split at h <;> cases h <;> simp [hb, hc]
    · have hb : (s.sm p).bytes_per_transfer ≠ 0 := fun hb => by simp [hb] at hz
      cases h
      simp [hb]
    · cases h
      simp [hc, hz]
    · have hb : (s.sm p).bytes_per_transfer ≠ 0 := fun hb => by simp [hb] at hz
      have hd := dec32_pos _ (Nat.one_le_iff_ne_zero.mpr hb) h32
      split at h
      · cases h
        rename_i h0
        simp only [System.sm_setSM]
        rw [h0]
        simp
      · cases h
        rename_i h0
        simp only [System.sm_store, System.sm_setSM]
        refine ⟨by rw [hd]; omega, ?_⟩
        simp [hc, h0]
    · cases h
      have hb : (s.sm p).bytes_per_transfer = 0 := hz.mp trivial
      simp [hc, hb]
    · cases h
      simp [hc, hz]
  | rxdatav b =>
    simp only [i2c_event] at h
    unfold i2c_receive_sm at h
    simp only [System.sm_receive] at h
    cases hc : (s.sm p).current_state <;> simp only [hc] at h hz
    · cases h
      simp [hc, hz]
    · cases h
      simp [hc, hz]
    · have hb : (s.sm p).bytes_per_transfer ≠ 0 := fun hb => by simp [hb] at hz
      have hd := dec32_pos _ (Nat.one_le_iff_ne_zero.mpr hb) h32
      split at h
      · cases h
        rename_i h0
        simp only [System.sm_store, System.sm_setSM, System.sm_setMem]
        refine ⟨by rw [hd]; omega, ?_⟩
        simp [hc, h0]
      · cases h
        rename_i h0
        simp only [System.sm_store, System.sm_setSM, System.sm_setMem]
        have h0' : dec32 (s.sm p).bytes_per_transfer = 0 := by simpa using h0
        rw [h0']
        simp
    · cases h
    · cases h
    · cases h

theorem i2c_event_count_shape (s s1 : System) (p : SM_Ptr) (e : I2C_Event)
    (he : e ≠ I2C_Event.mstop) (h : i2c_event s p e = Outcome.ok s1) :
    ((s1.sm p).bytes_per_transfer = (s.sm p).bytes_per_transfer ∧
      ((s1.sm p).current_state = DEFINED_STATES.rec_data ↔
        (s.sm p).current_state = DEFINED_STATES.rec_data)) ∨
    (((s.sm p).current_state = DEFINED_STATES.init_read ∨
        (s.sm p).current_state = DEFINED_STATES.read_data) ∧
      (s1.sm p).bytes_per_transfer = dec32 (s.sm p).bytes_per_transfer ∧
      ((s1.sm p).current_state = DEFINED_STATES.rec_data ↔
        dec32 (s.sm p).bytes_per_transfer = 0)) := by
  cases e with
  | mstop => exact absurd rfl he
  | ack =>
    simp only [i2c_event] at h
    unfold i2c_ack_sm at h
    cases hc : (s.sm p).current_state <;> simp only [hc] at h
    · left
      split at h
      · cases h
        simp
      · split at h <;> cases h <;> simp [hc]
    · left
      cases h
      simp
    · left
      cases h
      simp [hc]
    · right
      split at h
      · cases h
        rename_i h0
        simp [h0]
      · cases h
        rename_i h0
        simp [hc, h0]
    · left
      cases h
      simp [hc]
    · left
      cases h
      simp [hc]
  | rxdatav b =>
    simp only [i2c_event] at h
    unfold i2c_receive_sm at h
    simp only [System.sm_receive] at h
    cases hc : (s.sm p).current_state <;> simp only [hc] at h
    · left
      cases h
      simp [hc]
    · left
      cases h
      simp [hc]
    · right
      split at h
      · cases h
        rename_i h0
        simp [hc, h0]
      · cases h
        rename_i h0
        have h0' : dec32 (s.sm p).bytes_per_transfer = 0 := by simpa using h0
        simp [h0']
    · cases h
    · cases h
    · cases h

theorem i2c_event_reaches_zero (s s1 : System) (p : SM_Ptr) (e : I2C_Event)
    (he : e ≠ I2C_Event.mstop) (h : i2c_event s p e = Outcome.ok s1)
    (h32 : (s.sm p).bytes_per_transfer < 2 ^ 32)
    (hz : (s.sm p).current_state = DEFINED_STATES.rec_data ↔
      (s.sm p).bytes_per_transfer = 0) :
    (((s1.sm p).bytes_per_transfer = 0 ∧ (s.sm p).bytes_per_transfer ≠ 0) ↔
      (((s.sm p).current_state = DEFINED_STATES.init_read ∨
          (s.sm p).current_state = DEFINED_STATES.read_data) ∧
        (s1.sm p).current_state = DEFINED_STATES.rec_data)) ∧
    ((s1.sm p).bytes_per_transfer = (s.sm p).bytes_per_transfer ∨
      (s1.sm p).bytes_per_transfer + 1 = (s.sm p).bytes_per_transfer) := by
  rcases i2c_event_count_shape s s1 p e he h with ⟨hb, hs⟩ | ⟨hfrom, hb, hs⟩
  · refine ⟨?_, Or.inl hb⟩
    constructor
    · rintro ⟨h1, h2⟩
      rw [hb] at h1
      exact absurd h1 h2
    · rintro ⟨hfrom, h1⟩
      have h2 := hs.mp h1
      rcases hfrom with hf | hf <;> rw [hf] at h2 <;> cases h2
  · have hne : (s.sm p).bytes_per_transfer ≠ 0 := by
      intro h0
      have h1 := hz.mpr h0
      rcases hfrom with hf | hf <;> rw [hf] at h1 <;> cases h1
    have hd := dec32_pos _ (Nat.one_le_iff_ne_zero.mpr hne) h32
    refine ⟨?_, Or.inr (by rw [hb, hd]; omega)⟩
    constructor
    · rintro ⟨h1, _⟩
      exact ⟨hfrom, hs.mpr (by rw [← hb]; exact h1)⟩
    · rintro ⟨_, h1⟩
      exact ⟨by rw [hb]; exact hs.mp h1, hne⟩

theorem i2c_event_direction (s s1 : System) (p : SM_Ptr) (e : I2C_Event)
    (he : e ≠ I2C_Event.mstop) (h : i2c_event s p e = Outcome.ok s1)
    (hr : (s.sm p).current_state = DEFINED_STATES.write_data ∨
      (s.sm p).current_state = DEFINED_STATES.init_read → (s.sm p).rwrite = READ_OP)
    (hw : (s.sm p).current_state = DEFINED_STATES.read_data → (s.sm p).rwrite = WRITE_OP) :
    ((s1.sm p).current_state = DEFINED_STATES.write_data ∨
      (s1.sm p).current_state = DEFINED_STATES.init_read → (s1.sm p).rwrite = READ_OP) ∧
    ((s1.sm p).current_state = DEFINED_STATES.read_data → (s1.sm p).rwrite = WRITE_OP) := by
  cases e with
  | mstop => exact absurd rfl he
  | ack =>
    simp only [i2c_event] at h
    unfold i2c_ack_sm at h
    cases hc : (s.sm p).current_state <;> simp only [hc] at h hr hw
    · split at h
      · cases h
        rename_i h0
        simp [h0]
      · split at h
        · cases h
          rename_i h0 h1
          simp [h1]
        · cases h
          simp [hc]
    · cases h
      simpa using hr
    · cases h
      simpa [hc] using hr
    · split at h
      · cases h
        simp
      · cases h
        simpa [hc] using hw
    · cases h
      simp [hc]
    · cases h
      simp [hc]
  | rxdatav b =>
    simp only [i2c_event] at h
    unfold i2c_receive_sm at h
    simp only [System.sm_receive] at h
    cases hc : (s.sm p).current_state <;> simp only [hc] at h hr hw
    · cases h
      simp [hc]
    · cases h
      simpa [hc] using hr
    · split at h
      · cases h
        simpa [hc] using hr
      · cases h
        simp
    · cases h
    · cases h
    · cases h

theorem i2c_event_leaves (s s1 : System) (p : SM_Ptr) (e : I2C_Event)
    (he : e ≠ I2C_Event.mstop) (h : i2c_event s p e = Outcome.ok s1)
    (hfrom : (s.sm p).current_state = DEFINED_STATES.init_read ∨
      (s.sm p).current_state = DEFINED_STATES.read_data) :
    (s1.sm p).current_state = (s.sm p).current_state ∨
      (s1.sm p).current_state = DEFINED_STATES.rec_data := by
  cases e with
  | mstop => exact absurd rfl he
  | ack =>
    simp only [i2c_event] at h
    unfold i2c_ack_sm at h
    rcases hfrom with hc | hc <;> simp only [hc] at h
    · cases h
      exact Or.inl rfl
    · split at h <;> cases h <;> simp [hc]
  | rxdatav b =>
    simp only [i2c_event] at h
    unfold i2c_receive_sm at h
    simp only [System.sm_receive] at h
    rcases hfrom with hc | hc <;> simp only [hc] at h
    · split at h <;> cases h <;> simp [hc]
    · cases h

theorem i2c_steps_direction (p : SM_Ptr) :
    ∀ (steps : List I2C_Step) (s s1 : System),
      (s.sm p).busy = false → I2C_Step.event p I2C_Event.mstop ∉ steps →
      i2c_steps s steps = Outcome.ok s1 →
      ((s.sm p).current_state = DEFINED_STATES.write_data ∨
        (s.sm p).current_state = DEFINED_STATES.init_read → (s.sm p).rwrite = READ_OP) →
      ((s.sm p).current_state = DEFINED_STATES.read_data → (s.sm p).rwrite = WRITE_OP) →
      ((s1.sm p).current_state = DEFINED_STATES.write_data ∨
        (s1.sm p).current_state = DEFINED_STATES.init_read → (s1.sm p).rwrite = READ_OP) ∧
      ((s1.sm p).current_state = DEFINED_STATES.read_data → (s1.sm p).rwrite = WRITE_OP) := by
  intro steps
  induction steps with
  | nil =>
    intro s s1 _ _ h hr hw
    simp only [i2c_steps, Outcome.ok.injEq] at h
    subst h
    exact ⟨hr, hw⟩
  | cons c cs ih =>
    intro s s1 hb hno h hr hw
    simp only [i2c_steps] at h
    have hno1 : I2C_Step.event p I2C_Event.mstop ∉ cs :=
      fun hm => hno (List.mem_cons_of_mem _ hm)
    cases hrun : c.run s with
    | halt s2 => rw [hrun] at h; cases h
    | spin s2 => rw [hrun] at h; cases h
    | ok s2 =>
      rw [hrun] at h
      simp only [Outcome.bind] at h
      have key : (s2.sm p).busy = false ∧
          ((s2.sm p).current_state = DEFINED_STATES.write_data ∨
            (s2.sm p).current_state = DEFINED_STATES.init_read → (s2.sm p).rwrite = READ_OP) ∧
          ((s2.sm p).current_state = DEFINED_STATES.read_data →
            (s2.sm p).rwrite = WRITE_OP) := by
        cases c with
        | start i2c dev mode data n reg cb =>
          obtain ⟨q, _, hq, _, hoth, _⟩ := i2c_start_ok_sm s s2 i2c dev mode data n reg cb hrun
          have hpq : p ≠ q := by
            intro e
            subst e
            rw [hb] at hq
            cases hq
          rw [hoth p hpq]
          exact ⟨hb, hr, hw⟩
        | event q e =>
          by_cases hpq : p = q
          · subst hpq
            have he : e ≠ I2C_Event.mstop := by
              intro he
              subst he
              exact hno (List.mem_cons_self _ _)
            obtain ⟨h1, h2⟩ := i2c_event_direction s s2 p e he hrun hr hw
            exact ⟨((i2c_event_frame s s2 p p e he hrun).1).trans hb, h1, h2⟩
          · rw [i2c_event_other s s2 q p e hpq hrun]
            exact ⟨hb, hr, hw⟩
      exact ih s2 s1 key.1 hno1 h key.2.1 key.2.2

theorem i2c_steps_bytes (p : SM_Ptr) :
    ∀ (steps : List I2C_Step) (s s1 : System),
      (s.sm p).busy = false → I2C_Step.event p I2C_Event.mstop ∉ steps →
      i2c_steps s steps = Outcome.ok s1 →
      (s.sm p).bytes_per_transfer < 2 ^ 32 →
      ((s.sm p).current_state = DEFINED_STATES.rec_data ↔ (s.sm p).bytes_per_transfer = 0) →
      (s1.sm p).busy = false ∧
      (s1.sm p).bytes_per_transfer ≤ (s.sm p).bytes_per_transfer ∧
      ((s1.sm p).current_state = DEFINED_STATES.rec_data ↔
        (s1.sm p).bytes_per_transfer = 0) := by
  intro steps
  induction steps with
  | nil =>
    intro s s1 hb _ h _ hz
    simp only [i2c_steps, Outcome.ok.injEq] at h
    subst h
    exact ⟨hb, le_refl _, hz⟩
  | cons c cs ih =>
    intro s s1 hb hno h h32 hz
    simp only [i2c_steps] at h
    have hno1 : I2C_Step.event p I2C_Event.mstop ∉ cs :=
      fun hm => hno (List.mem_cons_of_mem _ hm)
    cases hrun : c.run s with
    | halt s2 => rw [hrun] at h; cases h
    | spin s2 => rw [hrun] at h; cases h
    | ok s2 =>
      rw [hrun] at h
      simp only [Outcome.bind] at h
      have key : (s2.sm p).busy = false ∧
          (s2.sm p).bytes_per_transfer ≤ (s.sm p).bytes_per_transfer ∧
          ((s2.sm p).current_state = DEFINED_STATES.rec_data ↔
            (s2.sm p).bytes_per_transfer = 0) := by
        cases c with
        | start i2c dev mode data n reg cb =>
          obtain ⟨q, _, hq, _, hoth, _⟩ := i2c_start_ok_sm s s2 i2c dev mode data n reg cb hrun
          have hpq : p ≠ q := by
            intro e
            subst e
            rw [hb] at hq
            cases hq
          rw [hoth p hpq]
          exact ⟨hb, le_refl _, hz⟩
        | event q e =>
          by_cases hpq : p = q
          · subst hpq
            have he : e ≠ I2C_Event.mstop := by
              intro he
              subst he
              exact hno (List.mem_cons_self _ _)
            obtain ⟨h1, h2⟩ := i2c_event_bytes s s2 p e he hrun h32 hz
            exact ⟨((i2c_event_frame s s2 p p e he hrun).1).trans hb, h1, h2⟩
          · rw [i2c_event_other s s2 q p e hpq hrun]
            exact ⟨hb, le_refl _, hz⟩
      obtain ⟨h1, h2, h3⟩ := ih s2 s1 key.1 hno1 h (lt_of_le_of_lt key.2.1 h32) key.2.2
      exact ⟨h1, le_trans h2 key.2.1, h3⟩

theorem i2c_msstop_sm_bytes (s s1 : System) (p : SM_Ptr)
    (h : i2c_msstop_sm s p = Outcome.ok s1) :
    (s1.sm p).bytes_per_transfer = (s.sm p).bytes_per_transfer := by
  unfold i2c_msstop_sm at h
  by_cases hd : 0 ≤ s.lowest_energy_mode I2C_EM_BLOCK_index - 1
  · cases hc : (s.sm p).current_state <;>
      simp only [hc, sleep_unblock_mode_ok _ _ hd, Outcome.bind] at h <;>
      cases h <;> simp
  · cases hc : (s.sm p).current_state <;>
      simp only [hc, sleep_unblock_mode_halt _ _ hd, Outcome.bind] at h <;>
      cases h

/-- C25: for every transaction started by `i2c_start` with byte count `n`,
`1 <= n < 2^32`, and every run of further steps (events on either bus, starts
on the other bus) before the bus-stop event of the started bus, split at any
point: `bytes_per_transfer` is at most `n` at the split, at the end it is at
most what it was at the split (it only counts down, never wrapping), and it is
0 exactly when the state is `rec_data`; the bus-stop event leaves it
unchanged. The state is `init_read` only in a read and `read_data` only in a
write, and for every further acknowledge or receive event that returns: the
count is the same or one less, it becomes 0 exactly when the state goes from
`init_read` or `read_data` to `rec_data`, and these two states are left for
`rec_data` only. -/
theorem i2c_bytes_per_transfer_counts_down (s s1 s2 s3 : System) (i2c : I2C_Ptr) (p : SM_Ptr)
    (dev mode data n reg cb : Nat) (steps1 steps2 : List I2C_Step)
    (hn1 : 1 ≤ n) (hn32 : n < 2 ^ 32)
    (hbus : i2c_local i2c = some p)
    (hstart : i2c_start s i2c dev mode data n reg cb = Outcome.ok s1)
    (hno1 : I2C_Step.event p I2C_Event.mstop ∉ steps1)
    (hno2 : I2C_Step.event p I2C_Event.mstop ∉ steps2)
    (hrun1 : i2c_steps s1 steps1 = Outcome.ok s2)
    (hrun2 : i2c_steps s2 steps2 = Outcome.ok s3) :
    (s1.sm p).bytes_per_transfer = n ∧
    (s2.sm p).bytes_per_transfer ≤ n ∧
    (s3.sm p).bytes_per_transfer ≤ (s2.sm p).bytes_per_transfer ∧
    ((s2.sm p).current_state = DEFINED_STATES.rec_data ↔ (s2.sm p).bytes_per_transfer = 0) ∧
    ((s3.sm p).current_state = DEFINED_STATES.rec_data ↔ (s3.sm p).bytes_per_transfer = 0) ∧
    (∀ s4, i2c_event s3 p I2C_Event.mstop = Outcome.ok s4 →
      (s4.sm p).bytes_per_transfer = (s3.sm p).bytes_per_transfer) ∧
    (s3.sm p).rwrite = mode ∧
    ((s3.sm p).current_state = DEFINED_STATES.init_read → mode = READ_OP) ∧
    ((s3.sm p).current_state = DEFINED_STATES.read_data → mode = WRITE_OP) ∧
    (∀ e s4, e ≠ I2C_Event.mstop → i2c_event s3 p e = Outcome.ok s4 →
      ((s4.sm p).bytes_per_transfer = (s3.sm p).bytes_per_transfer ∨
        (s4.sm p).bytes_per_transfer + 1 = (s3.sm p).bytes_per_transfer) ∧
      (((s4.sm p).bytes_per_transfer = 0 ∧ (s3.sm p).bytes_per_transfer ≠ 0) ↔
        (((s3.sm p).current_state = DEFINED_STATES.init_read ∨
            (s3.sm p).current_state = DEFINED_STATES.read_data) ∧
          (s4.sm p).current_state = DEFINED_STATES.rec_data)) ∧
      ((s3.sm p).current_state = DEFINED_STATES.init_read ∨
          (s3.sm p).current_state = DEFINED_STATES.read_data →
        (s4.sm p).current_state = (s3.sm p).current_state ∨
          (s4.sm p).current_state = DEFINED_STATES.rec_data)) := by
  obtain ⟨p', hbus', hidle, hstate, hroom⟩ := i2c_start_ok_inv s s1 i2c dev mode data n reg cb hstart
  have hpp : p' = p := by
    rw [hbus] at hbus'
    exact (Option.some.inj hbus').symm
  subst hpp
  rw [i2c_start_ok s i2c p' dev mode data n reg cb hbus hidle hstate hroom] at hstart
  have h1 : (s1.sm p').busy = false ∧ (s1.sm p').bytes_per_transfer = n ∧
      (s1.sm p').current_state = DEFINED_STATES.init_write ∧ (s1.sm p').rwrite = mode := by
    cases hstart
    simp
  have hz1 : (s1.sm p').current_state = DEFINED_STATES.rec_data ↔
      (s1.sm p').bytes_per_transfer = 0 := by
    rw [h1.2.1, h1.2.2.1]
    constructor
    · intro h
      cases h
    · intro h
      omega
  obtain ⟨hb2, hle2, hz2⟩ := i2c_steps_bytes p' steps1 s1 s2 h1.1 hno1 hrun1
    (by rw [h1.2.1]; exact hn32) hz1
  rw [h1.2.1] at hle2
  obtain ⟨_, hle3, hz3⟩ := i2c_steps_bytes p' steps2 s2 s3 hb2 hno2 hrun2
    (lt_of_le_of_lt hle2 hn32) hz2
  have hd2 := i2c_steps_direction p' steps1 s1 s2 h1.1 hno1 hrun1
    (by rw [h1.2.2.1]; intro h; rcases h with h | h <;> cases h)
    (by rw [h1.2.2.1]; intro h; cases h)
  have hd3 := i2c_steps_direction p' steps2 s2 s3 hb2 hno2 hrun2 hd2.1 hd2.2
  have ht2 := (i2c_steps_transaction p' steps1 s1 s2 h1.1 hno1 hrun1).2
  have ht3 := (i2c_steps_transaction p' steps2 s2 s3 hb2 hno2 hrun2).2
  have hrw : (s3.sm p').rwrite = mode := by
    have e3 := congrArg (fun t => t.2.1) ht3
    have e2 := congrArg (fun t => t.2.1) ht2
    simp only [I2C_STATE_MACHINE.transaction] at e3 e2
    rw [e3, e2]
    exact h1.2.2.2
  have h32 : (s3.sm p').bytes_per_transfer < 2 ^ 32 :=
    lt_of_le_of_lt (le_trans hle3 hle2) hn32
  refine ⟨h1.2.1, hle2, hle3, hz2, hz3, fun s4 h4 => i2c_msstop_sm_bytes s3 s4 p' h4, hrw,
    ?_, ?_, ?_⟩
  · intro h
    rw [← hrw]
    exact hd3.1 (Or.inr h)
  · intro h
    rw [← hrw]
    exact hd3.2 h
  · intro e s4 he h4
    obtain ⟨hzero, hstep⟩ := i2c_event_reaches_zero s3 s4 p' e he h4 h32 hz3
    exact ⟨hstep, hzero, i2c_event_leaves s3 s4 p' e he h4⟩

/-- Witness for C25: a two-byte read on I2C1 from the opened system, split
after its three acknowledges; the run ends after the first byte. -/
theorem i2c_bytes_per_transfer_counts_down_witness :
    ((i2c_steps (i2c_steps (i2c_start (System.opened (fun _ => 0)) I2C_Ptr.I2C1 0x55 READ_OP 7
        2 0x13 8).final
      [I2C_Step.event SM_Ptr.i2c1_statemachine_vars I2C_Event.ack,
       I2C_Step.event SM_Ptr.i2c1_statemachine_vars I2C_Event.ack,
       I2C_Step.event SM_Ptr.i2c1_statemachine_vars I2C_Event.ack]).final
      [I2C_Step.event SM_Ptr.i2c1_statemachine_vars (I2C_Event.rxdatav 0x12)]).final.sm
        SM_Ptr.i2c1_statemachine_vars).bytes_per_transfer
      ≤ ((i2c_steps (i2c_start (System.opened (fun _ => 0)) I2C_Ptr.I2C1 0x55 READ_OP 7
        2 0x13 8).final
      [I2C_Step.event SM_Ptr.i2c1_statemachine_vars I2C_Event.ack,
       I2C_Step.event SM_Ptr.i2c1_statemachine_vars I2C_Event.ack,
       I2C_Step.event SM_Ptr.i2c1_statemachine_vars I2C_Event.ack]).final.sm
        SM_Ptr.i2c1_statemachine_vars).bytes_per_transfer :=
  (i2c_bytes_per_transfer_counts_down (System.opened (fun _ => 0))
    (i2c_start (System.opened (fun _ => 0)) I2C_Ptr.I2C1 0x55 READ_OP 7 2 0x13 8).final
    (i2c_steps (i2c_start (System.opened (fun _ => 0)) I2C_Ptr.I2C1 0x55 READ_OP 7
        2 0x13 8).final
      [I2C_Step.event SM_Ptr.i2c1_statemachine_vars I2C_Event.ack,
       I2C_Step.event SM_Ptr.i2c1_statemachine_vars I2C_Event.ack,
       I2C_Step.event SM_Ptr.i2c1_statemachine_vars I2C_Event.ack]).final
    (i2c_steps (i2c_steps (i2c_start (System.opened (fun _ => 0)) I2C_Ptr.I2C1 0x55 READ_OP 7
        2 0x13 8).final
      [I2C_Step.event SM_Ptr.i2c1_statemachine_vars I2C_Event.ack,
       I2C_Step.event SM_Ptr.i2c1_statemachine_vars I2C_Event.ack,
       I2C_Step.event SM_Ptr.i2c1_statemachine_vars I2C_Event.ack]).final
      [I2C_Step.event SM_Ptr.i2c1_statemachine_vars (I2C_Event.rxdatav 0x12)]).final
    I2C_Ptr.I2C1 SM_Ptr.i2c1_statemachine_vars 0x55 READ_OP 7 2 0x13 8
    [I2C_Step.event SM_Ptr.i2c1_statemachine_vars I2C_Event.ack,
     I2C_Step.event SM_Ptr.i2c1_statemachine_vars I2C_Event.ack,
     I2C_Step.event SM_Ptr.i2c1_statemachine_vars I2C_Event.ack]
    [I2C_Step.event SM_Ptr.i2c1_statemachine_vars (I2C_Event.rxdatav 0x12)]
    (by decide) (by decide) rfl rfl (by decide) (by decide) rfl rfl).2.2.1

/-! ## Transactions: the data word -/

theorem not32_lt (x : Nat) : not32 x < 2 ^ 32 := by
  unfold not32 u32
  exact Nat.xor_lt_two_pow (by decide) (Nat.mod_lt _ (by decide))

theorem shl32_lt (x n : Nat) : shl32 x n < 2 ^ 32 := by
  unfold shl32 u32
  exact Nat.mod_lt _ (by decide)

theorem byte_store_lt (w x y n : Nat) : (w &&& not32 x) ||| shl32 y n < 2 ^ 32 :=
  Nat.or_lt_two_pow (lt_of_le_of_lt Nat.and_le_right (not32_lt x)) (shl32_lt y n)

theorem byte_store_high (w k b i : Nat) (hb : b < 256) (hi : 8 * k + 8 ≤ i)
    (hw : w < 2 ^ 32) :
    ((w &&& not32 (shl32 0xff (8 * k))) ||| shl32 b (8 * k)).testBit i = w.testBit i := by
  have e2 : (0xff : Nat) = 2 ^ 8 - 1 := rfl
  simp only [not32, shl32, u32, e2, Nat.testBit_or, Nat.testBit_and,
    Nat.testBit_xor, Nat.testBit_mod_two_pow, Nat.testBit_two_pow_sub_one,
    Nat.testBit_shiftLeft]
  have h4 : ¬ (i - 8 * k < 8) := by omega
  have hbi : b.testBit (i - 8 * k) = false := by
    apply Nat.testBit_lt_two_pow
    calc b < 2 ^ 8 := hb
      _ ≤ 2 ^ (i - 8 * k) := Nat.pow_le_pow_right (by decide) (by omega)
  by_cases h32 : i < 32
  · simp [h32, h4, hbi]
  · have hwi : w.testBit i = false := testBit_u32_word w i hw (by omega)
    simp [h32, hwi]

theorem i2c_event_mem (s s1 : System) (p : SM_Ptr) (e : I2C_Event) (n : Nat)
    (he : e ≠ I2C_Event.mstop) (h : i2c_event s p e = Outcome.ok s1)
    (hbyte : ∀ b, e = I2C_Event.rxdatav b → b < 256)
    (hle : (s.sm p).bytes_per_transfer ≤ n) (hn : n ≤ 4)
    (hz : (s.sm p).current_state = DEFINED_STATES.rec_data ↔
      (s.sm p).bytes_per_transfer = 0)
    (hw : s.mem (s.sm p).data < 2 ^ 32) :
    (∀ a, a ≠ (s.sm p).data → s1.mem a = s.mem a) ∧
    s1.mem (s.sm p).data < 2 ^ 32 ∧
    (∀ i, 8 * n ≤ i →
      (s1.mem (s.sm p).data).testBit i = (s.mem (s.sm p).data).testBit i) := by
  cases e with
  | mstop => exact absurd rfl he
  | ack =>
    have hm : s1.mem = s.mem := by
      simp only [i2c_event] at h
      unfold i2c_ack_sm at h
      cases hc : (s.sm p).current_state <;> simp only [hc] at h
      · split at h
        · cases h; simp
        · split at h <;> cases h <;> simp
      · cases h; simp
      · cases h; rfl
      · split at h <;> cases h <;> simp
      · cases h; rfl
      · cases h; rfl
    rw [hm]
    exact ⟨fun _ _ => rfl, hw, fun _ _ => rfl⟩
  | rxdatav b =>
    have hb := hbyte b rfl
    simp only [i2c_event] at h
    unfold i2c_receive_sm at h
    simp only [System.sm_receive] at h
    cases hc : (s.sm p).current_state <;> simp only [hc] at h hz
    · cases h
      exact ⟨fun _ _ => by simp, by simpa using hw, fun _ _ => by simp⟩
    · cases h
      exact ⟨fun _ _ => by simp, by simpa using hw, fun _ _ => by simp⟩
    · have hne : (s.sm p).bytes_per_transfer ≠ 0 := fun hb0 => by simp [hb0] at hz
      have h32 : (s.sm p).bytes_per_transfer < 2 ^ 32 := by
        have : (4 : Nat) < 2 ^ 32 := by decide
        omega
      have hd := dec32_pos _ (Nat.one_le_iff_ne_zero.mpr hne) h32
      have hu : u32 (8 * ((s.sm p).bytes_per_transfer - 1))
          = 8 * ((s.sm p).bytes_per_transfer - 1) := by
        apply u32_of_lt
        have : (24 : Nat) < 2 ^ 32 := by decide
        omega
      have key : s1.mem = fun a => if a = (s.sm p).data then
          ((s.mem (s.sm p).data &&& not32 (shl32 0xff (8 * ((s.sm p).bytes_per_transfer - 1))))
            ||| shl32 b (8 * ((s.sm p).bytes_per_transfer - 1))) else s.mem a := by
        split at h <;> cases h <;> funext a <;> by_cases ha : a = (s.sm p).data <;>
          simp [ha, hd, hu, System.mem_setMem_other]
      rw [key]
      refine ⟨fun a ha => by simp [ha], by simp only [if_true]; exact byte_store_lt _ _ _ _, ?_⟩
      intro i hi
      simp only [if_true]
      exact byte_store_high _ _ _ _ hb (by omega) hw
    · cases h
    · cases h
    · cases h

theorem i2c_events_word (p : SM_Ptr) (n d : Nat) (hn : n ≤ 4) :
    ∀ (es : List I2C_Event) (s s1 : System),
      (∀ e ∈ es, e ≠ I2C_Event.mstop) →
      (∀ b, I2C_Event.rxdatav b ∈ es → b < 256) →
      i2c_events s p es = Outcome.ok s1 →
      (s.sm p).data = d →
      (s.sm p).bytes_per_transfer ≤ n →
      ((s.sm p).current_state = DEFINED_STATES.rec_data ↔ (s.sm p).bytes_per_transfer = 0) →
      s.mem d < 2 ^ 32 →
      (∀ a, a ≠ d → s1.mem a = s.mem a) ∧
      (∀ i, 8 * n ≤ i → (s1.mem d).testBit i = (s.mem d).testBit i) := by
  intro es
  induction es with
  | nil =>
    intro s s1 _ _ h _ _ _ _
    simp only [i2c_events, Outcome.ok.injEq] at h
    subst h
    exact ⟨fun _ _ => rfl, fun _ _ => rfl⟩
  | cons e es ih =>
    intro s s1 hne hb h hd hle hz hw
    simp only [i2c_events] at h
    cases hev : i2c_event s p e with
    | halt s2 => rw [hev] at h; cases h
    | spin s2 => rw [hev] at h; cases h
    | ok s2 =>
      rw [hev] at h
      simp only [Outcome.bind] at h
      have he := hne e (List.mem_cons_self _ _)
      have h32 : (s.sm p).bytes_per_transfer < 2 ^ 32 := by
        have : (4 : Nat) < 2 ^ 32 := by decide
        omega
      obtain ⟨hl2, hz2⟩ := i2c_event_bytes s s2 p e he hev h32 hz
      have ht := i2c_event_transaction s p p e
      rw [hev] at ht
      have hd2 : (s2.sm p).data = d := by
        have : (s2.sm p).data = (s.sm p).data := by
          simpa [I2C_STATE_MACHINE.transaction, Outcome.final] using
            congrArg (fun t => t.2.2.2.2.1) ht
        rw [this, hd]
      obtain ⟨hm1, hm2, hm3⟩ := i2c_event_mem s s2 p e n he hev
        (fun b hbe => hb b (by rw [← hbe]; exact List.mem_cons_self _ _)) hle hn hz
        (by rw [hd]; exact hw)
      rw [hd] at hm1 hm2 hm3
      obtain ⟨r1, r2⟩ := ih s2 s1 (fun e1 h1 => hne e1 (List.mem_cons_of_mem _ h1))
        (fun b hbe => hb b (List.mem_cons_of_mem _ hbe)) h hd2 (le_trans hl2 hle) hz2 hm2
      exact ⟨fun a ha => (r1 a ha).trans (hm1 a ha), fun i hi => (r2 i hi).trans (hm3 i hi)⟩

theorem i2c_event_write_mem (s s1 : System) (p : SM_Ptr) (e : I2C_Event)
    (he : e ≠ I2C_Event.mstop) (h : i2c_event s p e = Outcome.ok s1)
    (hw : (s.sm p).rwrite = WRITE_OP)
    (hst : (s.sm p).current_state = DEFINED_STATES.init_write ∨
      (s.sm p).current_state = DEFINED_STATES.read_data ∨
      (s.sm p).current_state = DEFINED_STATES.rec_data) :
    s1.mem = s.mem ∧ (s1.sm p).rwrite = WRITE_OP ∧
    ((s1.sm p).current_state = DEFINED_STATES.init_write ∨
      (s1.sm p).current_state = DEFINED_STATES.read_data ∨
      (s1.sm p).current_state = DEFINED_STATES.rec_data) := by
  have hnr : ¬ (s.sm p).rwrite = READ_OP := by
    rw [hw]
    decide
  cases e with
  | mstop => exact absurd rfl he
  | ack =>
    simp only [i2c_event] at h
    unfold i2c_ack_sm at h
    rcases hst with hc | hc | hc <;> simp only [hc] at h
    · rw [if_neg hnr, if_pos hw] at h
      cases h
      simp [hw]
    · split at h <;> cases h <;> simp [hw]
    · cases h
      simp [hw, hc]
  | rxdatav b =>
    simp only [i2c_event] at h
    unfold i2c_receive_sm at h
    simp only [System.sm_receive] at h
    rcases hst with hc | hc | hc <;> simp only [hc] at h
    · cases h
      simp [hw, hc]
    · cases h
    · cases h

theorem i2c_events_write_mem (p : SM_Ptr) :
    ∀ (es : List I2C_Event) (s s1 : System),
      (∀ e ∈ es, e ≠ I2C_Event.mstop) →
      i2c_events s p es = Outcome.ok s1 →
      (s.sm p).rwrite = WRITE_OP →
      ((s.sm p).current_state = DEFINED_STATES.init_write ∨
        (s.sm p).current_state = DEFINED_STATES.read_data ∨
        (s.sm p).current_state = DEFINED_STATES.rec_data) →
      s1.mem = s.mem := by
  intro es
  induction es with
  | nil =>
    intro s s1 _ h _ _
    simp only [i2c_events, Outcome.ok.injEq] at h
    rw [h]
  | cons e es ih =>
    intro s s1 hne h hw hst
    simp only [i2c_events] at h
    cases hev : i2c_event s p e with
    | halt s2 => rw [hev] at h; cases h
    | spin s2 => rw [hev] at h; cases h
    | ok s2 =>
      rw [hev] at h
      simp only [Outcome.bind] at h
      obtain ⟨hm, hw2, hst2⟩ := i2c_event_write_mem s s2 p e
        (hne e (List.mem_cons_self _ _)) hev hw hst
      rw [ih s2 s1 (fun e1 h1 => hne e1 (List.mem_cons_of_mem _ h1)) h hw2 hst2, hm]

theorem i2c_msstop_sm_mem (s s1 : System) (p : SM_Ptr)
    (h : i2c_msstop_sm s p = Outcome.ok s1) : s1.mem = s.mem := by
  unfold i2c_msstop_sm at h
  by_cases hd : 0 ≤ s.lowest_energy_mode I2C_EM_BLOCK_index - 1
  · cases hc : (s.sm p).current_state <;>
      simp only [hc, sleep_unblock_mode_ok _ _ hd, Outcome.bind] at h <;>
      cases h <;> simp
  · cases hc : (s.sm p).current_state <;>
      simp only [hc, sleep_unblock_mode_halt _ _ hd, Outcome.bind] at h <;>
      cases h

/-- C29: for a transaction started by `i2c_start` on a 32-bit data word and
every run of acknowledge and receive-data-valid events (received bytes below
256) handled for its bus before the bus-stop event: with byte count `n`,
`1 <= n <= 4`, the bits at positions `>= 8 * n` of the data word are what they
were before `i2c_start`, and no other word is changed; in a write-direction
transaction, of any byte count, the memory is unchanged; the bus-stop event
that completes the transaction changes no word either. -/
theorem i2c_data_word_frame (s s1 s2 : System) (i2c : I2C_Ptr) (p : SM_Ptr)
    (dev mode data n reg cb : Nat) (es : List I2C_Event)
    (hbus : i2c_local i2c = some p)
    (hstart : i2c_start s i2c dev mode data n reg cb = Outcome.ok s1)
    (hne : ∀ e ∈ es, e ≠ I2C_Event.mstop)
    (hbytes : ∀ b, I2C_Event.rxdatav b ∈ es → b < 256)
    (hword : s.mem data < 2 ^ 32)
    (hrun : i2c_events s1 p es = Outcome.ok s2) :
    (1 ≤ n → n ≤ 4 →
      (∀ i, 8 * n ≤ i → (s2.mem data).testBit i = (s.mem data).testBit i) ∧
      (∀ a, a ≠ data → s2.mem a = s.mem a)) ∧
    (mode = WRITE_OP → s2.mem = s.mem) ∧
    (∀ s3, i2c_event s2 p I2C_Event.mstop = Outcome.ok s3 → s3.mem = s2.mem) := by
  obtain ⟨p', hbus', hidle, hstate, hroom⟩ := i2c_start_ok_inv s s1 i2c dev mode data n reg cb hstart
  have hpp : p' = p := by
    rw [hbus] at hbus'
    exact (Option.some.inj hbus').symm
  subst hpp
  rw [i2c_start_ok s i2c p' dev mode data n reg cb hbus hidle hstate hroom] at hstart
  have h1 : (s1.sm p').data = data ∧ (s1.sm p').bytes_per_transfer = n ∧
      (s1.sm p').current_state = DEFINED_STATES.init_write ∧ (s1.sm p').rwrite = mode ∧
      s1.mem = s.mem := by
    cases hstart
    simp
  refine ⟨fun hn1 hn4 => ?_, fun hmode => ?_, fun s3 h3 => i2c_msstop_sm_mem s2 s3 p' h3⟩
  · have hz1 : (s1.sm p').current_state = DEFINED_STATES.rec_data ↔
        (s1.sm p').bytes_per_transfer = 0 := by
      rw [h1.2.1, h1.2.2.1]
      constructor
      · intro h
        cases h
      · intro h
        omega
    obtain ⟨r1, r2⟩ := i2c_events_word p' n data hn4 es s1 s2 hne hbytes hrun h1.1
      (by rw [h1.2.1]) hz1 (by rw [h1.2.2.2.2]; exact hword)
    rw [h1.2.2.2.2] at r1 r2
    exact ⟨r2, r1⟩
  · rw [i2c_events_write_mem p' es s1 s2 hne hrun (by rw [h1.2.2.2.1, hmode])
      (Or.inl h1.2.2.1), h1.2.2.2.2]

/-- Witness for C29: a two-byte read on I2C1 into the word at address 7, which
holds 0xAABBCCDD before the transaction; bit 16 is kept. -/
theorem i2c_data_word_frame_witness :
    ((i2c_events (i2c_start ((System.opened (fun _ => 0)).setMem 7 0xAABBCCDD) I2C_Ptr.I2C1 0x55
        READ_OP 7 2 0x13 8).final SM_Ptr.i2c1_statemachine_vars
      [I2C_Event.ack, I2C_Event.ack, I2C_Event.ack, I2C_Event.rxdatav 0x12,
       I2C_Event.rxdatav 0x34]).final.mem 7).testBit 16
      = (((System.opened (fun _ => 0)).setMem 7 0xAABBCCDD).mem 7).testBit 16 :=
  ((i2c_data_word_frame ((System.opened (fun _ => 0)).setMem 7 0xAABBCCDD)
    (i2c_start ((System.opened (fun _ => 0)).setMem 7 0xAABBCCDD) I2C_Ptr.I2C1 0x55
        READ_OP 7 2 0x13 8).final
    (i2c_events (i2c_start ((System.opened (fun _ => 0)).setMem 7 0xAABBCCDD) I2C_Ptr.I2C1 0x55
        READ_OP 7 2 0x13 8).final SM_Ptr.i2c1_statemachine_vars
      [I2C_Event.ack, I2C_Event.ack, I2C_Event.ack, I2C_Event.rxdatav 0x12,
       I2C_Event.rxdatav 0x34]).final
    I2C_Ptr.I2C1 SM_Ptr.i2c1_statemachine_vars 0x55 READ_OP 7 2 0x13 8
    [I2C_Event.ack, I2C_Event.ack, I2C_Event.ack, I2C_Event.rxdatav 0x12,
     I2C_Event.rxdatav 0x34]
    rfl rfl (by decide)
    (fun b hb => by
      simp at hb
      rcases hb with rfl | rfl <;> decide)
    (by decide) rfl).1 (by decide) (by decide)).1 16
    (by decide)

/-! ## Interrupt entry points -/

theorem Outcome.bind_id_ok {σ : Type} (o : Outcome σ) :
    Outcome.bind id o (fun s => Outcome.ok s) = o := by
  cases o <;> rfl

theorem Outcome.ok_bind {σ τ : Type} (emb : σ → τ) (s : σ) (f : σ → Outcome τ) :
    Outcome.bind emb (Outcome.ok s) f = f s := rfl

theorem i2c_irq_eq_handlers (s0 : System) (p : SM_Ptr) (F : Nat) :
    Outcome.bind id
      (if F &&& I2C_IF_ACK ≠ 0 then i2c_ack_sm s0 p else Outcome.ok s0)
      (fun s1 =>
        Outcome.bind id
          (if F &&& I2C_IF_RXDATAV ≠ 0 then i2c_receive_sm s1 p else Outcome.ok s1)
          fun s2 => if F &&& I2C_IF_MSTOP ≠ 0 then i2c_msstop_sm s2 p else Outcome.ok s2)
      = i2c_handlers s0 p (dispatched_handlers F) := by
  unfold dispatched_handlers
  by_cases ha : F &&& I2C_IF_ACK ≠ 0 <;> by_cases hr : F &&& I2C_IF_RXDATAV ≠ 0 <;>
    by_cases hm : F &&& I2C_IF_MSTOP ≠ 0 <;>
    simp only [if_pos ha, if_neg ha, if_pos hr, if_neg hr, if_pos hm, if_neg hm,
      List.cons_append, List.nil_append, List.append_nil, i2c_handlers, I2C_Handler.run,
      Outcome.bind_id_ok, Outcome.ok_bind]

theorem I2C_Handler.run_other (s : System) (p q : SM_Ptr) (hq : q ≠ p) (h : I2C_Handler) :
    (h.run s p).final.sm q = s.sm q := by
  cases h with
  | ack =>
    simp only [I2C_Handler.run]
    unfold i2c_ack_sm
    cases hc : (s.sm p).current_state <;> simp only [hc]
    · split
      · simp [Outcome.final, System.sm_setSM_ite, hq]
      · split <;> simp [Outcome.final, System.sm_setSM_ite, hq]
    · simp [Outcome.final, System.sm_setSM_ite, hq]
    · rfl
    · split <;> simp [Outcome.final, System.sm_setSM_ite, hq]
    · rfl
    · rfl
  | receive =>
    simp only [I2C_Handler.run]
    unfold i2c_receive_sm
    cases hc : (s.sm p).current_state <;> simp only [hc]
    · rfl
    · rfl
    · split <;> simp [Outcome.final, System.sm_setSM_ite, hq]
    · rfl
    · rfl
    · rfl
  | msstop =>
    simp only [I2C_Handler.run]
    unfold i2c_msstop_sm
    by_cases hd : 0 ≤ s.lowest_energy_mode I2C_EM_BLOCK_index - 1
    · cases hc : (s.sm p).current_state <;>
        simp [hc, sleep_unblock_mode_ok _ _ hd, Outcome.bind, Outcome.final,
          System.sm_setSM_ite, hq]
    · cases hc : (s.sm p).current_state <;>
        simp [hc, sleep_unblock_mode_halt _ _ hd, Outcome.bind, Outcome.final]

theorem i2c_handlers_other (p q : SM_Ptr) (hq : q ≠ p) :
    ∀ (hs : List I2C_Handler) (s : System), (i2c_handlers s p hs).final.sm q = s.sm q := by
  intro hs
  induction hs with
  | nil => intro s; rfl
  | cons h hs ih =>
    intro s
    simp only [i2c_handlers]
    have h1 := I2C_Handler.run_other s p q hq h
    cases hr : h.run s p with
    | ok s1 =>
      rw [hr] at h1
      simp only [Outcome.bind]
      rw [ih s1]
      exact h1
    | halt s1 =>
      rw [hr] at h1
      exact h1
    | spin s1 =>
      rw [hr] at h1
      exact h1

theorem dispatched_handlers_spec (F : Nat) :
    (I2C_Handler.ack ∈ dispatched_handlers F ↔ F &&& I2C_IF_ACK ≠ 0) ∧
    (I2C_Handler.receive ∈ dispatched_handlers F ↔ F &&& I2C_IF_RXDATAV ≠ 0) ∧
    (I2C_Handler.msstop ∈ dispatched_handlers F ↔ F &&& I2C_IF_MSTOP ≠ 0) ∧
    List.Sublist (dispatched_handlers F)
      [I2C_Handler.ack, I2C_Handler.receive, I2C_Handler.msstop] := by
  unfold dispatched_handlers
  by_cases ha : F &&& I2C_IF_ACK ≠ 0 <;> by_cases hr : F &&& I2C_IF_RXDATAV ≠ 0 <;>
    by_cases hm : F &&& I2C_IF_MSTOP ≠ 0 <;>
    simp only [if_pos ha, if_neg ha, if_pos hr, if_neg hr, if_pos hm, if_neg hm,
      List.cons_append, List.nil_append, List.append_nil] <;>
    refine ⟨?_, ?_, ?_, ?_⟩ <;> simp [ha, hr, hm]

theorem i2c_irq_flag_kept (IF IEN i : Nat) (hi : i < 32) (hp : IF.testBit i = true)
    (hd : IEN.testBit i = false) :
    (IF &&& IEN).testBit i = false ∧ (IF &&& not32 (IF &&& IEN)).testBit i = true := by
  constructor
  · rw [Nat.testBit_and, hp, hd]
    rfl
  · rw [Nat.testBit_and, testBit_not32, Nat.testBit_and, hp, hd]
    simp [hi]

/-- C24: each I2C interrupt entry point computes `F = IF & IEN` of its own
controller, stores `F` to `IFC` (which clears in `IF` exactly the bits of `F`),
and then behaves as the handler calls dispatched for `F` run in order on the
instance of its own bus, each on the state the previous one produced (a failed
assertion stops the run): the acknowledge handler is among them iff the ACK bit
is in `F`, the receive-data-valid handler iff the RXDATAV bit is in `F`, the
bus-stop handler iff the MSTOP bit is in `F`, in that order. A flag bit that is
pending but not enabled is not in `F` and is still pending after the store.
`I2C0_IRQHandler` leaves the instance of I2C1 unchanged and `I2C1_IRQHandler`
that of I2C0, whatever the outcome. -/
theorem i2c_irq_dispatch (s : System) :
    I2C0_IRQHandler s
      = i2c_handlers (s.store I2C_Ptr.I2C0
          (I2C_Write.IFC ((s.i2c I2C_Ptr.I2C0).IF &&& (s.i2c I2C_Ptr.I2C0).IEN)))
        SM_Ptr.i2c0_statemachine_vars
        (dispatched_handlers ((s.i2c I2C_Ptr.I2C0).IF &&& (s.i2c I2C_Ptr.I2C0).IEN)) ∧
    I2C1_IRQHandler s
      = i2c_handlers (s.store I2C_Ptr.I2C1
          (I2C_Write.IFC ((s.i2c I2C_Ptr.I2C1).IF &&& (s.i2c I2C_Ptr.I2C1).IEN)))
        SM_Ptr.i2c1_statemachine_vars
        (dispatched_handlers ((s.i2c I2C_Ptr.I2C1).IF &&& (s.i2c I2C_Ptr.I2C1).IEN)) ∧
    (∀ F, (I2C_Handler.ack ∈ dispatched_handlers F ↔ F &&& I2C_IF_ACK ≠ 0) ∧
      (I2C_Handler.receive ∈ dispatched_handlers F ↔ F &&& I2C_IF_RXDATAV ≠ 0) ∧
      (I2C_Handler.msstop ∈ dispatched_handlers F ↔ F &&& I2C_IF_MSTOP ≠ 0) ∧
      List.Sublist (dispatched_handlers F)
        [I2C_Handler.ack, I2C_Handler.receive, I2C_Handler.msstop]) ∧
    (∀ c, c = I2C_Ptr.I2C0 ∨ c = I2C_Ptr.I2C1 →
      ((s.store c (I2C_Write.IFC ((s.i2c c).IF &&& (s.i2c c).IEN))).i2c c).IF
        = (s.i2c c).IF &&& not32 ((s.i2c c).IF &&& (s.i2c c).IEN) ∧
      ((s.store c (I2C_Write.IFC ((s.i2c c).IF &&& (s.i2c c).IEN))).i2c c).writes
        = (s.i2c c).writes ++ [I2C_Write.IFC ((s.i2c c).IF &&& (s.i2c c).IEN)] ∧
      ∀ i, i < 32 → (s.i2c c).IF.testBit i = true → (s.i2c c).IEN.testBit i = false →
        ((s.i2c c).IF &&& (s.i2c c).IEN).testBit i = false ∧
        ((s.store c (I2C_Write.IFC ((s.i2c c).IF &&& (s.i2c c).IEN))).i2c c).IF.testBit i
          = true) ∧
    (I2C0_IRQHandler s).final.sm SM_Ptr.i2c1_statemachine_vars
      = s.sm SM_Ptr.i2c1_statemachine_vars ∧
    (I2C1_IRQHandler s).final.sm SM_Ptr.i2c0_statemachine_vars
      = s.sm SM_Ptr.i2c0_statemachine_vars := by
  have e0 : I2C0_IRQHandler s
      = i2c_handlers (s.store I2C_Ptr.I2C0
          (I2C_Write.IFC ((s.i2c I2C_Ptr.I2C0).IF &&& (s.i2c I2C_Ptr.I2C0).IEN)))
        SM_Ptr.i2c0_statemachine_vars
        (dispatched_handlers ((s.i2c I2C_Ptr.I2C0).IF &&& (s.i2c I2C_Ptr.I2C0).IEN)) := by
    unfold I2C0_IRQHandler
    exact i2c_irq_eq_handlers _ _ _
  have e1 : I2C1_IRQHandler s
      = i2c_handlers (s.store I2C_Ptr.I2C1
          (I2C_Write.IFC ((s.i2c I2C_Ptr.I2C1).IF &&& (s.i2c I2C_Ptr.I2C1).IEN)))
        SM_Ptr.i2c1_statemachine_vars
        (dispatched_handlers ((s.i2c I2C_Ptr.I2C1).IF &&& (s.i2c I2C_Ptr.I2C1).IEN)) := by
    unfold I2C1_IRQHandler
    exact i2c_irq_eq_handlers _ _ _
  refine ⟨e0, e1, dispatched_handlers_spec, ?_, ?_, ?_⟩
  · intro c _
    have hIF : ((s.store c (I2C_Write.IFC ((s.i2c c).IF &&& (s.i2c c).IEN))).i2c c).IF
        = (s.i2c c).IF &&& not32 ((s.i2c c).IF &&& (s.i2c c).IEN) := by
      simp [System.store, I2C_TypeDef.store]
    refine ⟨hIF, by simp [System.store, I2C_TypeDef.store], ?_⟩
    intro i hi hp hd
    rw [hIF]
    exact i2c_irq_flag_kept _ _ i hi hp hd
  · rw [e0, i2c_handlers_other _ _ (by decide)]
    simp
  · rw [e1, i2c_handlers_other _ _ (by decide)]
    simp

/-! ## Bus reset -/

theorem System.store_eq_setReg (s : System) (p : I2C_Ptr) (w : I2C_Write) :
    s.store p w = s.setReg p ((s.i2c p).store w) := by
  unfold System.store System.setReg
  congr 1
  funext q
  by_cases hq : q = p
  · subst hq
    simp
  · simp [hq]

theorem System.setReg_i2c_same (s : System) (p : I2C_Ptr) (r : I2C_TypeDef) :
    (s.setReg p r).i2c p = r := by
  simp [System.setReg]

theorem System.setReg_setReg (s : System) (p : I2C_Ptr) (r r1 : I2C_TypeDef) :
    (s.setReg p r).setReg p r1 = s.setReg p r1 := by
  unfold System.setReg
  congr 1
  funext q
  by_cases hq : q = p <;> simp [hq]

theorem System.raise_setReg (s : System) (p : I2C_Ptr) (r : I2C_TypeDef) (f : Nat) :
    (s.setReg p r).raise p f = s.setReg p { r with IF := r.IF ||| f } := by
  unfold System.raise System.setReg
  congr 1
  funext q
  by_cases hq : q = p <;> simp [hq]

theorem I2C_TypeDef.store_log (r : I2C_TypeDef) (w : I2C_Write) :
    (r.store w).writes = r.writes ++ [w] := by
  cases w <;> rfl

theorem i2c_mstop_raised (x raised : Nat) (h : raised &&& I2C_IF_MSTOP ≠ 0) :
    (x ||| raised) &&& I2C_IF_MSTOP ≠ 0 := by
  intro h0
  apply h
  apply Nat.eq_of_testBit_eq
  intro i
  have hi := congrArg (fun v => v.testBit i) h0
  simp only [Nat.testBit_and, Nat.testBit_or, Nat.zero_testBit] at hi ⊢
  cases hr : raised.testBit i <;> cases hm : I2C_IF_MSTOP.testBit i <;> simp [hr, hm] at hi ⊢

theorem i2c_mstop_cleared (x raised : Nat) (h : raised &&& I2C_IF_MSTOP = 0) :
    ((x &&& not32 x) ||| raised) &&& I2C_IF_MSTOP = 0 := by
  apply Nat.eq_of_testBit_eq
  intro i
  have hi := congrArg (fun v => v.testBit i) h
  simp only [Nat.testBit_and, Nat.testBit_or, Nat.zero_testBit, testBit_not32] at hi ⊢
  cases hx : x.testBit i <;> cases hr : raised.testBit i <;>
    cases hm : I2C_IF_MSTOP.testBit i <;> simp [hx, hr, hm] at hi ⊢

theorem i2c_bus_reset_eq (s : System) (i2c : I2C_Ptr) (raised : Nat) :
    i2c_bus_reset s i2c raised =
      if (((s.i2c i2c).IF &&& not32 (s.i2c i2c).IF) ||| raised) &&& I2C_IF_MSTOP = 0 then
        Outcome.spin (s.setReg i2c
          { s.i2c i2c with
            IF := ((s.i2c i2c).IF &&& not32 (s.i2c i2c).IF) ||| raised,
            IEN := u32 0,
            writes := (s.i2c i2c).writes ++
              [I2C_Write.CMD I2C_CMD_ABORT, I2C_Write.IEN 0, I2C_Write.IFC (s.i2c i2c).IF,
               I2C_Write.CMD I2C_CMD_CLEARTX,
               I2C_Write.CMD (I2C_CMD_START ||| I2C_CMD_STOP)] })
      else
        Outcome.ok (s.setReg i2c
          { s.i2c i2c with
            IF := (((s.i2c i2c).IF &&& not32 (s.i2c i2c).IF) ||| raised) &&&
              not32 (((s.i2c i2c).IF &&& not32 (s.i2c i2c).IF) ||| raised),
            IEN := u32 (s.i2c i2c).IEN,
            writes := (s.i2c i2c).writes ++
              [I2C_Write.CMD I2C_CMD_ABORT, I2C_Write.IEN 0, I2C_Write.IFC (s.i2c i2c).IF,
               I2C_Write.CMD I2C_CMD_CLEARTX, I2C_Write.CMD (I2C_CMD_START ||| I2C_CMD_STOP),
               I2C_Write.IFC (((s.i2c i2c).IF &&& not32 (s.i2c i2c).IF) ||| raised),
               I2C_Write.CMD I2C_CMD_ABORT, I2C_Write.IEN (s.i2c i2c).IEN] }) := by
  unfold i2c_bus_reset
  simp only [System.store_eq_setReg, System.setReg_i2c_same, System.setReg_setReg,
    System.raise_setReg, I2C_TypeDef.store, List.append_assoc, List.singleton_append,
    List.cons_append, List.nil_append]

/-- C28: for every controller with a 32-bit interrupt-enable mask: when the
controller raises MSTOP while the procedure waits, `i2c_bus_reset` returns and
its stores to the controller are, in this order, CMD=ABORT, IEN=0, IFC=IF,
CMD=CLEARTX, CMD=START|STOP, (wait), IFC=IF, CMD=ABORT, IEN=saved, where the
saved value is the mask before the procedure; `IEN` after the procedure equals
`IEN` before it, and no state machine, counter, data word or scheduled event
is changed. The only stores to `IEN` are the 0 after the save and the restore
at the end, so all interrupts are disabled in between; when MSTOP is not
raised the procedure stays in its wait loop with `IEN` equal to 0. -/
theorem i2c_bus_reset_sequence (s : System) (i2c : I2C_Ptr) (raised : Nat)
    (hien : (s.i2c i2c).IEN < 2 ^ 32) :
    (raised &&& I2C_IF_MSTOP ≠ 0 →
      ∃ s1, i2c_bus_reset s i2c raised = Outcome.ok s1 ∧
        (s1.i2c i2c).writes = (s.i2c i2c).writes ++
          [I2C_Write.CMD I2C_CMD_ABORT, I2C_Write.IEN 0, I2C_Write.IFC (s.i2c i2c).IF,
           I2C_Write.CMD I2C_CMD_CLEARTX, I2C_Write.CMD (I2C_CMD_START ||| I2C_CMD_STOP),
           I2C_Write.IFC (((s.i2c i2c).IF &&& not32 (s.i2c i2c).IF) ||| raised),
           I2C_Write.CMD I2C_CMD_ABORT, I2C_Write.IEN (s.i2c i2c).IEN] ∧
        (s1.i2c i2c).IEN = (s.i2c i2c).IEN ∧
        (∀ q, q ≠ i2c → s1.i2c q = s.i2c q) ∧
        s1.i2c0_statemachine_vars = s.i2c0_statemachine_vars ∧
        s1.i2c1_statemachine_vars = s.i2c1_statemachine_vars ∧
        s1.lowest_energy_mode = s.lowest_energy_mode ∧ s1.mem = s.mem ∧
        s1.event_scheduled = s.event_scheduled ∧ s1.posted = s.posted) ∧
    (raised &&& I2C_IF_MSTOP = 0 →
      ∃ s1, i2c_bus_reset s i2c raised = Outcome.spin s1 ∧ (s1.i2c i2c).IEN = 0 ∧
        (s1.i2c i2c).writes = (s.i2c i2c).writes ++
          [I2C_Write.CMD I2C_CMD_ABORT, I2C_Write.IEN 0, I2C_Write.IFC (s.i2c i2c).IF,
           I2C_Write.CMD I2C_CMD_CLEARTX, I2C_Write.CMD (I2C_CMD_START ||| I2C_CMD_STOP)]) := by
  constructor
  · intro hstop
    have hw := i2c_mstop_raised ((s.i2c i2c).IF &&& not32 (s.i2c i2c).IF) raised hstop
    have e := i2c_bus_reset_eq s i2c raised
    rw [if_neg hw] at e
    refine ⟨_, e, ?_, ?_, ?_, rfl, rfl, rfl, rfl, rfl, rfl⟩
    · rw [System.setReg_i2c_same]
    · rw [System.setReg_i2c_same]
      exact u32_of_lt _ hien
    · intro q hq
      simp [System.setReg, hq]
  · intro hno
    have hw := i2c_mstop_cleared (s.i2c i2c).IF raised hno
    have e := i2c_bus_reset_eq s i2c raised
    rw [if_pos hw] at e
    refine ⟨_, e, ?_, ?_⟩
    · rw [System.setReg_i2c_same]
      rfl
    · rw [System.setReg_i2c_same]

/-- Witness for C28: the reset of the idle controller I2C1 of the opened
system, the controller raising MSTOP. -/
theorem i2c_bus_reset_sequence_witness :
    ∃ s1, i2c_bus_reset (System.opened (fun _ => 0)) I2C_Ptr.I2C1 I2C_IF_MSTOP = Outcome.ok s1 ∧
      (s1.i2c I2C_Ptr.I2C1).IEN = ((System.opened (fun _ => 0)).i2c I2C_Ptr.I2C1).IEN :=
  ((i2c_bus_reset_sequence (System.opened (fun _ => 0)) I2C_Ptr.I2C1 I2C_IF_MSTOP
    (by decide)).1 (by decide)).imp (fun _ h => ⟨h.1, h.2.2.1⟩)

/-! ## The protocol state between transactions -/

theorem i2c_start_ok_state (s s1 : System) (i2c : I2C_Ptr) (dev mode data n reg cb : Nat)
    (h : i2c_start s i2c dev mode data n reg cb = Outcome.ok s1) :
    ∃ p, i2c_local i2c = some p ∧ (s.sm p).busy = true ∧
      (s1.sm p).current_state = DEFINED_STATES.init_write := by
  obtain ⟨p, hbus, hidle, hstate, hroom⟩ := i2c_start_ok_inv s s1 i2c dev mode data n reg cb h
  rw [i2c_start_ok s i2c p dev mode data n reg cb hbus hidle hstate hroom] at h
  cases h
  exact ⟨p, hbus, hidle, by simp⟩

theorem i2c_step_state_invariant (c : I2C_Step) (s s2 : System) (f : SM_Ptr → Bool)
    (ha : ∀ q, f q = true → (s.sm q).busy = false)
    (hb : ∀ q, f q = false → (s.sm q).current_state = DEFINED_STATES.init_write)
    (ht : c.in_time f = true)
    (hrun : c.run s = Outcome.ok s2) :
    (∀ q, c.flight f q = true → (s2.sm q).busy = false) ∧
    (∀ q, c.flight f q = false → (s2.sm q).current_state = DEFINED_STATES.init_write) := by
  cases c with
  | start i2c dev mode data n reg cb =>
    obtain ⟨p, hbus, _, hnew, hoth, _⟩ :=
      i2c_start_ok_sm s s2 i2c dev mode data n reg cb hrun
    have hfl : (I2C_Step.start i2c dev mode data n reg cb).flight f
        = fun q => if q = p then true else f q := by
      funext q
      simp only [I2C_Step.flight, hbus, Option.some.injEq]
      by_cases hq : q = p
      · subst hq
        simp
      · rw [if_neg hq, if_neg (fun e => hq e.symm)]
    rw [hfl]
    refine ⟨?_, ?_⟩
    · intro q hq
      by_cases e : q = p
      · subst e
        exact hnew
      · simp only [if_neg e] at hq
        rw [hoth q e]
        exact ha q hq
    · intro q hq
      by_cases e : q = p
      · subst e
        simp at hq
      · simp only [if_neg e] at hq
        rw [hoth q e]
        exact hb q hq
  | event p e =>
    have hfp : f p = true := ht
    by_cases he : e = I2C_Event.mstop
    · subst he
      obtain ⟨_, _, _, hst, _, _⟩ := i2c_msstop_sm_ok_inv s s2 p hrun
      have hfl : (I2C_Step.event p I2C_Event.mstop).flight f
          = fun q => if q = p then false else f q := rfl
      rw [hfl]
      refine ⟨?_, ?_⟩
      · intro q hq
        by_cases e : q = p
        · subst e
          simp at hq
        · simp only [if_neg e] at hq
          rw [i2c_msstop_sm_other s s2 p q e hrun]
          exact ha q hq
      · intro q hq
        by_cases e : q = p
        · subst e
          exact hst
        · simp only [if_neg e] at hq
          rw [i2c_msstop_sm_other s s2 p q e hrun]
          exact hb q hq
    · rw [I2C_Step.flight_event f p e he]
      refine ⟨?_, ?_⟩
      · intro q hq
        rw [(i2c_event_frame s s2 p q e he hrun).1]
        exact ha q hq
      · intro q hq
        have e1 : q ≠ p := by
          intro e1
          rw [e1, hfp] at hq
          cases hq
        rw [i2c_event_other s s2 p q e e1 hrun]
        exact hb q hq

theorem i2c_steps_state_invariant :
    ∀ (steps : List I2C_Step) (s s1 : System) (f : SM_Ptr → Bool),
      (∀ q, f q = true → (s.sm q).busy = false) →
      (∀ q, f q = false → (s.sm q).current_state = DEFINED_STATES.init_write) →
      events_in_flight f steps = true →
      i2c_steps s steps = Outcome.ok s1 →
      (∀ q, steps.foldl I2C_Step.flight f q = true → (s1.sm q).busy = false) ∧
      (∀ q, steps.foldl I2C_Step.flight f q = false →
        (s1.sm q).current_state = DEFINED_STATES.init_write) := by
  intro steps
  induction steps with
  | nil =>
    intro s s1 f ha hb _ h
    simp only [i2c_steps, Outcome.ok.injEq] at h
    subst h
    exact ⟨ha, hb⟩
  | cons c cs ih =>
    intro s s1 f ha hb ht h
    simp only [events_in_flight, Bool.and_eq_true] at ht
    simp only [i2c_steps] at h
    cases hrun : c.run s with
    | halt s2 => rw [hrun] at h; cases h
    | spin s2 => rw [hrun] at h; cases h
    | ok s2 =>
      rw [hrun] at h
      simp only [Outcome.bind] at h
      obtain ⟨ha2, hb2⟩ := i2c_step_state_invariant c s s2 f ha hb ht.1 hrun
      exact ih s2 s1 (c.flight f) ha2 hb2 ht.2 h

theorem System.setReg_sm (s : System) (p : I2C_Ptr) (r : I2C_TypeDef) (q : SM_Ptr) :
    (s.setReg p r).sm q = s.sm q := by
  cases q <;> rfl

theorem i2c_bus_reset_sm (s : System) (i2c : I2C_Ptr) (raised : Nat) (q : SM_Ptr) :
    (i2c_bus_reset s i2c raised).final.sm q = s.sm q := by
  rw [i2c_bus_reset_eq]
  split <;> simp only [Outcome.final, System.setReg_sm]

theorem Outcome.bind_id_final {α : Type} (r : Outcome System) (f : System → Outcome System)
    (g : System → α) (hf : ∀ x, g (f x).final = g x) :
    g (Outcome.bind id r f).final = g r.final := by
  cases r with
  | ok x => exact hf x
  | halt x => rfl
  | spin x => rfl

theorem i2c_open_state (s : System) (address : I2C_Ptr) (i2c_setup : I2C_OPEN_STRUCT)
    (I2C_Init : I2C_TypeDef → I2C_TypeDef) (raised : Nat) (q : SM_Ptr) :
    ((i2c_open s address i2c_setup I2C_Init raised).final.sm q).current_state
      = (s.sm q).current_state := by
  unfold i2c_open
  simp only []
  rw [Outcome.bind_id_final _ _ (fun x => (x.sm q).current_state)]
  · have h1 : ∀ s1 : System,
        ((if (s1.i2c address).IF &&& 0x01 = 0 then
            if ((s1.store address (I2C_Write.IFS 0x01)).i2c address).IF &&& 0x01 = 0 then
              Outcome.halt (s1.store address (I2C_Write.IFS 0x01))
            else Outcome.ok ((s1.store address (I2C_Write.IFS 0x01)).store address
              (I2C_Write.IFC 0x01))
          else
            if ((s1.store address (I2C_Write.IFC 0x01)).i2c address).IF &&& 0x01 ≠ 0 then
              Outcome.halt (s1.store address (I2C_Write.IFC 0x01))
            else Outcome.ok (s1.store address (I2C_Write.IFC 0x01))).final.sm q) = s1.sm q := by
      intro s1
      split_ifs <;> simp [Outcome.final]
    simp only [h1]
    cases address <;> cases q <;> simp [System.sm_setSM_ite] <;> rfl
  · intro x
    simp only [i2c_bus_reset_sm, System.sm_store, System.setReg_sm]

/-- C26, as it holds: from a state in which both instances are in the state
`init_write` (the value of the zero-initialised statics, which `i2c_open`
keeps), after a run of `i2c_start` calls and I2C interrupt events in which
every step returned and every interrupt event was handled for an instance
whose transaction was in flight, a call of `i2c_start` that returns leaves
`current_state` of both instances as it was before the call, the state of the
started bus being `init_write` before and after. `i2c_open` leaves
`current_state` of both instances unchanged, whatever its outcome. -/
theorem i2c_start_keeps_protocol_state (s0 s s1 : System) (steps : List I2C_Step)
    (i2c : I2C_Ptr) (dev mode data n reg cb : Nat)
    (hinit : ∀ q, (s0.sm q).current_state = DEFINED_STATES.init_write)
    (hev : events_in_flight (fun _ => false) steps = true)
    (hrun : i2c_steps s0 steps = Outcome.ok s)
    (hstart : i2c_start s i2c dev mode data n reg cb = Outcome.ok s1) :
    (∀ q, (s1.sm q).current_state = (s.sm q).current_state) ∧
    (∀ q, i2c_local i2c = some q →
      (s.sm q).current_state = DEFINED_STATES.init_write ∧
      (s1.sm q).current_state = DEFINED_STATES.init_write) ∧
    (∀ (z : System) (address : I2C_Ptr) (i2c_setup : I2C_OPEN_STRUCT)
      (I2C_Init : I2C_TypeDef → I2C_TypeDef) (raised : Nat) (q : SM_Ptr),
      ((i2c_open z address i2c_setup I2C_Init raised).final.sm q).current_state
        = (z.sm q).current_state) := by
  obtain ⟨ha, hb⟩ := i2c_steps_state_invariant steps s0 s (fun _ => false)
    (fun q hq => by cases hq) (fun q _ => hinit q) hev hrun
  obtain ⟨p, hbus, hidle, hnew⟩ := i2c_start_ok_state s s1 i2c dev mode data n reg cb hstart
  obtain ⟨p1, hbus1, _, _, hoth, _⟩ := i2c_start_ok_sm s s1 i2c dev mode data n reg cb hstart
  have hpp : p1 = p := by
    rw [hbus] at hbus1
    exact (Option.some.inj hbus1).symm
  subst hpp
  have hold : (s.sm p1).current_state = DEFINED_STATES.init_write := by
    cases hf : steps.foldl I2C_Step.flight (fun _ => false) p1 with
    | false => exact hb p1 hf
    | true =>
      have := ha p1 hf
      rw [hidle] at this
      cases this
  refine ⟨?_, ?_, i2c_open_state⟩
  · intro q
    by_cases e : q = p1
    · subst e
      rw [hnew, hold]
    · rw [hoth q e]
  · intro q hq
    rw [hbus] at hq
    cases hq
    exact ⟨hold, hnew⟩

/-- Witness for C26: after the one-byte write `write_byte_steps` on I2C1 from
the opened system, a further write is started on I2C1. -/
theorem i2c_start_keeps_protocol_state_witness :
    (((i2c_start (i2c_steps (System.opened (sleep_open (fun _ => 0))) write_byte_steps).final
        I2C_Ptr.I2C1 0x55 WRITE_OP 9 1 0x14 4).final).sm
          SM_Ptr.i2c1_statemachine_vars).current_state
      = ((i2c_steps (System.opened (sleep_open (fun _ => 0))) write_byte_steps).final.sm
        SM_Ptr.i2c1_statemachine_vars).current_state ∧
    ((i2c_steps (System.opened (sleep_open (fun _ => 0))) write_byte_steps).final.sm
        SM_Ptr.i2c1_statemachine_vars).current_state = DEFINED_STATES.init_write :=
  ⟨((i2c_start_keeps_protocol_state (System.opened (sleep_open (fun _ => 0)))
    (i2c_steps (System.opened (sleep_open (fun _ => 0))) write_byte_steps).final
    (i2c_start (i2c_steps (System.opened (sleep_open (fun _ => 0))) write_byte_steps).final
        I2C_Ptr.I2C1 0x55 WRITE_OP 9 1 0x14 4).final
    write_byte_steps I2C_Ptr.I2C1 0x55 WRITE_OP 9 1 0x14 4
    (fun q => by cases q <;> rfl) (by decide) rfl rfl).1 SM_Ptr.i2c1_statemachine_vars),
   (((i2c_start_keeps_protocol_state (System.opened (sleep_open (fun _ => 0)))
    (i2c_steps (System.opened (sleep_open (fun _ => 0))) write_byte_steps).final
    (i2c_start (i2c_steps (System.opened (sleep_open (fun _ => 0))) write_byte_steps).final
        I2C_Ptr.I2C1 0x55 WRITE_OP 9 1 0x14 4).final
    write_byte_steps I2C_Ptr.I2C1 0x55 WRITE_OP 9 1 0x14 4
    (fun q => by cases q <;> rfl) (by decide) rfl rfl).2.1 SM_Ptr.i2c1_statemachine_vars rfl).1)⟩

/-- Counterexample to C26 as stated: from `sleep_open` and both buses opened,
the run `ack_on_idle_bus_steps` returns at every step (no assertion fails) and
ends with I2C1 idle (busy flag true) in the state `read_data`, left there by
the acknowledge handled after the bus-stop; `i2c_start` on I2C1 then proceeds
and returns with the state `init_write`. -/
theorem i2c_start_resets_state_after_idle_ack :
    (i2c_steps (System.opened (sleep_open (fun _ => 0))) ack_on_idle_bus_steps).state?.isSome
      = true ∧
    busy_state (i2c_steps (System.opened (sleep_open (fun _ => 0)))
      ack_on_idle_bus_steps).final I2C_Ptr.I2C1 = true ∧
    ((i2c_steps (System.opened (sleep_open (fun _ => 0))) ack_on_idle_bus_steps).final.sm
      SM_Ptr.i2c1_statemachine_vars).current_state = DEFINED_STATES.read_data ∧
    (i2c_start (i2c_steps (System.opened (sleep_open (fun _ => 0)))
      ack_on_idle_bus_steps).final I2C_Ptr.I2C1 0x55 WRITE_OP 9 1 0x14 4).state?.isSome
        = true ∧
    ((i2c_start (i2c_steps (System.opened (sleep_open (fun _ => 0)))
      ack_on_idle_bus_steps).final I2C_Ptr.I2C1 0x55 WRITE_OP 9 1 0x14 4).final.sm
        SM_Ptr.i2c1_statemachine_vars).current_state = DEFINED_STATES.init_write := by
  decide

/-! ## The flag read by `leuart_tx_busy` -/

theorem leuart_start_read_busy (s : LEUART_System) (leuart : LEUART_Ptr) (string : List Nat)
    (string_len leuart_cb : Nat) :
    (leuart_start s leuart string string_len leuart_cb).final.leuart0_SM_READ.read_busy
      = s.leuart0_SM_READ.read_busy := by
  unfold leuart_start
  split
  · rfl
  · simp only []
    cases h : sleep_block_mode s.lowest_energy_mode LEUART_TX_EM_index <;>
      simp [Outcome.bind, Outcome.final, LEUART_System.withTable, LEUART_System.store]

theorem leuart_event_read_busy (s : LEUART_System) (e : LEUART_Event) :
    (leuart_event s e).final.leuart0_SM_READ.read_busy = s.leuart0_SM_READ.read_busy := by
  cases e with
  | txbl =>
    simp only [leuart_event, TXBL_IRQ]
    cases hc : (s.raise s.leuart0_SM.leuart LEUART_IF_TXBL).leuart0_SM.current_state
    · simp [Outcome.final, LEUART_System.raise]
    · simp only []
      split
      · simp only [leuart_app_transmit_byte]
        split <;>
          simp [Outcome.bind, Outcome.final, LEUART_System.raise, LEUART_System.store]
      · simp [Outcome.final, LEUART_System.raise, LEUART_System.store]
    · simp [Outcome.final, LEUART_System.raise]
  | txc =>
    simp only [leuart_event, TXC_IRQ]
    cases hc : s.leuart0_SM.current_state
    · simp [Outcome.final]
    · simp [Outcome.final]
    · simp only []
      cases h : sleep_unblock_mode (s.store s.leuart0_SM.leuart (LEUART_Write.IEN
          ((s.leuart s.leuart0_SM.leuart).IEN &&& not32 LEUART_IEN_TXC))).lowest_energy_mode
          LEUART_TX_EM_index <;>
        simp [Outcome.bind, Outcome.final, LEUART_System.withTable, LEUART_System.store,
          LEUART_System.post]
  | startf b =>
    simp only [leuart_event, STARTFRAME_HANDLER]
    cases hc : (s.receive s.leuart0_SM_READ.leuart_read b).leuart0_SM_READ.current_read_state <;>
      simp [Outcome.final, LEUART_System.receive, LEUART_System.store]
  | rxdatav b =>
    simp only [leuart_event, RXDATAV_HANDLER]
    cases hc : (s.receive s.leuart0_SM_READ.leuart_read b).leuart0_SM_READ.current_read_state <;>
      simp [Outcome.final, LEUART_System.receive, LEUART_System.store]
  | sigf =>
    simp only [leuart_event, SIGFRAME_HANDLER]
    cases hc : s.leuart0_SM_READ.current_read_state
    · simp [Outcome.final]
    · simp only []
      split <;> simp [Outcome.final, LEUART_System.store, LEUART_System.post]
    · simp [Outcome.final]

theorem LEUART_Step.run_read_busy (s : LEUART_System) (c : LEUART_Step) :
    (c.run s).final.leuart0_SM_READ.read_busy = s.leuart0_SM_READ.read_busy := by
  cases c with
  | registers r => rfl
  | open_statics leuart rx_done_evt => rfl
  | start leuart string string_len leuart_cb =>
    exact leuart_start_read_busy s leuart string string_len leuart_cb
  | event e => exact leuart_event_read_busy s e

theorem leuart_steps_read_busy :
    ∀ (steps : List LEUART_Step) (s : LEUART_System),
      (leuart_steps s steps).final.leuart0_SM_READ.read_busy = s.leuart0_SM_READ.read_busy := by
  intro steps
  induction steps with
  | nil => intro s; rfl
  | cons c cs ih =>
    intro s
    simp only [leuart_steps]
    have h := LEUART_Step.run_read_busy s c
    cases hrun : c.run s with
    | ok s2 =>
      rw [hrun] at h
      simp only [Outcome.bind]
      rw [ih s2]
      exact h
    | halt s2 => rw [hrun] at h; exact h
    | spin s2 => rw [hrun] at h; exact h

/-- C30: from a state of the driver whose `read_busy` flag is false (the
zero-initialised value), after any run of the stores of `leuart_open`,
`leuart_start` calls and LEUART interrupt events, stopped or not by a failed
assertion or a wait, `leuart_tx_busy` returns false: it returns the
`read_busy` flag of the read state machine, which no step changes. So it
returns false also after a `leuart_start` that returned, where the busy flag
of the write state machine is true. -/
theorem leuart_tx_busy_always_false (s0 : LEUART_System) (steps : List LEUART_Step)
    (hzero : s0.leuart0_SM_READ.read_busy = false) :
    leuart_tx_busy (leuart_steps s0 steps).final = false ∧
    (∀ s : LEUART_System, leuart_tx_busy s = s.leuart0_SM_READ.read_busy) ∧
    (∀ (s : LEUART_System) (c : LEUART_Step),
      (c.run s).final.leuart0_SM_READ.read_busy = s.leuart0_SM_READ.read_busy) ∧
    (∀ (leuart : LEUART_Ptr) (string : List Nat) (string_len leuart_cb : Nat)
      (s1 : LEUART_System),
      leuart_start (leuart_steps s0 steps).final leuart string string_len leuart_cb
        = Outcome.ok s1 →
      s1.leuart0_SM.busy = true ∧ leuart_tx_busy s1 = false) := by
  have h0 : leuart_tx_busy (leuart_steps s0 steps).final = false := by
    unfold leuart_tx_busy
    rw [leuart_steps_read_busy steps s0]
    exact hzero
  refine ⟨h0, fun _ => rfl, LEUART_Step.run_read_busy, ?_⟩
  intro leuart string string_len leuart_cb s1 h
  obtain ⟨_, _, hsm, _, _, _, hread, _⟩ :=
    leuart_start_ok_inv _ s1 leuart string string_len leuart_cb h
  refine ⟨by rw [hsm], ?_⟩
  unfold leuart_tx_busy at h0 ⊢
  rw [hread]
  exact h0

/-- Witness for C30: during the transmission of `leuart_sending_steps`, every
step of which returns, the busy flag of the write state machine is true and
`leuart_tx_busy` returns false. -/
theorem leuart_tx_busy_always_false_witness :
    leuart_tx_busy (leuart_steps
      (LEUART_System.reset (sleep_open (fun _ => 0)) (fun _ => LEUART_TypeDef.idle))
      leuart_sending_steps).final = false ∧
    (leuart_steps (LEUART_System.reset (sleep_open (fun _ => 0)) (fun _ => LEUART_TypeDef.idle))
      leuart_sending_steps).state?.isSome = true ∧
    (leuart_steps (LEUART_System.reset (sleep_open (fun _ => 0)) (fun _ => LEUART_TypeDef.idle))
      leuart_sending_steps).final.leuart0_SM.busy = true ∧
    (leuart_steps (LEUART_System.reset (sleep_open (fun _ => 0)) (fun _ => LEUART_TypeDef.idle))
      leuart_sending_steps).final.leuart0_SM.data_sent = 1 :=
  ⟨(leuart_tx_busy_always_false
      (LEUART_System.reset (sleep_open (fun _ => 0)) (fun _ => LEUART_TypeDef.idle))
      leuart_sending_steps rfl).1, by decide, by decide, by decide⟩
